import Mathlib

/-!
SG_V1 — store and sale flow of the management system

A shallow embedding of `src/js/store.js` (the `Store` object and the `state`
it owns) and of the sale flow of `src/js/app.js`.

Modelling conventions
* JavaScript numbers that hold money are exact rationals (`ℚ`); stock and
  quantities are integers (`Int`).  `calculateMargin` rounds every operation to a
  double (`toDouble`); elsewhere floating-point rounding is outside the model.
* Strings are sequences of Unicode scalar values; `toLowerCase` and `trim` follow
  the ECMAScript definitions (Unicode 14.0 case mappings, the `WhiteSpace` and
  `LineTerminator` code points).
* A JavaScript object used as a dictionary is a list of key–value pairs in
  insertion order; `objEntries` gives the order in which `Object.entries` lists
  them.
* A JavaScript object with optional keys is a structure whose optional keys
  are `Option` fields (`none` = key absent / `null` / `undefined`).
* The object spread `{...a, ...b, k: v}` is a field-wise override.
* `state` is the in-memory state, `localStorage` the persisted snapshot; the
  pair is a `Store`.  Writes to `localStorage` are modelled as succeeding.
* Everything the platform supplies (clock, `Math.random`, `Intl` formatting)
  is read from an explicit `Env`.
-/

namespace SGPro

/-! ## Data model -/

/-- One capability group with the four CRUD leaves. -/
structure Crud where
  view : Bool
  create : Bool
  edit : Bool
  delete : Bool
deriving DecidableEq, Repr

/-- The `reports` group: `{ view, export }`. -/
structure ReportPerms where
  view : Bool
  export_ : Bool
deriving DecidableEq, Repr

/-- The `logs` group.  The default matrix carries no `export` key, hence the `Option`. -/
structure LogPerms where
  view : Bool
  export_ : Option Bool
deriving DecidableEq, Repr

/-- The `settings` group: `{ view, edit }`. -/
structure SettingsPerms where
  view : Bool
  edit : Bool
deriving DecidableEq, Repr

/-- The permission matrix returned by `getUserPermissions`. -/
structure Permissions where
  dashboard : Bool
  products : Crud
  sales : Crud
  expenses : Crud
  reports : ReportPerms
  users : Crud
  logs : LogPerms
  settings : SettingsPerms
deriving DecidableEq, Repr

/-- A product record of `state.products`. -/
structure Product where
  id : String
  code : String
  name : String
  category : String
  cost : ℚ
  price : ℚ
  stock : Int
  description : String
  createdAt : Option String
  updatedAt : Option String
deriving DecidableEq, Repr

/-- The argument of `addProduct`: the form data, which may also carry an `id` key. -/
structure ProductData where
  id : Option String
  code : String
  name : String
  category : String
  cost : ℚ
  price : ℚ
  stock : Int
  description : String
deriving DecidableEq, Repr

/-- The argument `updates` of `updateProduct`: any subset of the product keys. -/
structure ProductUpdates where
  id : Option String
  code : Option String
  name : Option String
  category : Option String
  cost : Option ℚ
  price : Option ℚ
  stock : Option Int
  description : Option String
  createdAt : Option String
  updatedAt : Option String
deriving DecidableEq, Repr

/-- A line of a sale (and of the cart `App.saleItems`). -/
structure SaleItem where
  productId : String
  name : String
  price : ℚ
  quantity : Int
  total : ℚ
deriving DecidableEq, Repr

/-- A sale record of `state.sales`. -/
structure Sale where
  id : String
  client : String
  items : List SaleItem
  total : ℚ
  cost : ℚ
  date : String
  userId : Option String
  createdAt : String
deriving DecidableEq, Repr

/-- The argument of `addSale`; it may also carry an `id` key. -/
structure SaleData where
  id : Option String
  client : String
  items : List SaleItem
  total : ℚ
  cost : ℚ
  date : String
  userId : Option String
deriving DecidableEq, Repr

/-- An expense record of `state.expenses`. -/
structure Expense where
  id : String
  description : String
  category : String
  value : ℚ
  date : String
  notes : String
  createdAt : String
deriving DecidableEq, Repr

/-- The argument of `addExpense`; it may also carry an `id` key. -/
structure ExpenseData where
  id : Option String
  description : String
  category : String
  value : ℚ
  date : String
  notes : String
deriving DecidableEq, Repr

/-- A user record of `state.users`. -/
structure User where
  id : String
  username : String
  password : String
  fullName : String
  email : String
  profile : String
  active : Bool
  lastLogin : Option String
  createdAt : Option String
  updatedAt : Option String
deriving DecidableEq, Repr

/-- The argument of `addUser`; it may also carry an `id` key. -/
structure UserData where
  id : Option String
  username : String
  password : String
  fullName : String
  email : String
  profile : String
deriving DecidableEq, Repr

/-- The argument `updates` of `updateUser`: any subset of the user keys. -/
structure UserUpdates where
  id : Option String
  username : Option String
  password : Option String
  fullName : Option String
  email : Option String
  profile : Option String
  active : Option Bool
  lastLogin : Option (Option String)
  createdAt : Option String
deriving DecidableEq, Repr

/-- An audit-log entry of `state.logs`. -/
structure LogEntry where
  id : String
  timestamp : String
  action : String
  module : String
  details : String
  userId : Option String
  userName : String
deriving DecidableEq, Repr

/-- The singleton `state.settings`. -/
structure Settings where
  companyName : String
  currency : String
  dateFormat : String
  lowStockThreshold : Int
  taxRate : ℚ
  readOnlyMode : Option Bool
deriving DecidableEq, Repr

/-- A settings payload of `importData`: any subset of the settings keys. -/
structure SettingsUpdates where
  companyName : Option String
  currency : Option String
  dateFormat : Option String
  lowStockThreshold : Option Int
  taxRate : Option ℚ
  readOnlyMode : Option Bool
deriving DecidableEq, Repr

/-- The session snapshot `state.currentUser`. -/
structure Session where
  id : String
  username : String
  fullName : String
  email : String
  profile : String
  permissions : Permissions
deriving DecidableEq, Repr

/-- The in-memory `state` object. -/
structure State where
  currentUser : Option Session
  products : List Product
  sales : List Sale
  expenses : List Expense
  users : List User
  logs : List LogEntry
  settings : Settings
deriving DecidableEq, Repr

/-- The persisted snapshot: one optional entry per `STORAGE_KEYS` key. -/
structure Storage where
  products : Option (List Product)
  sales : Option (List Sale)
  expenses : Option (List Expense)
  users : Option (List User)
  logs : Option (List LogEntry)
  currentUser : Option Session
  settings : Option Settings
deriving DecidableEq, Repr

/-- The store: the in-memory state together with the persisted snapshot. -/
structure Store where
  state : State
  localStorage : Storage
deriving DecidableEq, Repr

/-- What the platform supplies to one call: `Date.now()`, `new Date().toISOString()`,
the text of `Math.random().toString(36)`, `Intl` currency formatting, and the local
calendar fields of `new Date()` (`getFullYear()`, `getMonth()` from 0 to 11,
`getDate()` from 1 to 31). -/
structure Env where
  nowMs : Nat
  nowIso : String
  random : String
  formatCurrency : ℚ → String
  year : Int
  month : Nat
  day : Nat

/-! ## Platform helpers -/

/-- The digit of `Number.prototype.toString(36)` for a value below 36. -/
def base36Digit (d : Nat) : Char :=
  if d < 10 then Char.ofNat (48 + d) else Char.ofNat (87 + d)

/-- Digits of `n` in base 36, most significant first, with explicit fuel. -/
def toBase36Core : Nat → Nat → List Char → List Char
  | 0, _, ds => ds
  | fuel + 1, n, ds =>
    if n / 36 = 0 then base36Digit (n % 36) :: ds
    else toBase36Core fuel (n / 36) (base36Digit (n % 36) :: ds)

/-- Model of `n.toString(36)` for a non-negative integer. -/
def toBase36 (n : Nat) : String := String.mk (toBase36Core (n + 1) n [])

/-- The simple lowercase mappings of the Unicode Character Database (version 14.0)
outside ASCII.  An entry `(first, last, step, target)` sends each code point
`first + k * step` up to `last` to `target + k * step`; a code point in no entry is
its own lowercase. -/
def lowercaseRules : List (Nat × Nat × Nat × Nat) :=
  [
    (192, 214, 1, 224), (216, 222, 1, 248), (256, 302, 2, 257), (306, 310, 2, 307),
    (313, 327, 2, 314), (330, 374, 2, 331), (376, 376, 1, 255), (377, 381, 2, 378),
    (385, 385, 1, 595), (386, 388, 2, 387), (390, 390, 1, 596), (391, 391, 1, 392),
    (393, 394, 1, 598), (395, 395, 1, 396), (398, 398, 1, 477), (399, 399, 1, 601),
    (400, 400, 1, 603), (401, 401, 1, 402), (403, 403, 1, 608), (404, 404, 1, 611),
    (406, 406, 1, 617), (407, 407, 1, 616), (408, 408, 1, 409), (412, 412, 1, 623),
    (413, 413, 1, 626), (415, 415, 1, 629), (416, 420, 2, 417), (422, 422, 1, 640),
    (423, 423, 1, 424), (425, 425, 1, 643), (428, 428, 1, 429), (430, 430, 1, 648),
    (431, 431, 1, 432), (433, 434, 1, 650), (435, 437, 2, 436), (439, 439, 1, 658),
    (440, 440, 1, 441), (444, 444, 1, 445), (452, 452, 1, 454), (453, 453, 1, 454),
    (455, 455, 1, 457), (456, 456, 1, 457), (458, 458, 1, 460), (459, 475, 2, 460),
    (478, 494, 2, 479), (497, 497, 1, 499), (498, 500, 2, 499), (502, 502, 1, 405),
    (503, 503, 1, 447), (504, 542, 2, 505), (544, 544, 1, 414), (546, 562, 2, 547),
    (570, 570, 1, 11365), (571, 571, 1, 572), (573, 573, 1, 410), (574, 574, 1, 11366),
    (577, 577, 1, 578), (579, 579, 1, 384), (580, 580, 1, 649), (581, 581, 1, 652),
    (582, 590, 2, 583), (880, 882, 2, 881), (886, 886, 1, 887), (895, 895, 1, 1011),
    (902, 902, 1, 940), (904, 906, 1, 941), (908, 908, 1, 972), (910, 911, 1, 973),
    (913, 929, 1, 945), (931, 939, 1, 963), (975, 975, 1, 983), (984, 1006, 2, 985),
    (1012, 1012, 1, 952), (1015, 1015, 1, 1016), (1017, 1017, 1, 1010), (1018, 1018, 1, 1019),
    (1021, 1023, 1, 891), (1024, 1039, 1, 1104), (1040, 1071, 1, 1072), (1120, 1152, 2, 1121),
    (1162, 1214, 2, 1163), (1216, 1216, 1, 1231), (1217, 1229, 2, 1218), (1232, 1326, 2, 1233),
    (1329, 1366, 1, 1377), (4256, 4293, 1, 11520), (4295, 4295, 1, 11559), (4301, 4301, 1, 11565),
    (5024, 5103, 1, 43888), (5104, 5109, 1, 5112), (7312, 7354, 1, 4304), (7357, 7359, 1, 4349),
    (7680, 7828, 2, 7681), (7838, 7838, 1, 223), (7840, 7934, 2, 7841), (7944, 7951, 1, 7936),
    (7960, 7965, 1, 7952), (7976, 7983, 1, 7968), (7992, 7999, 1, 7984), (8008, 8013, 1, 8000),
    (8025, 8031, 2, 8017), (8040, 8047, 1, 8032), (8072, 8079, 1, 8064), (8088, 8095, 1, 8080),
    (8104, 8111, 1, 8096), (8120, 8121, 1, 8112), (8122, 8123, 1, 8048), (8124, 8124, 1, 8115),
    (8136, 8139, 1, 8050), (8140, 8140, 1, 8131), (8152, 8153, 1, 8144), (8154, 8155, 1, 8054),
    (8168, 8169, 1, 8160), (8170, 8171, 1, 8058), (8172, 8172, 1, 8165), (8184, 8185, 1, 8056),
    (8186, 8187, 1, 8060), (8188, 8188, 1, 8179), (8486, 8486, 1, 969), (8490, 8490, 1, 107),
    (8491, 8491, 1, 229), (8498, 8498, 1, 8526), (8544, 8559, 1, 8560), (8579, 8579, 1, 8580),
    (9398, 9423, 1, 9424), (11264, 11311, 1, 11312), (11360, 11360, 1, 11361), (11362, 11362, 1, 619),
    (11363, 11363, 1, 7549), (11364, 11364, 1, 637), (11367, 11371, 2, 11368), (11373, 11373, 1, 593),
    (11374, 11374, 1, 625), (11375, 11375, 1, 592), (11376, 11376, 1, 594), (11378, 11378, 1, 11379),
    (11381, 11381, 1, 11382), (11390, 11391, 1, 575), (11392, 11490, 2, 11393), (11499, 11501, 2, 11500),
    (11506, 11506, 1, 11507), (42560, 42604, 2, 42561), (42624, 42650, 2, 42625), (42786, 42798, 2, 42787),
    (42802, 42862, 2, 42803), (42873, 42875, 2, 42874), (42877, 42877, 1, 7545), (42878, 42886, 2, 42879),
    (42891, 42891, 1, 42892), (42893, 42893, 1, 613), (42896, 42898, 2, 42897), (42902, 42920, 2, 42903),
    (42922, 42922, 1, 614), (42923, 42923, 1, 604), (42924, 42924, 1, 609), (42925, 42925, 1, 620),
    (42926, 42926, 1, 618), (42928, 42928, 1, 670), (42929, 42929, 1, 647), (42930, 42930, 1, 669),
    (42931, 42931, 1, 43859), (42932, 42946, 2, 42933), (42948, 42948, 1, 42900), (42949, 42949, 1, 642),
    (42950, 42950, 1, 7566), (42951, 42953, 2, 42952), (42960, 42960, 1, 42961), (42966, 42968, 2, 42967),
    (42997, 42997, 1, 42998), (65313, 65338, 1, 65345), (66560, 66599, 1, 66600), (66736, 66771, 1, 66776),
    (66928, 66938, 1, 66967), (66940, 66954, 1, 66979), (66956, 66962, 1, 66995), (66964, 66965, 1, 67003),
    (68736, 68786, 1, 68800), (71840, 71871, 1, 71872), (93760, 93791, 1, 93792), (125184, 125217, 1, 125218)
  ]

/-- The code points with the property `Case_Ignorable`, as closed ranges. -/
def caseIgnorableRanges : List (Nat × Nat) :=
  [
    (39, 39), (46, 46), (58, 58), (94, 94), (96, 96), (168, 168),
    (173, 173), (175, 175), (180, 180), (183, 184), (688, 879), (884, 885),
    (890, 890), (900, 901), (903, 903), (1155, 1161), (1369, 1369), (1375, 1375),
    (1425, 1469), (1471, 1471), (1473, 1474), (1476, 1477), (1479, 1479), (1524, 1524),
    (1536, 1541), (1552, 1562), (1564, 1564), (1600, 1600), (1611, 1631), (1648, 1648),
    (1750, 1757), (1759, 1768), (1770, 1773), (1807, 1807), (1809, 1809), (1840, 1866),
    (1958, 1968), (2027, 2037), (2042, 2042), (2045, 2045), (2070, 2093), (2137, 2139),
    (2184, 2184), (2192, 2193), (2200, 2207), (2249, 2306), (2362, 2362), (2364, 2364),
    (2369, 2376), (2381, 2381), (2385, 2391), (2402, 2403), (2417, 2417), (2433, 2433),
    (2492, 2492), (2497, 2500), (2509, 2509), (2530, 2531), (2558, 2558), (2561, 2562),
    (2620, 2620), (2625, 2626), (2631, 2632), (2635, 2637), (2641, 2641), (2672, 2673),
    (2677, 2677), (2689, 2690), (2748, 2748), (2753, 2757), (2759, 2760), (2765, 2765),
    (2786, 2787), (2810, 2815), (2817, 2817), (2876, 2876), (2879, 2879), (2881, 2884),
    (2893, 2893), (2901, 2902), (2914, 2915), (2946, 2946), (3008, 3008), (3021, 3021),
    (3072, 3072), (3076, 3076), (3132, 3132), (3134, 3136), (3142, 3144), (3146, 3149),
    (3157, 3158), (3170, 3171), (3201, 3201), (3260, 3260), (3263, 3263), (3270, 3270),
    (3276, 3277), (3298, 3299), (3328, 3329), (3387, 3388), (3393, 3396), (3405, 3405),
    (3426, 3427), (3457, 3457), (3530, 3530), (3538, 3540), (3542, 3542), (3633, 3633),
    (3636, 3642), (3654, 3662), (3761, 3761), (3764, 3772), (3782, 3782), (3784, 3789),
    (3864, 3865), (3893, 3893), (3895, 3895), (3897, 3897), (3953, 3966), (3968, 3972),
    (3974, 3975), (3981, 3991), (3993, 4028), (4038, 4038), (4141, 4144), (4146, 4151),
    (4153, 4154), (4157, 4158), (4184, 4185), (4190, 4192), (4209, 4212), (4226, 4226),
    (4229, 4230), (4237, 4237), (4253, 4253), (4348, 4348), (4957, 4959), (5906, 5908),
    (5938, 5939), (5970, 5971), (6002, 6003), (6068, 6069), (6071, 6077), (6086, 6086),
    (6089, 6099), (6103, 6103), (6109, 6109), (6155, 6159), (6211, 6211), (6277, 6278),
    (6313, 6313), (6432, 6434), (6439, 6440), (6450, 6450), (6457, 6459), (6679, 6680),
    (6683, 6683), (6742, 6742), (6744, 6750), (6752, 6752), (6754, 6754), (6757, 6764),
    (6771, 6780), (6783, 6783), (6823, 6823), (6832, 6862), (6912, 6915), (6964, 6964),
    (6966, 6970), (6972, 6972), (6978, 6978), (7019, 7027), (7040, 7041), (7074, 7077),
    (7080, 7081), (7083, 7085), (7142, 7142), (7144, 7145), (7149, 7149), (7151, 7153),
    (7212, 7219), (7222, 7223), (7288, 7293), (7376, 7378), (7380, 7392), (7394, 7400),
    (7405, 7405), (7412, 7412), (7416, 7417), (7468, 7530), (7544, 7544), (7579, 7679),
    (8125, 8125), (8127, 8129), (8141, 8143), (8157, 8159), (8173, 8175), (8189, 8190),
    (8203, 8207), (8216, 8217), (8228, 8228), (8231, 8231), (8234, 8238), (8288, 8292),
    (8294, 8303), (8305, 8305), (8319, 8319), (8336, 8348), (8400, 8432), (11388, 11389),
    (11503, 11505), (11631, 11631), (11647, 11647), (11744, 11775), (11823, 11823), (12293, 12293),
    (12330, 12333), (12337, 12341), (12347, 12347), (12441, 12446), (12540, 12542), (40981, 40981),
    (42232, 42237), (42508, 42508), (42607, 42610), (42612, 42621), (42623, 42623), (42652, 42655),
    (42736, 42737), (42752, 42785), (42864, 42864), (42888, 42890), (42994, 42996), (43000, 43001),
    (43010, 43010), (43014, 43014), (43019, 43019), (43045, 43046), (43052, 43052), (43204, 43205),
    (43232, 43249), (43263, 43263), (43302, 43309), (43335, 43345), (43392, 43394), (43443, 43443),
    (43446, 43449), (43452, 43453), (43471, 43471), (43493, 43494), (43561, 43566), (43569, 43570),
    (43573, 43574), (43587, 43587), (43596, 43596), (43632, 43632), (43644, 43644), (43696, 43696),
    (43698, 43700), (43703, 43704), (43710, 43711), (43713, 43713), (43741, 43741), (43756, 43757),
    (43763, 43764), (43766, 43766), (43867, 43871), (43881, 43883), (44005, 44005), (44008, 44008),
    (44013, 44013), (64286, 64286), (64434, 64450), (65024, 65039), (65043, 65043), (65056, 65071),
    (65106, 65106), (65109, 65109), (65279, 65279), (65287, 65287), (65294, 65294), (65306, 65306),
    (65342, 65342), (65344, 65344), (65392, 65392), (65438, 65439), (65507, 65507), (65529, 65531),
    (66045, 66045), (66272, 66272), (66422, 66426), (67456, 67461), (67463, 67504), (67506, 67514),
    (68097, 68099), (68101, 68102), (68108, 68111), (68152, 68154), (68159, 68159), (68325, 68326),
    (68900, 68903), (69291, 69292), (69446, 69456), (69506, 69509), (69633, 69633), (69688, 69702),
    (69744, 69744), (69747, 69748), (69759, 69761), (69811, 69814), (69817, 69818), (69821, 69821),
    (69826, 69826), (69837, 69837), (69888, 69890), (69927, 69931), (69933, 69940), (70003, 70003),
    (70016, 70017), (70070, 70078), (70089, 70092), (70095, 70095), (70191, 70193), (70196, 70196),
    (70198, 70199), (70206, 70206), (70367, 70367), (70371, 70378), (70400, 70401), (70459, 70460),
    (70464, 70464), (70502, 70508), (70512, 70516), (70712, 70719), (70722, 70724), (70726, 70726),
    (70750, 70750), (70835, 70840), (70842, 70842), (70847, 70848), (70850, 70851), (71090, 71093),
    (71100, 71101), (71103, 71104), (71132, 71133), (71219, 71226), (71229, 71229), (71231, 71232),
    (71339, 71339), (71341, 71341), (71344, 71349), (71351, 71351), (71453, 71455), (71458, 71461),
    (71463, 71467), (71727, 71735), (71737, 71738), (71995, 71996), (71998, 71998), (72003, 72003),
    (72148, 72151), (72154, 72155), (72160, 72160), (72193, 72202), (72243, 72248), (72251, 72254),
    (72263, 72263), (72273, 72278), (72281, 72283), (72330, 72342), (72344, 72345), (72752, 72758),
    (72760, 72765), (72767, 72767), (72850, 72871), (72874, 72880), (72882, 72883), (72885, 72886),
    (73009, 73014), (73018, 73018), (73020, 73021), (73023, 73029), (73031, 73031), (73104, 73105),
    (73109, 73109), (73111, 73111), (73459, 73460), (78896, 78904), (92912, 92916), (92976, 92982),
    (92992, 92995), (94031, 94031), (94095, 94111), (94176, 94177), (94179, 94180), (110576, 110579),
    (110581, 110587), (110589, 110590), (113821, 113822), (113824, 113827), (118528, 118573), (118576, 118598),
    (119143, 119145), (119155, 119170), (119173, 119179), (119210, 119213), (119362, 119364), (121344, 121398),
    (121403, 121452), (121461, 121461), (121476, 121476), (121499, 121503), (121505, 121519), (122880, 122886),
    (122888, 122904), (122907, 122913), (122915, 122916), (122918, 122922), (123184, 123197), (123566, 123566),
    (123628, 123631), (125136, 125142), (125252, 125259), (127995, 127999), (917505, 917505), (917536, 917631),
    (917760, 917999)
  ]

/-- The code points with the property `Cased`, as closed ranges. -/
def casedRanges : List (Nat × Nat) :=
  [
    (65, 90), (97, 122), (170, 170), (181, 181), (186, 186), (192, 214),
    (216, 246), (248, 442), (444, 447), (452, 659), (661, 696), (704, 705),
    (736, 740), (837, 837), (880, 883), (886, 887), (890, 893), (895, 895),
    (902, 902), (904, 906), (908, 908), (910, 929), (931, 1013), (1015, 1153),
    (1162, 1327), (1329, 1366), (1376, 1416), (4256, 4293), (4295, 4295), (4301, 4301),
    (4304, 4346), (4349, 4351), (5024, 5109), (5112, 5117), (7296, 7304), (7312, 7354),
    (7357, 7359), (7424, 7615), (7680, 7957), (7960, 7965), (7968, 8005), (8008, 8013),
    (8016, 8023), (8025, 8025), (8027, 8027), (8029, 8029), (8031, 8061), (8064, 8116),
    (8118, 8124), (8126, 8126), (8130, 8132), (8134, 8140), (8144, 8147), (8150, 8155),
    (8160, 8172), (8178, 8180), (8182, 8188), (8305, 8305), (8319, 8319), (8336, 8348),
    (8450, 8450), (8455, 8455), (8458, 8467), (8469, 8469), (8473, 8477), (8484, 8484),
    (8486, 8486), (8488, 8488), (8490, 8493), (8495, 8500), (8505, 8505), (8508, 8511),
    (8517, 8521), (8526, 8526), (8544, 8575), (8579, 8580), (9398, 9449), (11264, 11492),
    (11499, 11502), (11506, 11507), (11520, 11557), (11559, 11559), (11565, 11565), (42560, 42605),
    (42624, 42653), (42786, 42887), (42891, 42894), (42896, 42954), (42960, 42961), (42963, 42963),
    (42965, 42969), (42997, 42998), (43000, 43002), (43824, 43866), (43868, 43880), (43888, 43967),
    (64256, 64262), (64275, 64279), (65313, 65338), (65345, 65370), (66560, 66639), (66736, 66771),
    (66776, 66811), (66928, 66938), (66940, 66954), (66956, 66962), (66964, 66965), (66967, 66977),
    (66979, 66993), (66995, 67001), (67003, 67004), (67456, 67456), (67459, 67461), (67463, 67504),
    (67506, 67514), (68736, 68786), (68800, 68850), (71840, 71903), (93760, 93823), (119808, 119892),
    (119894, 119964), (119966, 119967), (119970, 119970), (119973, 119974), (119977, 119980), (119982, 119993),
    (119995, 119995), (119997, 120003), (120005, 120069), (120071, 120074), (120077, 120084), (120086, 120092),
    (120094, 120121), (120123, 120126), (120128, 120132), (120134, 120134), (120138, 120144), (120146, 120485),
    (120488, 120512), (120514, 120538), (120540, 120570), (120572, 120596), (120598, 120628), (120630, 120654),
    (120656, 120686), (120688, 120712), (120714, 120744), (120746, 120770), (120772, 120779), (122624, 122633),
    (122635, 122654), (125184, 125251), (127280, 127305), (127312, 127337), (127344, 127369)
  ]

/-- The lowercase of one code point: A–Z directly, the rest through the table. -/
def lowerCodePoint (n : Nat) : Nat :=
  if n < 128 then (if 65 ≤ n ∧ n ≤ 90 then n + 32 else n)
  else
    match lowercaseRules.find?
        (fun r => decide (r.1 ≤ n) && decide (n ≤ r.2.1) && (n - r.1) % r.2.2.1 == 0) with
    | some r => r.2.2.2 + (n - r.1)
    | none => n

/-- The property `Case_Ignorable` of a character. -/
def isCaseIgnorable (c : Char) : Bool :=
  caseIgnorableRanges.any (fun r => decide (r.1 ≤ c.toNat) && decide (c.toNat ≤ r.2))

/-- The property `Cased` of a character. -/
def isCased (c : Char) : Bool :=
  casedRanges.any (fun r => decide (r.1 ≤ c.toNat) && decide (c.toNat ≤ r.2))

/-- The condition `Final_Sigma` of the Unicode case algorithm: the capital sigma is
preceded by a cased letter and follows no cased letter, case-ignorable characters
being skipped on both sides.  `before` lists the preceding characters, nearest
first; `after` the following ones. -/
def finalSigma (before after : List Char) : Bool :=
  (match before.dropWhile isCaseIgnorable with
    | c :: _ => isCased c
    | [] => false)
  && (match after.dropWhile isCaseIgnorable with
    | c :: _ => !isCased c
    | [] => true)

/-- The lowercase of the characters of a text, given the characters before them
(nearest first): `Σ` becomes `ς` in final position and `σ` elsewhere, `İ` becomes
`i` followed by the combining dot above, every other character is mapped alone. -/
def lowerFrom (before : List Char) : List Char → List Char
  | [] => []
  | c :: rest =>
    (if c.toNat = 931 then
        [if finalSigma before rest then Char.ofNat 962 else Char.ofNat 963]
      else if c.toNat = 304 then [Char.ofNat 105, Char.ofNat 775]
      else [Char.ofNat (lowerCodePoint c.toNat)])
      ++ lowerFrom (c :: before) rest

/-- Model of `String.prototype.toLowerCase`: the locale-independent lowercase
conversion of the Unicode standard (full case mappings, version 14.0 of the
character database), on texts without unpaired surrogates. -/
def toLowerCase (s : String) : String := String.mk (lowerFrom [] s.data)

/-- The characters `String.prototype.trim` removes: the white space and the line
terminators of ECMAScript (tab, line feed, vertical tab, form feed, carriage return,
space, no-break space, the Unicode space separators, line and paragraph separator,
byte order mark). -/
def isJsWhitespace (c : Char) : Bool :=
  let n := c.toNat
  (9 ≤ n && n ≤ 13) || n == 32 || n == 160 || n == 5760 || (8192 ≤ n && n ≤ 8202)
    || n == 8232 || n == 8233 || n == 8239 || n == 8287 || n == 12288 || n == 65279

/-- Model of `String.prototype.trim`: white space is removed at both ends. -/
def trim (s : String) : String :=
  String.mk ((s.data.dropWhile isJsWhitespace).reverse.dropWhile isJsWhitespace).reverse

/-- Model of `s.substring(start, stop)` for `start ≤ stop`. -/
def substring (s : String) (start stop : Nat) : String :=
  String.mk ((s.data.drop start).take (stop - start))

/-- Model of `iso.split('T')[0]`: the text before the first `T`. -/
def datePart (iso : String) : String :=
  String.mk (iso.data.takeWhile (fun c => c != 'T'))

/-- Truthiness of an optional string: `null`, `undefined` and `''` are falsy. -/
def truthy (s : Option String) : Bool :=
  match s with
  | none => false
  | some v => v != ""

/-- In-place mutation of the object returned by `Array.prototype.find`: the first
element satisfying `p` is replaced by its image under `f`, the rest is untouched. -/
def modifyFirst {α : Type} (p : α → Bool) (f : α → α) : List α → List α
  | [] => []
  | x :: xs => if p x then f x :: xs else x :: modifyFirst p f xs

/-! ## Persistence -/

/-- `Store.saveToStorage`: every collection and the settings are overwritten; the
session key is written only when a session exists. -/
def Store.saveToStorage (s : Store) : Store :=
  { s with localStorage :=
      { products := some s.state.products
        sales := some s.state.sales
        expenses := some s.state.expenses
        users := some s.state.users
        logs := some s.state.logs
        settings := some s.state.settings
        currentUser :=
          match s.state.currentUser with
          | some u => some u
          | none => s.localStorage.currentUser } }

/-- `Store.saveLogs`: only the logs key is written. -/
def Store.saveLogs (s : Store) : Store :=
  { s with localStorage := { s.localStorage with logs := some s.state.logs } }

/-! ## Audit log -/

/-- The entry built by `addLog` (the object literal `log`). -/
def Store.makeLog (env : Env) (s : Store) (action module details : String)
    (userId userName : Option String) : LogEntry :=
  { id := "log_" ++ toBase36 env.nowMs ++ substring env.random 2 5
    timestamp := env.nowIso
    action := action
    module := module
    details := details
    userId :=
      if truthy userId then userId
      else match s.state.currentUser with
        | some u => some u.id
        | none => none
    userName :=
      if truthy userName then userName.getD ""
      else match s.state.currentUser with
        | some u => u.fullName
        | none => "Sistema" }

/-- `Store.addLog(action, module, details, userId, userName)`. -/
def Store.addLog (env : Env) (s : Store) (action module details : String)
    (userId userName : Option String) : Store × LogEntry :=
  let log := Store.makeLog env s action module details userId userName
  let unshifted := log :: s.state.logs
  let logs := if unshifted.length > 1000 then unshifted.take 1000 else unshifted
  (Store.saveLogs { s with state := { s.state with logs := logs } }, log)

/-! ## Authentication and permissions -/

/-- `Store.getUserPermissions(profile)`. -/
def Store.getUserPermissions (profile : String) : Permissions :=
  let permissions : Permissions :=
    { dashboard := true
      products := { view := true, create := true, edit := true, delete := true }
      sales := { view := true, create := true, edit := false, delete := true }
      expenses := { view := true, create := true, edit := true, delete := true }
      reports := { view := true, export_ := true }
      users := { view := false, create := false, edit := false, delete := false }
      logs := { view := false, export_ := none }
      settings := { view := false, edit := false } }
  if profile = "admin" then
    { dashboard := true
      products := { view := true, create := true, edit := true, delete := true }
      sales := { view := true, create := true, edit := true, delete := true }
      expenses := { view := true, create := true, edit := true, delete := true }
      reports := { view := true, export_ := true }
      users := { view := true, create := true, edit := true, delete := true }
      logs := { view := true, export_ := some true }
      settings := { view := true, edit := true } }
  else if profile = "manager" then
    { dashboard := true
      products := { view := true, create := true, edit := true, delete := true }
      sales := { view := true, create := true, edit := true, delete := true }
      expenses := { view := true, create := true, edit := true, delete := true }
      reports := { view := true, export_ := true }
      users := { view := false, create := false, edit := false, delete := false }
      logs := { view := true, export_ := some false }
      settings := { view := false, edit := false } }
  else if profile = "operator" then
    { dashboard := true
      products := { view := true, create := false, edit := false, delete := false }
      sales := { view := true, create := true, edit := false, delete := false }
      expenses := { view := true, create := false, edit := false, delete := false }
      reports := { view := true, export_ := false }
      users := { view := false, create := false, edit := false, delete := false }
      logs := { view := false, export_ := some false }
      settings := { view := false, edit := false } }
  else permissions

/-- The discriminated result of `Store.login`. -/
inductive LoginResult where
  | success (user : Session)
  | failure (message : String)
deriving DecidableEq, Repr

/-- The `success` flag of a login result. -/
def LoginResult.isSuccess : LoginResult → Bool
  | .success _ => true
  | .failure _ => false

/-- The message returned for a matching but inactive user. -/
def inactiveMessage : String := "Usuário inativo. Contate o administrador."

/-- The message returned when no user matches the credentials. -/
def invalidMessage : String := "Usuário ou senha inválidos."

/-- The predicate of the `find` in `login`: username equal ignoring case and
password strictly equal. -/
def credentialsMatch (username password : String) (u : User) : Bool :=
  toLowerCase u.username == toLowerCase username && u.password == password

/-- `Store.login(username, password)`. -/
def Store.login (env : Env) (s : Store) (username password : String) :
    Store × LoginResult :=
  match s.state.users.find? (credentialsMatch username password) with
  | some user =>
    if !user.active then (s, .failure inactiveMessage)
    else
      let users := modifyFirst (credentialsMatch username password)
        (fun u => { u with lastLogin := some env.nowIso }) s.state.users
      let session : Session :=
        { id := user.id
          username := user.username
          fullName := user.fullName
          email := user.email
          profile := user.profile
          permissions := Store.getUserPermissions user.profile }
      let s1 : Store :=
        { s with state := { s.state with users := users, currentUser := some session } }
      let s2 := Store.saveToStorage s1
      let s3 := (Store.addLog env s2 "login" "usuarios" "Login realizado com sucesso"
        (some user.id) (some user.fullName)).1
      (s3, .success session)
  | none =>
    let s1 := (Store.addLog env s "login" "usuarios"
      ("Falha de login para usuário: " ++ username) none none).1
    (s1, .failure invalidMessage)

/-- `Store.logout()`. -/
def Store.logout (env : Env) (s : Store) : Store :=
  let s1 :=
    match s.state.currentUser with
    | some u => (Store.addLog env s "logout" "usuarios" "Logout realizado"
        (some u.id) (some u.fullName)).1
    | none => s
  { state := { s1.state with currentUser := none }
    localStorage := { s1.localStorage with currentUser := none } }

/-- `Store.isLoggedIn()`. -/
def Store.isLoggedIn (s : Store) : Bool := s.state.currentUser.isSome

/-! ## Products -/

/-- `Store.getProduct(id)`. -/
def Store.getProduct (s : Store) (id : String) : Option Product :=
  s.state.products.find? (fun p => p.id == id)

/-- The object literal of `addProduct`: `{ id: ..., ...product, createdAt, updatedAt }`. -/
def newProductOf (env : Env) (product : ProductData) : Product :=
  { id := (product.id).getD ("prod_" ++ toBase36 env.nowMs)
    code := product.code
    name := product.name
    category := product.category
    cost := product.cost
    price := product.price
    stock := product.stock
    description := product.description
    createdAt := some env.nowIso
    updatedAt := some env.nowIso }

/-- `Store.addProduct(product)`. -/
def Store.addProduct (env : Env) (s : Store) (product : ProductData) : Store × Product :=
  let newProduct := newProductOf env product
  let s1 : Store :=
    { s with state := { s.state with products := s.state.products ++ [newProduct] } }
  let s2 := Store.saveToStorage s1
  let s3 := (Store.addLog env s2 "create" "produtos"
    ("Produto criado: " ++ product.name ++ " (Código: " ++ product.code ++ ")") none none).1
  (s3, newProduct)

/-- The object literal of `updateProduct`:
`{ ...state.products[index], ...updates, updatedAt: now }`. -/
def mergeProduct (env : Env) (old : Product) (updates : ProductUpdates) : Product :=
  { id := (updates.id).getD old.id
    code := (updates.code).getD old.code
    name := (updates.name).getD old.name
    category := (updates.category).getD old.category
    cost := (updates.cost).getD old.cost
    price := (updates.price).getD old.price
    stock := (updates.stock).getD old.stock
    description := (updates.description).getD old.description
    createdAt :=
      match updates.createdAt with
      | some c => some c
      | none => old.createdAt
    updatedAt := some env.nowIso }

/-- `Store.updateProduct(id, updates)`; `none` is the `null` result. -/
def Store.updateProduct (env : Env) (s : Store) (id : String) (updates : ProductUpdates) :
    Store × Option Product :=
  match s.state.products.findIdx? (fun p => p.id == id) with
  | none => (s, none)
  | some index =>
    match s.state.products[index]? with
    | none => (s, none)
    | some old =>
      let updated := mergeProduct env old updates
      let s1 : Store :=
        { s with state := { s.state with products := s.state.products.set index updated } }
      let s2 := Store.saveToStorage s1
      let s3 := (Store.addLog env s2 "update" "produtos"
        ("Produto atualizado: " ++ updated.name ++ " (Código: " ++ updated.code ++ ")")
        none none).1
      (s3, some updated)

/-- `Store.deleteProduct(id)`. -/
def Store.deleteProduct (env : Env) (s : Store) (id : String) : Store × Bool :=
  match s.state.products.findIdx? (fun p => p.id == id) with
  | none => (s, false)
  | some index =>
    match s.state.products[index]? with
    | none => (s, false)
    | some product =>
      let s1 : Store :=
        { s with state := { s.state with products := s.state.products.eraseIdx index } }
      let s2 := Store.saveToStorage s1
      let s3 := (Store.addLog env s2 "delete" "produtos"
        ("Produto excluído: " ++ product.name ++ " (Código: " ++ product.code ++ ")")
        none none).1
      (s3, true)

/-! ## Sales -/

/-- The object literal of `addSale`: `{ id: ..., ...sale, createdAt }`. -/
def newSaleOf (env : Env) (sale : SaleData) : Sale :=
  { id := (sale.id).getD ("sale_" ++ toBase36 env.nowMs)
    client := sale.client
    items := sale.items
    total := sale.total
    cost := sale.cost
    date := sale.date
    userId := sale.userId
    createdAt := env.nowIso }

/-- `Store.addSale(sale)`. -/
def Store.addSale (env : Env) (s : Store) (sale : SaleData) : Store × Sale :=
  let newSale := newSaleOf env sale
  let s1 : Store := { s with state := { s.state with sales := newSale :: s.state.sales } }
  let s2 := Store.saveToStorage s1
  let s3 := (Store.addLog env s2 "create" "vendas"
    ("Venda realizada: " ++ sale.client ++ " - Total: " ++ env.formatCurrency sale.total)
    none none).1
  (s3, newSale)

/-- `Store.deleteSale(id)`. -/
def Store.deleteSale (env : Env) (s : Store) (id : String) : Store × Bool :=
  match s.state.sales.findIdx? (fun x => x.id == id) with
  | none => (s, false)
  | some index =>
    match s.state.sales[index]? with
    | none => (s, false)
    | some sale =>
      let s1 : Store :=
        { s with state := { s.state with sales := s.state.sales.eraseIdx index } }
      let s2 := Store.saveToStorage s1
      let s3 := (Store.addLog env s2 "delete" "vendas"
        ("Venda excluída: " ++ sale.client ++ " - Total: " ++ env.formatCurrency sale.total)
        none none).1
      (s3, true)

/-! ## Expenses -/

/-- The object literal of `addExpense`: `{ id: ..., ...expense, createdAt }`. -/
def newExpenseOf (env : Env) (expense : ExpenseData) : Expense :=
  { id := (expense.id).getD ("exp_" ++ toBase36 env.nowMs)
    description := expense.description
    category := expense.category
    value := expense.value
    date := expense.date
    notes := expense.notes
    createdAt := env.nowIso }

/-- `Store.addExpense(expense)`. -/
def Store.addExpense (env : Env) (s : Store) (expense : ExpenseData) : Store × Expense :=
  let newExpense := newExpenseOf env expense
  let s1 : Store :=
    { s with state := { s.state with expenses := newExpense :: s.state.expenses } }
  let s2 := Store.saveToStorage s1
  let s3 := (Store.addLog env s2 "create" "despesas"
    ("Despesa registrada: " ++ expense.description ++ " - " ++
      env.formatCurrency expense.value) none none).1
  (s3, newExpense)

/-- `Store.deleteExpense(id)`. -/
def Store.deleteExpense (env : Env) (s : Store) (id : String) : Store × Bool :=
  match s.state.expenses.findIdx? (fun x => x.id == id) with
  | none => (s, false)
  | some index =>
    match s.state.expenses[index]? with
    | none => (s, false)
    | some expense =>
      let s1 : Store :=
        { s with state := { s.state with expenses := s.state.expenses.eraseIdx index } }
      let s2 := Store.saveToStorage s1
      let s3 := (Store.addLog env s2 "delete" "despesas"
        ("Despesa excluída: " ++ expense.description ++ " - " ++
          env.formatCurrency expense.value) none none).1
      (s3, true)

/-! ## Users -/

/-- The object literal of `addUser`:
`{ id: ..., ...user, active: true, lastLogin: null, createdAt }`. -/
def newUserOf (env : Env) (user : UserData) : User :=
  { id := (user.id).getD ("user_" ++ toBase36 env.nowMs)
    username := user.username
    password := user.password
    fullName := user.fullName
    email := user.email
    profile := user.profile
    active := true
    lastLogin := none
    createdAt := some env.nowIso
    updatedAt := none }

/-- `Store.addUser(user)`. -/
def Store.addUser (env : Env) (s : Store) (user : UserData) : Store × User :=
  let newUser := newUserOf env user
  let s1 : Store := { s with state := { s.state with users := s.state.users ++ [newUser] } }
  let s2 := Store.saveToStorage s1
  let s3 := (Store.addLog env s2 "create" "usuarios"
    ("Usuário criado: " ++ user.username) none none).1
  (s3, newUser)

/-- The three `delete updates.*` statements of `updateUser`: `id` and `createdAt`
are always dropped, `password` is dropped when it is falsy. -/
def sanitizeUserUpdates (updates : UserUpdates) : UserUpdates :=
  { updates with
    id := none
    createdAt := none
    password := if truthy updates.password then updates.password else none }

/-- The object literal of `updateUser`:
`{ ...state.users[index], ...updates, updatedAt: now }`. -/
def mergeUser (env : Env) (old : User) (updates : UserUpdates) : User :=
  { id := (updates.id).getD old.id
    username := (updates.username).getD old.username
    password := (updates.password).getD old.password
    fullName := (updates.fullName).getD old.fullName
    email := (updates.email).getD old.email
    profile := (updates.profile).getD old.profile
    active := (updates.active).getD old.active
    lastLogin := (updates.lastLogin).getD old.lastLogin
    createdAt :=
      match updates.createdAt with
      | some c => some c
      | none => old.createdAt
    updatedAt := some env.nowIso }

/-- `Store.updateUser(id, updates)`; `none` is the `null` result. -/
def Store.updateUser (env : Env) (s : Store) (id : String) (updates : UserUpdates) :
    Store × Option User :=
  match s.state.users.findIdx? (fun u => u.id == id) with
  | none => (s, none)
  | some index =>
    match s.state.users[index]? with
    | none => (s, none)
    | some old =>
      let updated := mergeUser env old (sanitizeUserUpdates updates)
      let s1 : Store :=
        { s with state := { s.state with users := s.state.users.set index updated } }
      let s2 := Store.saveToStorage s1
      let s3 := (Store.addLog env s2 "update" "usuarios"
        ("Usuário atualizado: " ++ updated.username) none none).1
      (s3, some updated)

/-- `Store.deleteUser(id)`. -/
def Store.deleteUser (env : Env) (s : Store) (id : String) : Store × Bool :=
  match s.state.users.findIdx? (fun u => u.id == id) with
  | none => (s, false)
  | some index =>
    match s.state.users[index]? with
    | none => (s, false)
    | some user =>
      let s1 : Store :=
        { s with state := { s.state with users := s.state.users.eraseIdx index } }
      let s2 := Store.saveToStorage s1
      let s3 := (Store.addLog env s2 "delete" "usuarios"
        ("Usuário excluído: " ++ user.username) none none).1
      (s3, true)

/-! ## Import -/

/-- The payload of `importData`: each named field may be absent. -/
structure ImportPayload where
  products : Option (List Product)
  sales : Option (List Sale)
  expenses : Option (List Expense)
  users : Option (List User)
  settings : Option SettingsUpdates
deriving DecidableEq, Repr

/-- The spread `{ ...state.settings, ...data.settings }`. -/
def mergeSettings (old : Settings) (updates : SettingsUpdates) : Settings :=
  { companyName := (updates.companyName).getD old.companyName
    currency := (updates.currency).getD old.currency
    dateFormat := (updates.dateFormat).getD old.dateFormat
    lowStockThreshold := (updates.lowStockThreshold).getD old.lowStockThreshold
    taxRate := (updates.taxRate).getD old.taxRate
    readOnlyMode :=
      match updates.readOnlyMode with
      | some b => some b
      | none => old.readOnlyMode }

/-- `Store.importData(data, merge)`. -/
def Store.importData (env : Env) (s : Store) (data : ImportPayload) (merge : Bool) : Store :=
  let products :=
    match data.products with
    | some ps => if !merge || s.state.products.length == 0 then ps else s.state.products
    | none => s.state.products
  let sales :=
    match data.sales with
    | some xs => if !merge || s.state.sales.length == 0 then xs else s.state.sales
    | none => s.state.sales
  let expenses :=
    match data.expenses with
    | some xs => if !merge || s.state.expenses.length == 0 then xs else s.state.expenses
    | none => s.state.expenses
  let users :=
    match data.users with
    | some us =>
      if merge then
        let existingIds := s.state.users.map (fun u => u.id)
        s.state.users ++ us.filter (fun u => !(existingIds.contains u.id))
      else s.state.users
    | none => s.state.users
  let settings :=
    match data.settings with
    | some st => mergeSettings s.state.settings st
    | none => s.state.settings
  let s1 : Store :=
    { s with state :=
        { s.state with
          products := products
          sales := sales
          expenses := expenses
          users := users
          settings := settings } }
  let s2 := Store.saveToStorage s1
  (Store.addLog env s2 "system" "sistema" "Dados importados com sucesso" none none).1

/-! ## The sale flow of `app.js` -/

/-- The part of the `App` object the sale flow touches: the store it drives and
the cart `App.saleItems`. -/
structure App where
  store : Store
  saleItems : List SaleItem
deriving DecidableEq, Repr

/-- The statement `product.stock += delta` applied to the product that
`Store.getProduct(productId)` returns, when there is one. -/
def adjustStock (products : List Product) (productId : String) (delta : Int) :
    List Product :=
  modifyFirst (fun p => p.id == productId) (fun p => { p with stock := p.stock + delta })
    products

/-- The `reduce` that computes `cost` in `saveSale`; `none` stands for the
`TypeError` raised by `product.cost` when `getProduct` finds nothing. -/
def saleCost (s : Store) (items : List SaleItem) : Option ℚ :=
  items.foldlM
    (fun sum i => (Store.getProduct s i.productId).map (fun p => sum + p.cost * i.quantity)) 0

/-- The outcome of `App.saveSale`. -/
inductive SaveSaleResult where
  | warned (message : String)
  | threw
  | saved (app : App) (sale : Sale)
deriving DecidableEq, Repr

/-- The object literal `sale` of `saveSale`. -/
def cartSale (env : Env) (app : App) (client : String) (total cost : ℚ) : SaleData :=
  { id := none
    client := client
    items := app.saleItems.map (fun i =>
      { productId := i.productId
        name := i.name
        price := i.price
        quantity := i.quantity
        total := i.total })
    total := total
    cost := cost
    date := datePart env.nowIso
    userId := (app.store.state.currentUser).map (fun u => u.id) }

/-- `App.saveSale(e)`; `clientInput` is the value of the `saleClient` field. -/
def App.saveSale (env : Env) (app : App) (clientInput : String) : SaveSaleResult :=
  let client := trim clientInput
  if client == "" then .warned "Por favor, informe o nome do cliente."
  else if app.saleItems.length == 0 then .warned "Adicione pelo menos um produto."
  else
    let total := app.saleItems.foldl (fun sum i => sum + i.total) 0
    match saleCost app.store app.saleItems with
    | none => .threw
    | some cost =>
      let products := app.saleItems.foldl
        (fun ps item => adjustStock ps item.productId (-item.quantity))
        app.store.state.products
      let store1 : Store :=
        { app.store with state := { app.store.state with products := products } }
      let r := Store.addSale env store1 (cartSale env app client total cost)
      .saved { app with store := r.1 } r.2

/-- `App.deleteSale(id)`; `confirmed` is the answer to the `confirm` dialog. -/
def App.deleteSale (env : Env) (app : App) (id : String) (confirmed : Bool) : App :=
  if confirmed then
    let products :=
      match app.store.state.sales.find? (fun x => x.id == id) with
      | some sale =>
        sale.items.foldl (fun ps item => adjustStock ps item.productId item.quantity)
          app.store.state.products
      | none => app.store.state.products
    let store1 : Store :=
      { app.store with state := { app.store.state with products := products } }
    { app with store := (Store.deleteSale env store1 id).1 }
  else app

/-- `Store.createDefaultUsers()`: the three built-in accounts. -/
def Store.createDefaultUsers (env : Env) (s : Store) : Store :=
  let users : List User :=
    [ { id := "user_1"
        username := "admin"
        password := "admin"
        fullName := "Administrador do Sistema"
        email := "admin@sistema.com"
        profile := "admin"
        active := true
        lastLogin := none
        createdAt := some env.nowIso
        updatedAt := none },
      { id := "user_2"
        username := "operador"
        password := "operador"
        fullName := "Operador Padrão"
        email := "operador@sistema.com"
        profile := "operator"
        active := true
        lastLogin := none
        createdAt := some env.nowIso
        updatedAt := none },
      { id := "user_3"
        username := "gerente"
        password := "gerente"
        fullName := "Gerente Regional"
        email := "gerente@sistema.com"
        profile := "manager"
        active := true
        lastLogin := none
        createdAt := some env.nowIso
        updatedAt := none } ]
  (Store.addLog env { s with state := { s.state with users := users } } "system" "sistema"
    "Usuários padrão criados durante a inicialização" none none).1

/-! ## Sequences of `addLog` calls -/

/-- The arguments of one `addLog` call together with the platform values it reads. -/
structure LogCall where
  env : Env
  action : String
  module : String
  details : String
  userId : Option String
  userName : Option String

/-- The store after one `addLog` call. -/
def Store.addLogCall (s : Store) (c : LogCall) : Store :=
  (Store.addLog c.env s c.action c.module c.details c.userId c.userName).1

/-- The store after a sequence of `addLog` calls, oldest call first. -/
def Store.addLogs (s : Store) (cs : List LogCall) : Store :=
  cs.foldl Store.addLogCall s

/-- The entries a sequence of `addLog` calls creates, oldest call first. -/
def logEntriesOf (s : Store) (cs : List LogCall) : List LogEntry :=
  cs.map (fun c => Store.makeLog c.env s c.action c.module c.details c.userId c.userName)

/-! ## Mutating commands -/

/-- The mutating `Store` commands, each with its arguments. -/
inductive Command where
  | addProduct (product : ProductData)
  | updateProduct (id : String) (updates : ProductUpdates)
  | deleteProduct (id : String)
  | addSale (sale : SaleData)
  | deleteSale (id : String)
  | addExpense (expense : ExpenseData)
  | deleteExpense (id : String)
  | addUser (user : UserData)
  | updateUser (id : String) (updates : UserUpdates)
  | deleteUser (id : String)
  | importData (data : ImportPayload) (merge : Bool)

/-- Runs a command; the flag tells whether it succeeded, that is whether an
update returned a record rather than `null` and a delete returned `true`. -/
def Command.run (env : Env) (s : Store) : Command → Store × Bool
  | .addProduct product => ((Store.addProduct env s product).1, true)
  | .updateProduct id updates =>
    ((Store.updateProduct env s id updates).1, (Store.updateProduct env s id updates).2.isSome)
  | .deleteProduct id => Store.deleteProduct env s id
  | .addSale sale => ((Store.addSale env s sale).1, true)
  | .deleteSale id => Store.deleteSale env s id
  | .addExpense expense => ((Store.addExpense env s expense).1, true)
  | .deleteExpense id => Store.deleteExpense env s id
  | .addUser user => ((Store.addUser env s user).1, true)
  | .updateUser id updates =>
    ((Store.updateUser env s id updates).1, (Store.updateUser env s id updates).2.isSome)
  | .deleteUser id => Store.deleteUser env s id
  | .importData data merge => (Store.importData env s data merge, true)

/-- The `action` tag each command passes to `addLog`. -/
def Command.action : Command → String
  | .addProduct _ => "create"
  | .updateProduct _ _ => "update"
  | .deleteProduct _ => "delete"
  | .addSale _ => "create"
  | .deleteSale _ => "delete"
  | .addExpense _ => "create"
  | .deleteExpense _ => "delete"
  | .addUser _ => "create"
  | .updateUser _ _ => "update"
  | .deleteUser _ => "delete"
  | .importData _ _ => "system"

/-! ## Stock bookkeeping of the sale flow -/

/-- The sum of `d` over the lines of `items` that reference `productId`. -/
def lineSum (d : SaleItem → Int) (items : List SaleItem) (productId : String) : Int :=
  ((items.filter (fun i => i.productId == productId)).map d).sum

/-- The total quantity the cart asks of the product `productId`. -/
def cartQuantity (items : List SaleItem) (productId : String) : Int :=
  lineSum (fun i => i.quantity) items productId

/-- The loop `items.forEach(item => { product.stock += d(item) })` over the
products found by `getProduct`. -/
def adjustAll (d : SaleItem → Int) (products : List Product) (items : List SaleItem) :
    List Product :=
  items.foldl (fun ps item => adjustStock ps item.productId (d item)) products

/-- The application after a successful `saveSale`, if it was one. -/
def SaveSaleResult.app? : SaveSaleResult → Option App
  | .saved app _ => some app
  | _ => none

/-- The sale created by a successful `saveSale`, if it was one. -/
def SaveSaleResult.sale? : SaveSaleResult → Option Sale
  | .saved _ sale => some sale
  | _ => none

/-- The term one cart line adds to the `cost` of a sale: the cost of the product
`getProduct` finds for it, times the line quantity. -/
def lineCost (s : Store) (i : SaleItem) : ℚ :=
  match Store.getProduct s i.productId with
  | some p => p.cost * i.quantity
  | none => 0

/-! ## Export and clearing -/

/-- The object returned by `exportAllData`. -/
structure ExportData where
  products : List Product
  sales : List Sale
  expenses : List Expense
  users : List User
  logs : List LogEntry
  settings : Settings
  exportDate : String
deriving DecidableEq, Repr

/-- The placeholder `exportAllData` writes over every password. -/
def passwordPlaceholder : String := "***"

/-- `Store.exportAllData()`.  The function assigns nothing to `state`, so the
export is its only output. -/
def Store.exportAllData (env : Env) (s : Store) : ExportData :=
  { products := s.state.products
    sales := s.state.sales
    expenses := s.state.expenses
    users := s.state.users.map (fun u => { u with password := passwordPlaceholder })
    logs := s.state.logs
    settings := s.state.settings
    exportDate := env.nowIso }

/-- The export object read as the `data` argument of `importData`: every field
`importData` looks at is present. -/
def ExportData.toPayload (d : ExportData) : ImportPayload :=
  { products := some d.products
    sales := some d.sales
    expenses := some d.expenses
    users := some d.users
    settings := some
      { companyName := some d.settings.companyName
        currency := some d.settings.currency
        dateFormat := some d.settings.dateFormat
        lowStockThreshold := some d.settings.lowStockThreshold
        taxRate := some d.settings.taxRate
        readOnlyMode := d.settings.readOnlyMode } }

/-- `Store.clearAllData()`. -/
def Store.clearAllData (env : Env) (s : Store) : Store :=
  let s1 : Store :=
    { s with state :=
        { s.state with products := [], sales := [], expenses := [], logs := [] } }
  let s2 := Store.saveToStorage s1
  (Store.addLog env s2 "system" "sistema" "Todos os dados foram limpos" none none).1

/-! ## Dates, text and objects used by the reports -/

/-- Model of the relational comparison `a <= b` of two strings: lexicographic
order of the character codes, a proper prefix being smaller. -/
def charsLe : List Char → List Char → Bool
  | [], _ => true
  | _ :: _, [] => false
  | a :: as, b :: bs =>
    if a.toNat < b.toNat then true
    else if b.toNat < a.toNat then false
    else charsLe as bs

/-- Model of `a <= b` (equivalently `b >= a`) on strings. -/
def strLe (a b : String) : Bool := charsLe a.data b.data

/-- Decimal digits of `n`, most significant first, with explicit fuel. -/
def toDecimalCore : Nat → Nat → List Char → List Char
  | 0, _, ds => ds
  | fuel + 1, n, ds =>
    if n / 10 = 0 then Char.ofNat (48 + n % 10) :: ds
    else toDecimalCore fuel (n / 10) (Char.ofNat (48 + n % 10) :: ds)

/-- Model of `n.toString()` for an integer. -/
def toDecimal (n : Int) : String :=
  if n < 0 then "-" ++ String.mk (toDecimalCore (n.natAbs + 1) n.natAbs [])
  else String.mk (toDecimalCore (n.natAbs + 1) n.natAbs [])

/-- Model of `s.substring(start)`. -/
def substringFrom (s : String) (start : Nat) : String := String.mk (s.data.drop start)

/-- Model of `s.padStart(target, c)`. -/
def padStart (s : String) (target : Nat) (c : Char) : String :=
  String.mk (List.replicate (target - s.data.length) c ++ s.data)

/-- Gregorian leap years, as in the `Date` object. -/
def isLeapYear (y : Int) : Bool := y % 4 == 0 && (y % 100 != 0 || y % 400 == 0)

/-- Number of days of month `m` (0 to 11) of year `y`. -/
def daysInMonth (y : Int) (m : Nat) : Nat :=
  match m with
  | 1 => if isLeapYear y then 29 else 28
  | 3 => 30
  | 5 => 30
  | 8 => 30
  | 10 => 30
  | _ => 31

/-- Model of `date.setMonth(m)` on a date with year `y` and day `d`, read back with
`getFullYear()` and `getMonth()`: the month index is normalised into the year, and a
day the target month does not have carries the date into the following month. -/
def setMonth (y : Int) (d : Nat) (m : Int) : Int × Nat :=
  let y1 := (y * 12 + m) / 12
  let m1 := ((y * 12 + m) % 12).toNat
  if d ≤ daysInMonth y1 m1 then (y1, m1)
  else if m1 = 11 then (y1 + 1, 0)
  else (y1, m1 + 1)

/-- `getMonthName(monthIndex)` of `utils.js`. -/
def getMonthName (monthIndex : Int) : String :=
  if monthIndex < 0 ∨ monthIndex > 11 then "Mês Inválido"
  else
    (["Janeiro", "Fevereiro", "Março", "Abril", "Maio", "Junho", "Julho", "Agosto",
      "Setembro", "Outubro", "Novembro", "Dezembro"].get? monthIndex.toNat).getD ""

/-- An element of the array returned by `getLastMonths`. -/
structure MonthEntry where
  month : Nat
  year : Int
  label : String
  fullLabel : String
deriving DecidableEq, Repr

/-- The object pushed by `getLastMonths` for the offset `i`. -/
def monthEntry (env : Env) (i : Nat) : MonthEntry :=
  let date := setMonth env.year env.day ((env.month : Int) - i)
  { month := date.2
    year := date.1
    label := substring (getMonthName date.2) 0 3 ++ "/" ++ substringFrom (toDecimal date.1) 2
    fullLabel := getMonthName date.2 ++ "/" ++ toDecimal date.1 }

/-- `getLastMonths(count)` of `utils.js`: the offsets `count - 1` down to 0. -/
def getLastMonths (env : Env) (count : Nat) : List MonthEntry :=
  (List.range count).reverse.map (monthEntry env)

/-- The assignment `o[k] = v` on an object kept as its list of own properties in
insertion order: an existing key keeps its place.  (Keys inherited from
`Object.prototype` are outside the model.) -/
def objSet {β : Type} : List (String × β) → String → β → List (String × β)
  | [], k, v => [(k, v)]
  | (k1, v1) :: o, k, v => if k1 == k then (k1, v) :: o else (k1, v1) :: objSet o k v

/-- The read `o[k]`; `none` is `undefined`. -/
def objGet {β : Type} (o : List (String × β)) (k : String) : Option β :=
  (o.find? (fun e => e.1 == k)).map (fun e => e.2)

/-- The in-place update `if (o[k]) { o[k] = f(o[k]) }` of an object-valued property. -/
def objUpdate {β : Type} (o : List (String × β)) (k : String) (f : β → β) :
    List (String × β) :=
  modifyFirst (fun e => e.1 == k) (fun e => (e.1, f e.2)) o

/-! ## Queries and the financial report -/

/-- `Store.filterSalesByDate(startDate, endDate)`; a falsy bound is skipped. -/
def Store.filterSalesByDate (s : Store) (startDate endDate : Option String) : List Sale :=
  let filtered := s.state.sales
  let filtered :=
    if truthy startDate then filtered.filter (fun x => strLe (startDate.getD "") x.date)
    else filtered
  let filtered :=
    if truthy endDate then filtered.filter (fun x => strLe x.date (endDate.getD ""))
    else filtered
  filtered

/-- `Store.filterExpensesByDate(startDate, endDate)`; a falsy bound is skipped. -/
def Store.filterExpensesByDate (s : Store) (startDate endDate : Option String) :
    List Expense :=
  let filtered := s.state.expenses
  let filtered :=
    if truthy startDate then filtered.filter (fun e => strLe (startDate.getD "") e.date)
    else filtered
  let filtered :=
    if truthy endDate then filtered.filter (fun e => strLe e.date (endDate.getD ""))
    else filtered
  filtered

/-- `Store.getTotalSales(sales)`; `none` is the default `null`. -/
def Store.getTotalSales (s : Store) (sales : Option (List Sale)) : ℚ :=
  ((sales).getD s.state.sales).foldl (fun sum x => sum + x.total) 0

/-- `Store.getTotalCost(sales)`; `none` is the default `null`. -/
def Store.getTotalCost (s : Store) (sales : Option (List Sale)) : ℚ :=
  ((sales).getD s.state.sales).foldl (fun sum x => sum + x.cost) 0

/-- `Store.getTotalExpenses(expenses)`; `none` is the default `null`. -/
def Store.getTotalExpenses (s : Store) (expenses : Option (List Expense)) : ℚ :=
  ((expenses).getD s.state.expenses).foldl (fun sum e => sum + e.value) 0

/-- `Store.getExpensesByCategory(expenses)`: the object `grouped`, as its list of
properties.  A missing or zero entry is first set to 0, then the value is added. -/
def Store.getExpensesByCategory (s : Store) (expenses : Option (List Expense)) :
    List (String × ℚ) :=
  ((expenses).getD s.state.expenses).foldl
    (fun grouped e =>
      let grouped1 :=
        match objGet grouped e.category with
        | some v => if v = 0 then objSet grouped e.category 0 else grouped
        | none => objSet grouped e.category 0
      match objGet grouped1 e.category with
      | some v => objSet grouped1 e.category (v + e.value)
      | none => grouped1)
    []

/-- A value of the object `salesByMonth`. -/
structure MonthBucket where
  label : String
  sales : ℚ
  expenses : ℚ
  profit : ℚ
deriving DecidableEq, Repr

/-- The key `year-MM` under which `getFinancialReport` files a month. -/
def monthKey (m : MonthEntry) : String :=
  toDecimal m.year ++ "-" ++ padStart (toDecimal ((m.month : Int) + 1)) 2 '0'

/-- The object `salesByMonth` of `getFinancialReport` after its three loops, as its
list of properties. -/
def Store.salesByMonthObject (env : Env) (s : Store) (startDate endDate : Option String) :
    List (String × MonthBucket) :=
  let sales := Store.filterSalesByDate s startDate endDate
  let expenses := Store.filterExpensesByDate s startDate endDate
  let months := getLastMonths env 12
  let salesByMonth : List (String × MonthBucket) :=
    months.foldl
      (fun o m => objSet o (monthKey m)
        { label := m.label, sales := 0, expenses := 0, profit := 0 })
      []
  let salesByMonth :=
    sales.foldl
      (fun o sale => objUpdate o (substring sale.date 0 7)
        (fun b =>
          { b with
            sales := b.sales + sale.total
            profit := b.profit + (sale.total - sale.cost) }))
      salesByMonth
  expenses.foldl
    (fun o e => objUpdate o (substring e.date 0 7)
      (fun b => { b with expenses := b.expenses + e.value, profit := b.profit - e.value }))
    salesByMonth

/-- The object returned by `getFinancialReport`. -/
structure FinancialReport where
  totalSales : ℚ
  totalCost : ℚ
  grossProfit : ℚ
  totalExpenses : ℚ
  netProfit : ℚ
  expensesByCategory : List (String × ℚ)
  salesByMonth : List MonthBucket
  salesCount : Nat
  expensesCount : Nat
  periodStart : Option String
  periodEnd : Option String
deriving DecidableEq, Repr

/-- `Store.getFinancialReport(startDate, endDate)`. -/
def Store.getFinancialReport (env : Env) (s : Store) (startDate endDate : Option String) :
    FinancialReport :=
  let sales := Store.filterSalesByDate s startDate endDate
  let expenses := Store.filterExpensesByDate s startDate endDate
  let totalSales := Store.getTotalSales s (some sales)
  let totalCost := Store.getTotalCost s (some sales)
  let grossProfit := totalSales - totalCost
  let totalExpenses := Store.getTotalExpenses s (some expenses)
  let netProfit := grossProfit - totalExpenses
  { totalSales := totalSales
    totalCost := totalCost
    grossProfit := grossProfit
    totalExpenses := totalExpenses
    netProfit := netProfit
    expensesByCategory := Store.getExpensesByCategory s (some expenses)
    salesByMonth := (Store.salesByMonthObject env s startDate endDate).map (fun e => e.2)
    salesCount := sales.length
    expensesCount := expenses.length
    periodStart := startDate
    periodEnd := endDate }

/-- The inclusive date range of a report: a bound that is absent (or empty) does
not restrict. -/
def inDateRange (startDate endDate : Option String) (date : String) : Bool :=
  (!truthy startDate || strLe (startDate.getD "") date)
    && (!truthy endDate || strLe date (endDate.getD ""))

/-- The month a dated record is filed under: the first seven characters of its date. -/
def monthOf (date : String) : String := substring date 0 7

/-! ## Margin -/

/-- The power `2 ^ e` for an integer exponent. -/
def twoPow (e : Int) : ℚ :=
  if 0 ≤ e then ((2 ^ e.toNat : Nat) : ℚ) else 1 / ((2 ^ (-e).toNat : Nat) : ℚ)

/-- The absolute value of a rational number. -/
def magnitude (x : ℚ) : ℚ := if x < 0 then -x else x

/-- The binary logarithm by repeated halving, with explicit fuel. -/
def binaryLogCore : Nat → Nat → Nat
  | 0, _ => 0
  | fuel + 1, n => if n < 2 then 0 else binaryLogCore fuel (n / 2) + 1

/-- The binary logarithm of a positive integer, rounded down: the `k` with
`2 ^ k ≤ n < 2 ^ (k + 1)`. -/
def binaryLog (n : Nat) : Nat := binaryLogCore n n

/-- The binary exponent of a non-zero number: the `e` with
`2 ^ e ≤ |x| < 2 ^ (e + 1)`. -/
def binaryExponent (x : ℚ) : Int :=
  let e0 : Int := (binaryLog x.num.natAbs : Int) - (binaryLog x.den : Int)
  if twoPow e0 ≤ magnitude x then e0 else e0 - 1

/-- The nearest integer, a tie going to the even one. -/
def roundHalfEven (x : ℚ) : ℤ :=
  let f := ⌊x⌋
  if x - f < 1 / 2 then f
  else if 1 / 2 < x - f then f + 1
  else if f % 2 = 0 then f
  else f + 1

/-- The value a real result takes as a JavaScript number (IEEE 754 binary64, round to
nearest, ties to even): the nearest multiple of `2 ^ (e - 52)`, where `e` is the
binary exponent of `x` and at least −1022 (below it the numbers are subnormal).
`none` stands for a result that is not finite (`Infinity` or `-Infinity` on
overflow).  The two zeros are not told apart. -/
def toDouble (x : ℚ) : Option ℚ :=
  if x = 0 then some 0
  else
    let e := max (binaryExponent x) (-1022)
    let ulp := twoPow (e - 52)
    let y := (roundHalfEven (magnitude x / ulp) : ℚ) * ulp
    if twoPow 1024 ≤ y then none else some (if x < 0 then -y else y)

/-- The difference `a - b` of two finite numbers. -/
def jsSubtract (a b : ℚ) : Option ℚ := toDouble (a - b)

/-- The product `a * b` of two finite numbers. -/
def jsMultiply (a b : ℚ) : Option ℚ := toDouble (a * b)

/-- The quotient `a / b` of two finite numbers; `none` stands for a result that is
not a finite number (`Infinity`, `-Infinity`, `NaN`), which is what a zero divisor
gives. -/
def jsDivide (a b : ℚ) : Option ℚ := if b = 0 then none else toDouble (a / b)

/-- `Math.round(x)`: the nearest integer, a tie going to the larger one. -/
def mathRound (x : ℚ) : ℤ := ⌊x + 1 / 2⌋

/-- The value of `margin * 10` in `calculateMargin`, where
`margin = ((price - cost) / cost) * 100`, each operation rounding to a double. -/
def tenfoldMargin (cost price : ℚ) : Option ℚ :=
  (jsSubtract price cost).bind (fun difference =>
    (jsDivide difference cost).bind (fun quotient =>
      (jsMultiply quotient 100).bind (fun margin => jsMultiply margin 10)))

/-- `calculateMargin(cost, price)` of `utils.js`, on finite numbers. -/
def calculateMargin (cost price : ℚ) : Option ℚ :=
  if cost = 0 ∨ cost = 0 ∨ price = 0 then some 0
  else (tenfoldMargin cost price).bind (fun tenfold => jsDivide (mathRound tenfold) 10)

/-! ## Stock report -/

/-- A value of the object `valueByCategory`. -/
structure CategoryValue where
  count : Int
  value : ℚ
deriving DecidableEq, Repr

/-- The object returned by `getStockReport`. -/
structure StockReport where
  totalProducts : Nat
  totalItems : Int
  totalValue : ℚ
  totalRetailValue : ℚ
  potentialProfit : ℚ
  lowStock : Nat
  outOfStock : Nat
  lowStockProducts : List Product
  outOfStockProducts : List Product
  valueByCategory : List (String × CategoryValue)
deriving DecidableEq, Repr

/-- `Store.getStockReport()`.  The function assigns nothing to `state`, so the
report is its only output. -/
def Store.getStockReport (s : Store) : StockReport :=
  let totalProducts := s.state.products.length
  let totalItems := s.state.products.foldl (fun sum p => sum + p.stock) (0 : Int)
  let totalValue := s.state.products.foldl (fun sum p => sum + p.cost * (p.stock : ℚ)) (0 : ℚ)
  let totalRetailValue :=
    s.state.products.foldl (fun sum p => sum + p.price * (p.stock : ℚ)) (0 : ℚ)
  let lowStock := s.state.products.filter
    (fun p => decide (p.stock < s.state.settings.lowStockThreshold))
  let outOfStock := s.state.products.filter (fun p => p.stock == 0)
  let valueByCategory : List (String × CategoryValue) :=
    s.state.products.foldl
      (fun o p =>
        let o1 :=
          match objGet o p.category with
          | some _ => o
          | none => objSet o p.category { count := 0, value := 0 }
        objUpdate o1 p.category
          (fun c => { count := c.count + p.stock, value := c.value + p.cost * (p.stock : ℚ) }))
      []
  { totalProducts := totalProducts
    totalItems := totalItems
    totalValue := totalValue
    totalRetailValue := totalRetailValue
    potentialProfit := totalRetailValue - totalValue
    lowStock := lowStock.length
    outOfStock := outOfStock.length
    lowStockProducts := lowStock
    outOfStockProducts := outOfStock
    valueByCategory := valueByCategory }

/-! ## Searches -/

/-- Model of `s.includes(sub)`: `sub` occurs in `s` as a contiguous piece. -/
def includes (s sub : String) : Bool := s.data.tails.any (fun t => sub.data.isPrefixOf t)

/-- Model of `s.startsWith(pre)`. -/
def startsWith (s pre : String) : Bool := pre.data.isPrefixOf s.data

/-- `Store.searchProducts(query)`; a falsy query returns the collection. -/
def Store.searchProducts (s : Store) (query : Option String) : List Product :=
  if !truthy query then s.state.products
  else
    let lowerQuery := toLowerCase (query.getD "")
    s.state.products.filter (fun p =>
      includes (toLowerCase p.name) lowerQuery
        || includes (toLowerCase p.code) lowerQuery
        || includes (toLowerCase p.category) lowerQuery)

/-- `Store.searchSales(query)`; a falsy query returns the collection. -/
def Store.searchSales (s : Store) (query : Option String) : List Sale :=
  if !truthy query then s.state.sales
  else
    let lowerQuery := toLowerCase (query.getD "")
    s.state.sales.filter (fun x =>
      includes (toLowerCase x.client) lowerQuery || includes (toLowerCase x.id) lowerQuery)

/-- `Store.searchExpenses(query)`; a falsy query returns the collection. -/
def Store.searchExpenses (s : Store) (query : Option String) : List Expense :=
  if !truthy query then s.state.expenses
  else
    let lowerQuery := toLowerCase (query.getD "")
    s.state.expenses.filter (fun e =>
      includes (toLowerCase e.description) lowerQuery
        || includes (toLowerCase e.category) lowerQuery)

/-! ## Log filter -/

/-- The argument `filters` of `filterLogs`: any subset of its five keys. -/
structure LogFilters where
  action : Option String
  module : Option String
  date : Option String
  userId : Option String
  search : Option String
deriving DecidableEq, Repr

/-- `Store.filterLogs(filters)`.  It works on the copy `[...state.logs]` and assigns
nothing to `state`. -/
def Store.filterLogs (s : Store) (filters : LogFilters) : List LogEntry :=
  let filtered := s.state.logs
  let filtered :=
    if truthy filters.action && filters.action != some "all" then
      filtered.filter (fun l => l.action == (filters.action).getD "")
    else filtered
  let filtered :=
    if truthy filters.module && filters.module != some "all" then
      filtered.filter (fun l => l.module == (filters.module).getD "")
    else filtered
  let filtered :=
    if truthy filters.date then
      filtered.filter (fun l => startsWith l.timestamp ((filters.date).getD ""))
    else filtered
  let filtered :=
    if truthy filters.userId then filtered.filter (fun l => l.userId == filters.userId)
    else filtered
  let filtered :=
    if truthy filters.search then
      let search := toLowerCase ((filters.search).getD "")
      filtered.filter (fun l =>
        includes (toLowerCase l.details) search
          || includes (toLowerCase l.module) search
          || includes (toLowerCase l.userName) search)
    else filtered
  filtered

/-! ## Best-selling products -/

/-- A value of the object `productSales`. -/
structure ProductSales where
  name : String
  quantity : Int
  revenue : ℚ
deriving DecidableEq, Repr

/-- An element of the array returned by `getTopSellingProducts`. -/
structure TopProduct where
  id : String
  name : String
  quantity : Int
  revenue : ℚ
deriving DecidableEq, Repr

/-- The property names every object inherits from `Object.prototype`. -/
def objectPrototypeNames : List String :=
  ["constructor", "__defineGetter__", "__defineSetter__", "hasOwnProperty",
   "__lookupGetter__", "__lookupSetter__", "isPrototypeOf", "propertyIsEnumerable",
   "toString", "valueOf", "__proto__", "toLocaleString"]

/-- The body of the inner `forEach` of `getTopSellingProducts` for a product id that
is no inherited property name: the entry is created when missing, then receives the
quantity and the total of the line. -/
def recordOwnLine (o : List (String × ProductSales)) (item : SaleItem) :
    List (String × ProductSales) :=
  let o1 :=
    match objGet o item.productId with
    | some _ => o
    | none => objSet o item.productId { name := item.name, quantity := 0, revenue := 0 }
  objUpdate o1 item.productId
    (fun d => { d with quantity := d.quantity + item.quantity, revenue := d.revenue + item.total })

/-- The body of the inner `forEach` of `getTopSellingProducts`.  For a product id that
is a property name inherited from `Object.prototype` the read `productSales[id]`
finds the inherited value, which is truthy: no entry is created and the two `+=`
write on that inherited value, so `productSales` keeps its own properties. -/
def recordLine (o : List (String × ProductSales)) (item : SaleItem) :
    List (String × ProductSales) :=
  if objectPrototypeNames.contains item.productId then o else recordOwnLine o item

/-- The object `productSales` after the two nested loops, as its list of own
properties in the order of their creation. -/
def Store.productSales (s : Store) : List (String × ProductSales) :=
  s.state.sales.foldl (fun o sale => sale.items.foldl recordLine o) []

/-- The number a text of decimal digits denotes. -/
def decimalValue (k : String) : Nat :=
  k.data.foldl (fun n c => 10 * n + (c.toNat - 48)) 0

/-- Whether a property name is an array index: the canonical decimal text (no sign,
no leading zero) of an integer from 0 to 2^32 − 2. -/
def isArrayIndex (k : String) : Bool :=
  k.data != [] && k.data.all Char.isDigit
    && (k.data.length == 1 || k.data.head? != some '0')
    && decide (k.data.length ≤ 10) && decide (decimalValue k < 4294967295)

/-- `Object.entries(o)` of an object given as its own properties in creation order:
the properties whose name is an array index come first, in ascending numeric order,
then the other properties in creation order. -/
def objEntries {β : Type} (o : List (String × β)) : List (String × β) :=
  (o.filter (fun e => isArrayIndex e.1)).insertionSort
      (fun a b => decimalValue a.1 ≤ decimalValue b.1)
    ++ o.filter (fun e => !isArrayIndex e.1)

/-- `Object.entries(productSales).map(([id, data]) => ({ id, ...data }))`. -/
def Store.productSalesEntries (s : Store) : List TopProduct :=
  (objEntries (Store.productSales s)).map (fun e =>
    { id := e.1, name := e.2.name, quantity := e.2.quantity, revenue := e.2.revenue })

/-- Model of `arr.sort((a, b) => b.quantity - a.quantity)`: the stable sort by
non-increasing quantity. -/
def sortByQuantityDesc (l : List TopProduct) : List TopProduct :=
  l.insertionSort (fun a b => b.quantity ≤ a.quantity)

/-- `Store.getTopSellingProducts(limit)` for a limit that is a natural number. -/
def Store.getTopSellingProducts (s : Store) (limit : Nat) : List TopProduct :=
  (sortByQuantityDesc (Store.productSalesEntries s)).take limit

/-- An optional filter or bound that is absent: `undefined`, `null` or `''`. -/
def absent (x : Option String) : Prop := x = none ∨ x = some ""

instance (x : Option String) : Decidable (absent x) := by
  unfold absent
  infer_instance

/-- The text `sub` is contained in `s`, letter case ignored. -/
def containsIgnoringCase (s sub : String) : Prop :=
  (toLowerCase sub).data <:+: (toLowerCase s).data

instance (s sub : String) : Decidable (containsIgnoringCase s sub) := by
  unfold containsIgnoringCase
  infer_instance

/-- The conjunction of the filters of `filterLogs` that are present: action equal,
module equal, timestamp starting with the date prefix, userId equal, search text
contained (ignoring case) in details, module or userName; the value `all` of action
or module counts as absent. -/
def satisfiesLogFilters (f : LogFilters) (l : LogEntry) : Prop :=
  (absent f.action ∨ f.action = some "all" ∨ f.action = some l.action)
  ∧ (absent f.module ∨ f.module = some "all" ∨ f.module = some l.module)
  ∧ (absent f.date ∨ ((f.date).getD "").data <+: l.timestamp.data)
  ∧ (absent f.userId ∨ l.userId = f.userId)
  ∧ (absent f.search
      ∨ containsIgnoringCase l.details ((f.search).getD "")
      ∨ containsIgnoringCase l.module ((f.search).getD "")
      ∨ containsIgnoringCase l.userName ((f.search).getD ""))

instance (f : LogFilters) (l : LogEntry) : Decidable (satisfiesLogFilters f l) := by
  unfold satisfiesLogFilters
  infer_instance

/-- All line items of all sales, in the order the two nested loops visit them. -/
def Store.allLines (s : Store) : List SaleItem := s.state.sales.flatMap (fun sale => sale.items)

/-- The line items whose product id is no inherited property name: the lines that
reach an entry of `productSales`. -/
def Store.ownLines (s : Store) : List SaleItem :=
  (Store.allLines s).filter (fun i => !objectPrototypeNames.contains i.productId)

/-- The distinct elements of a list in the order of their first occurrence: the
head is kept and its later copies are dropped. -/
def firstOccurrences : List String → List String
  | [] => []
  | x :: xs => x :: (firstOccurrences xs).filter (fun y => y != x)

/-- The sum of the line totals of the lines of `items` that reference `productId`. -/
def revenueSum (items : List SaleItem) (productId : String) : ℚ :=
  ((items.filter (fun i => i.productId == productId)).map (fun i => i.total)).sum

/-! ## Clearing the log -/

/-- `Store.clearLogs()`: the log is emptied and saved, then the clearing itself is
logged. -/
def Store.clearLogs (env : Env) (s : Store) : Store :=
  let s1 := Store.saveLogs { s with state := { s.state with logs := [] } }
  (Store.addLog env s1 "system" "sistema" "Logs limpos manualmente" none none).1

/-- The stored snapshot agrees with the in-memory state: every collection and the
settings are stored as they are in memory, and the session key holds the session
when there is one and is absent otherwise. -/
def Store.inSync (s : Store) : Prop :=
  s.localStorage.products = some s.state.products
  ∧ s.localStorage.sales = some s.state.sales
  ∧ s.localStorage.expenses = some s.state.expenses
  ∧ s.localStorage.users = some s.state.users
  ∧ s.localStorage.logs = some s.state.logs
  ∧ s.localStorage.settings = some s.state.settings
  ∧ s.localStorage.currentUser = s.state.currentUser

instance (s : Store) : Decidable (Store.inSync s) := by
  unfold Store.inSync
  infer_instance

/-! ## The cart of the sale form -/

/-- `App.addProductToSale()`; `selected` is the value of the select `saleProduct`.
A product already in the cart gets one more unit while its line is below the stock;
a product not yet in the cart gets a new line of one unit. -/
def App.addProductToSale (app : App) (selected : String) : App :=
  if selected == "" then app
  else
    match Store.getProduct app.store selected with
    | none => app
    | some product =>
      match app.saleItems.find? (fun i => i.productId == selected) with
      | some existingItem =>
        if existingItem.quantity < product.stock then
          let saleItems :=
            modifyFirst (fun i => i.productId == selected)
              (fun i =>
                { i with
                  quantity := i.quantity + 1
                  total := ((i.quantity + 1 : Int) : ℚ) * i.price })
              app.saleItems
          { app with saleItems := saleItems }
        else app
      | none =>
        let item : SaleItem :=
          { productId := selected
            name := product.name
            price := product.price
            quantity := 1
            total := product.price }
        { app with saleItems := app.saleItems ++ [item] }

/-- `App.updateSaleItemQuantity(index, delta)`; `none` stands for the `TypeError`
raised by `item.productId` when the cart has no line at `index`. -/
def App.updateSaleItemQuantity (app : App) (index : Nat) (delta : Int) : Option App :=
  match app.saleItems[index]? with
  | none => none
  | some item =>
    match Store.getProduct app.store item.productId with
    | none => some app
    | some product =>
      let newQty := item.quantity + delta
      if newQty < 1 ∨ newQty > product.stock then some app
      else
        let changed : SaleItem :=
          { item with quantity := newQty, total := (newQty : ℚ) * item.price }
        some { app with saleItems := app.saleItems.set index changed }

/-- One user action on the cart of the sale form. -/
inductive CartAction where
  | add (selected : String)
  | changeQuantity (index : Nat) (delta : Int)
deriving DecidableEq, Repr

/-- The application after one cart action; a call that raises leaves it as it was. -/
def App.cartStep (app : App) : CartAction → App
  | .add selected => App.addProductToSale app selected
  | .changeQuantity index delta => (App.updateSaleItemQuantity app index delta).getD app

/-- The application after a sequence of cart actions, first action first. -/
def App.cartSteps (app : App) (actions : List CartAction) : App :=
  actions.foldl App.cartStep app

/-- The products the select of the sale form offers (`openSaleModal`): those with
stock above 0. -/
def Store.availableProducts (s : Store) : List Product :=
  s.state.products.filter (fun p => decide (p.stock > 0))

/-- The application after `saveSale`: the new one when the sale was saved, the old
one when the call warned or raised (both happen before any assignment). -/
def SaveSaleResult.after (app : App) : SaveSaleResult → App
  | .saved app1 _ => app1
  | _ => app

/-! ## Deleting from the shell -/

/-- `App.deleteProduct(id)`; `confirmed` is the answer to the `confirm` dialog.  The
permission matrix of the logged-in profile is asked for `products.delete` first. -/
def App.deleteProduct (env : Env) (app : App) (id : String) (confirmed : Bool) : App :=
  let userPermissions :=
    (app.store.state.currentUser).map (fun u => Store.getUserPermissions u.profile)
  if !((userPermissions.map (fun p => p.products.delete)).getD false) then app
  else
    match Store.getProduct app.store id with
    | none => app
    | some _ =>
      if confirmed then { app with store := (Store.deleteProduct env app.store id).1 }
      else app

/-- `App.deleteExpense(id)`; `confirmed` is the answer to the `confirm` dialog. -/
def App.deleteExpense (env : Env) (app : App) (id : String) (confirmed : Bool) : App :=
  match app.store.state.expenses.find? (fun e => e.id == id) with
  | none => app
  | some _ =>
    if confirmed then { app with store := (Store.deleteExpense env app.store id).1 }
    else app

/-- `App.deleteUser(id)`; `confirmed` is the answer to the `confirm` dialog.  The
comparison `user.id === state.currentUser?.id` is false when nobody is logged in. -/
def App.deleteUser (env : Env) (app : App) (id : String) (confirmed : Bool) : App :=
  match app.store.state.users.find? (fun u => u.id == id) with
  | none => app
  | some user =>
    if some user.id == (app.store.state.currentUser).map (fun u => u.id) then app
    else if confirmed then { app with store := (Store.deleteUser env app.store id).1 }
    else app

/-- One `App.deleteUser` call: the id and the answer to the dialog. -/
structure DeleteUserCall where
  id : String
  confirmed : Bool
deriving DecidableEq, Repr

/-- The application after a sequence of `App.deleteUser` calls. -/
def App.deleteUsers (env : Env) (app : App) (calls : List DeleteUserCall) : App :=
  calls.foldl (fun a c => App.deleteUser env a c.id c.confirmed) app

/-! ## The user form -/

/-- The class `\s` of a JavaScript regular expression. -/
def isRegexSpace (c : Char) : Bool :=
  let n := c.toNat
  (9 ≤ n && n ≤ 13) || n == 32 || n == 160 || n == 5760 || (8192 ≤ n && n ≤ 8202)
    || n == 8232 || n == 8233 || n == 8239 || n == 8287 || n == 12288 || n == 65279

/-- The class `[^\s@]` of the e-mail pattern. -/
def isEmailChar (c : Char) : Bool := !isRegexSpace c && c != '@'

/-- `validateEmail(email)`: the test of the pattern `^[^\s@]+@[^\s@]+\.[^\s@]+$`.
The text before the first `@` must be a non-empty run of the class; the text after
it must be a run of the class with a dot that is neither its first nor its last
character. -/
def validateEmail (email : String) : Bool :=
  let name := email.data.takeWhile isEmailChar
  match email.data.dropWhile isEmailChar with
  | [] => false
  | c :: rest =>
    c == '@' && !name.isEmpty && rest.all isEmailChar
      && (List.range rest.length).any
          (fun i => decide (0 < i) && decide (i + 1 < rest.length) && rest[i]? == some '.')

/-- The fields of the user form read by `saveUser`; `userId` is the hidden field,
empty for a new user. -/
structure UserForm where
  userId : String
  username : String
  fullName : String
  email : String
  profile : String
  password : String
deriving DecidableEq, Repr

/-- The outcome of `App.saveUser`. -/
inductive SaveUserResult where
  | warned (message : String)
  | saved (app : App)
deriving DecidableEq, Repr

/-- The application after `saveUser`. -/
def SaveUserResult.after (app : App) : SaveUserResult → App
  | .saved app1 => app1
  | .warned _ => app

/-- `App.saveUser(e)`. -/
def App.saveUser (env : Env) (app : App) (form : UserForm) : SaveUserResult :=
  let username := trim form.username
  let fullName := trim form.fullName
  let email := trim form.email
  if !validateEmail email then .warned "Por favor, informe um e-mail válido."
  else if form.userId != "" then
    let updates : UserUpdates :=
      { id := none
        username := some username
        password := if form.password != "" then some form.password else none
        fullName := some fullName
        email := some email
        profile := some form.profile
        active := none
        lastLogin := none
        createdAt := none }
    .saved { app with store := (Store.updateUser env app.store form.userId updates).1 }
  else if form.password == "" then .warned "A senha é obrigatória para novos usuários."
  else
    let user : UserData :=
      { id := none
        username := username
        password := form.password
        fullName := fullName
        email := email
        profile := form.profile }
    .saved { app with store := (Store.addUser env app.store user).1 }

/-- The user names of the store, letter case folded. -/
def Store.foldedUsernames (s : Store) : List String :=
  s.state.users.map (fun u => toLowerCase u.username)

/-! ## The sales report of the shell -/

/-- The figures `generateSalesReport` computes and interpolates into the markup it
returns. -/
structure SalesReport where
  salesCount : Nat
  totalSales : ℚ
  totalCost : ℚ
  ticketMedium : ℚ
  topProducts : List TopProduct
deriving DecidableEq, Repr

/-- `App.generateSalesReport(startDate, endDate)`. -/
def App.generateSalesReport (app : App) (startDate endDate : Option String) : SalesReport :=
  let sales := Store.filterSalesByDate app.store startDate endDate
  let totalSales := Store.getTotalSales app.store (some sales)
  let totalCost := Store.getTotalCost app.store (some sales)
  let ticketMedium := if sales.length > 0 then totalSales / (sales.length : ℚ) else 0
  let topProducts := Store.getTopSellingProducts app.store 10
  { salesCount := sales.length
    totalSales := totalSales
    totalCost := totalCost
    ticketMedium := ticketMedium
    topProducts := topProducts }

/-- The sum of the values of the expenses of one category. -/
def categorySum (expenses : List Expense) (category : String) : ℚ :=
  ((expenses.filter (fun e => e.category == category)).map (fun e => e.value)).sum

/-- Every line of the cart is for a different product id, one that `getProduct`
finds, and its quantity is between 1 and the stock of that product. -/
def App.cartWithinStock (app : App) : Prop :=
  (app.saleItems.map (fun i => i.productId)).Nodup
  ∧ ∀ i ∈ app.saleItems,
      ∃ p, Store.getProduct app.store i.productId = some p ∧ 1 ≤ i.quantity
        ∧ i.quantity ≤ p.stock

/-- A cart action the sale form offers on the store `s`: a product is added only
when the product `getProduct` finds for the selected id has stock above 0. -/
def CartAction.offered (s : Store) : CartAction → Prop
  | .add selected => ∀ p, Store.getProduct s selected = some p → 0 < p.stock
  | .changeQuantity _ _ => True

/-! ## Concrete inputs -/

/-- A fixed platform reading used by the concrete examples. -/
def sampleEnv : Env :=
  { nowMs := 1700000000000
    nowIso := "2023-11-14T22:13:20.000Z"
    random := "0.4fzyo82mvyr"
    formatCurrency := fun _ => "KZ"
    year := 2023
    month := 10
    day := 14 }

/-- The initial `state.settings` literal of `store.js`. -/
def defaultSettings : Settings :=
  { companyName := "Minha Empresa"
    currency := "AOA"
    dateFormat := "dd/mm/yyyy"
    lowStockThreshold := 10
    taxRate := 0
    readOnlyMode := none }

/-- The initial `state` literal of `store.js`, with nothing persisted yet. -/
def emptyStore : Store :=
  { state :=
      { currentUser := none
        products := []
        sales := []
        expenses := []
        users := []
        logs := []
        settings := defaultSettings }
    localStorage :=
      { products := none
        sales := none
        expenses := none
        users := none
        logs := none
        currentUser := none
        settings := none } }

/-- The product of the spec scenario: code A1, cost 10, price 20, stock 5. -/
def productA1 : Product :=
  { id := "prod_a1"
    code := "A1"
    name := "Produto A1"
    category := "Geral"
    cost := 10
    price := 20
    stock := 5
    description := ""
    createdAt := some "2023-01-01T00:00:00.000Z"
    updatedAt := some "2023-01-01T00:00:00.000Z" }

/-- A store holding only `productA1`. -/
def storeA1 : Store :=
  { emptyStore with state := { emptyStore.state with products := [productA1] } }

/-- An update record that carries no product key at all. -/
def noUpdates : ProductUpdates :=
  { id := none, code := none, name := none, category := none, cost := none
    price := none, stock := none, description := none, createdAt := none
    updatedAt := none }

/-- An update record that carries an `id` and a `createdAt` key. -/
def idUpdates : ProductUpdates :=
  { noUpdates with id := some "prod_zz", createdAt := some "1999-12-31T00:00:00.000Z" }

/-- The application of the spec scenario: the store holding `productA1` and a cart
with one line of quantity 2 for it. -/
def appA1 : App :=
  { store := storeA1
    saleItems :=
      [{ productId := "prod_a1", name := "Produto A1", price := 20, quantity := 2, total := 40 }] }

/-- The store of the default installation: `emptyStore` after `createDefaultUsers`. -/
def defaultUsersStore : Store := Store.createDefaultUsers sampleEnv emptyStore

/-- A store whose only user is an inactive account `bia` with password `s3nha`. -/
def inactiveUserStore : Store :=
  { emptyStore with state :=
      { emptyStore.state with users :=
          [{ id := "user_9"
             username := "bia"
             password := "s3nha"
             fullName := "Bia Inativa"
             email := "bia@sistema.com"
             profile := "operator"
             active := false
             lastLogin := none
             createdAt := some "2023-01-01T00:00:00.000Z"
             updatedAt := none }] } }

/-- A recorded sale of 2 units of `productA1` on 2023-11-14: total 40, cost 20. -/
def saleS1 : Sale :=
  { id := "sale_s1"
    client := "Bob"
    items :=
      [{ productId := "prod_a1", name := "Produto A1", price := 20, quantity := 2, total := 40 }]
    total := 40
    cost := 20
    date := "2023-11-14"
    userId := none
    createdAt := "2023-11-14T10:00:00.000Z" }

/-- A recorded expense of value 5 on 2023-11-10. -/
def expenseE1 : Expense :=
  { id := "exp_e1"
    description := "Papel"
    category := "Escritório"
    value := 5
    date := "2023-11-10"
    notes := ""
    createdAt := "2023-11-10T10:00:00.000Z" }

/-- A populated store: the default users, `productA1`, `saleS1` and `expenseE1`. -/
def sampleStore : Store :=
  { defaultUsersStore with state :=
      { defaultUsersStore.state with
        products := [productA1]
        sales := [saleS1]
        expenses := [expenseE1] } }

/-- A user record that is not in the default installation. -/
def userNovo : User :=
  { id := "user_77"
    username := "novo"
    password := "***"
    fullName := "Usuário Novo"
    email := "novo@sistema.com"
    profile := "operator"
    active := true
    lastLogin := none
    createdAt := some "2023-02-02T00:00:00.000Z"
    updatedAt := none }

/-- A payload that carries only a `users` field. -/
def usersOnlyPayload : ImportPayload :=
  { products := none, sales := none, expenses := none, users := some [userNovo]
    settings := none }

/-- The populated store with every password changed. -/
def sampleStoreOtherPasswords : Store :=
  { sampleStore with state :=
      { sampleStore.state with
        users := sampleStore.state.users.map (fun u => { u with password := "outra" }) } }

/-- An update record for a user that carries no key at all. -/
def noUserUpdates : UserUpdates :=
  { id := none, username := none, password := none, fullName := none, email := none
    profile := none, active := none, lastLogin := none, createdAt := none }

/-- Rounding to the nearest integer with a tie going away from zero. -/
def roundHalfAwayFromZero (x : ℚ) : ℤ := if 0 ≤ x then ⌊x + 1 / 2⌋ else -⌊-x + 1 / 2⌋

/-- A product out of stock. -/
def productZero : Product :=
  { id := "prod_z0"
    code := "Z0"
    name := "Produto Z0"
    category := "Geral"
    cost := 1
    price := 2
    stock := 0
    description := ""
    createdAt := none
    updatedAt := none }

/-- The store of the stock scenario: a product with stock 0 and one with stock 5,
under the default `lowStockThreshold` of 10. -/
def stockScenarioStore : Store :=
  { emptyStore with state := { emptyStore.state with products := [productZero, productA1] } }

/-- The stock scenario with `settings.lowStockThreshold` set to 0. -/
def zeroThresholdStore : Store :=
  { stockScenarioStore with state :=
      { stockScenarioStore.state with
        settings := { defaultSettings with lowStockThreshold := 0 } } }

/-- The default installation after `login("admin", "admin")`. -/
def loggedInStore : Store := (Store.login sampleEnv defaultUsersStore "admin" "admin").1

/-- The platform reading of 31 March 2023. -/
def envMarch31 : Env :=
  { sampleEnv with
    nowMs := 1680256800000
    nowIso := "2023-03-31T10:00:00.000Z"
    year := 2023
    month := 2
    day := 31 }

/-- The record `{}` passed to `filterLogs`. -/
def noLogFilters : LogFilters :=
  { action := none, module := none, date := none, userId := none, search := none }

/-- A second recorded sale: 2 units of `prod_b2` and 1 unit of `prod_c3`. -/
def saleS2 : Sale :=
  { id := "sale_s2"
    client := "Ana"
    items :=
      [{ productId := "prod_b2", name := "Produto B2", price := 5, quantity := 2, total := 10 },
       { productId := "prod_c3", name := "Produto C3", price := 7, quantity := 1, total := 7 }]
    total := 17
    cost := 9
    date := "2023-11-15"
    userId := none
    createdAt := "2023-11-15T10:00:00.000Z" }

/-- A third recorded sale: 4 more units of `prod_c3`. -/
def saleS3 : Sale :=
  { id := "sale_s3"
    client := "Rui"
    items :=
      [{ productId := "prod_c3", name := "Produto C3", price := 7, quantity := 4, total := 28 }]
    total := 28
    cost := 12
    date := "2023-11-16"
    userId := none
    createdAt := "2023-11-16T10:00:00.000Z" }

/-- A store with three sales: `prod_a1` and `prod_b2` both sold 2 units, `prod_c3`
sold 5 units over two sales. -/
def threeSalesStore : Store :=
  { sampleStore with state := { sampleStore.state with sales := [saleS1, saleS2, saleS3] } }

/-- The populated store right after a full save: the snapshot equals the state. -/
def savedSampleStore : Store := Store.saveToStorage sampleStore

/-- The form data of a new product; it carries no `id` key. -/
def productDataB2 : ProductData :=
  { id := none
    code := "B2"
    name := "Produto B2"
    category := "Geral"
    cost := 3
    price := 5
    stock := 7
    description := "" }

/-- The store after one `addProduct(productDataB2)` at the clock of `sampleEnv`. -/
def storeB2 : Store := (Store.addProduct sampleEnv emptyStore productDataB2).1

/-- The data of a new user that carries an `id` key already in use. -/
def userDataWithId : UserData :=
  { id := some "user_1"
    username := "outro"
    password := "x"
    fullName := "Outro"
    email := "outro@sistema.com"
    profile := "operator" }

/-- An update record for a user that tries to change `id`, `createdAt` and the
password. -/
def userIdUpdates : UserUpdates :=
  { noUserUpdates with
    id := some "user_zz"
    createdAt := some "1999-12-31T00:00:00.000Z"
    password := some "nova" }

/-- The application on the stock scenario with an empty cart. -/
def appStockScenario : App := { store := stockScenarioStore, saleItems := [] }

/-- The application on the default installation, nobody logged in, empty cart. -/
def appDefaultUsers : App := { store := defaultUsersStore, saleItems := [] }

/-- The form of a new user whose name is `ADMIN`. -/
def formNewAdmin : UserForm :=
  { userId := ""
    username := " ADMIN "
    fullName := "Segundo Administrador"
    email := "segundo@sistema.com"
    profile := "operator"
    password := "segredo" }

/-- The form that renames the user `user_2` to `Admin`, password left blank. -/
def formRenameOperator : UserForm :=
  { userId := "user_2"
    username := "Admin"
    fullName := "Operador Padrão"
    email := "operador@sistema.com"
    profile := "operator"
    password := "" }

/-- The form of a new user whose name is not in use. -/
def formNewBia : UserForm :=
  { userId := ""
    username := "Bia"
    fullName := "Bia Nova"
    email := "bia@sistema.com"
    profile := "operator"
    password := "segredo" }

/-- The application on the default installation with the administrator logged in. -/
def appLoggedIn : App := { store := loggedInStore, saleItems := [] }

/-- The populated store with the operator of the default installation logged in. -/
def operatorStore : Store := (Store.login sampleEnv sampleStore "operador" "operador").1

/-- The application on `operatorStore` with an empty cart. -/
def appOperator : App := { store := operatorStore, saleItems := [] }

/-- A second expense of the category of `expenseE1`, value 7, on 2023-11-12. -/
def expenseE2 : Expense :=
  { id := "exp_e2"
    description := "Tinta"
    category := "Escritório"
    value := 7
    date := "2023-11-12"
    notes := ""
    createdAt := "2023-11-12T10:00:00.000Z" }

/-- An expense of another category, value 30, on 2023-11-13. -/
def expenseE3 : Expense :=
  { id := "exp_e3"
    description := "Frete"
    category := "Transporte"
    value := 30
    date := "2023-11-13"
    notes := ""
    createdAt := "2023-11-13T10:00:00.000Z" }

/-- The populated store with three expenses in two categories. -/
def threeExpensesStore : Store :=
  { sampleStore with state :=
      { sampleStore.state with expenses := [expenseE1, expenseE3, expenseE2] } }

/-- An active account `Bia` with password `s3gura`, id `user_10`. -/
def userBiaActive : User :=
  { id := "user_10"
    username := "Bia"
    password := "s3gura"
    fullName := "Bia Ativa"
    email := "bia.ativa@sistema.com"
    profile := "manager"
    active := true
    lastLogin := none
    createdAt := some "2023-03-03T00:00:00.000Z"
    updatedAt := none }

/-- A source store with two accounts of the same name ignoring case: the inactive
`bia` of `inactiveUserStore` first, then the active `Bia`. -/
def twoBiasStore : Store :=
  { inactiveUserStore with state :=
      { inactiveUserStore.state with
        users := inactiveUserStore.state.users ++ [userBiaActive] } }

/-- A source store whose only user is the active `Bia`. -/
def oneBiaStore : Store :=
  { emptyStore with state := { emptyStore.state with users := [userBiaActive] } }

/-- The application on the store with three sales (dated 14, 15 and 16 November). -/
def appThreeSales : App := { store := threeSalesStore, saleItems := [] }

/-- A sale whose two lines carry the product ids `7` and `3`, one unit each. -/
def saleNumericIds : Sale :=
  { id := "sale_n1"
    client := "Eva"
    items :=
      [{ productId := "7", name := "Produto Sete", price := 4, quantity := 1, total := 4 },
       { productId := "3", name := "Produto Três", price := 6, quantity := 1, total := 6 }]
    total := 10
    cost := 5
    date := "2023-11-17"
    userId := none
    createdAt := "2023-11-17T10:00:00.000Z" }

/-- A store whose only sale is `saleNumericIds`. -/
def numericIdsStore : Store :=
  { sampleStore with state := { sampleStore.state with sales := [saleNumericIds] } }

/-- A sale with a line whose product id is the inherited property name `toString`,
followed by a line of `prod_a1`. -/
def saleInheritedName : Sale :=
  { id := "sale_n2"
    client := "Ivo"
    items :=
      [{ productId := "toString", name := "Produto T", price := 1, quantity := 9, total := 9 },
       { productId := "prod_a1", name := "Produto A1", price := 20, quantity := 1, total := 20 }]
    total := 29
    cost := 12
    date := "2023-11-18"
    userId := none
    createdAt := "2023-11-18T10:00:00.000Z" }

/-- A store whose only sale is `saleInheritedName`. -/
def inheritedNameStore : Store :=
  { sampleStore with state := { sampleStore.state with sales := [saleInheritedName] } }

/-- The text made of one no-break space (U+00A0). -/
def noBreakSpace : String := String.mk [Char.ofNat 160]

/-- A store whose only user is the active account `josé` with password `pw`. -/
def joseStore : Store :=
  { emptyStore with state :=
      { emptyStore.state with users :=
          [{ id := "user_20"
             username := "josé"
             password := "pw"
             fullName := "José"
             email := "jose@sistema.com"
             profile := "operator"
             active := true
             lastLogin := none
             createdAt := some "2023-04-04T00:00:00.000Z"
             updatedAt := none }] } }

/-- The form of a new user whose name is `admin` behind a no-break space. -/
def formNewAdminBehindSpace : UserForm :=
  { userId := ""
    username := noBreakSpace ++ "admin"
    fullName := "Terceiro Administrador"
    email := "terceiro@sistema.com"
    profile := "operator"
    password := "segredo" }

/-- A source store with the inactive account `JOSÉ` first, then the active `josé` of
`joseStore`. -/
def twoJosesStore : Store :=
  { emptyStore with state :=
      { emptyStore.state with users :=
          [{ id := "user_21"
             username := "JOSÉ"
             password := "pw"
             fullName := "José Antigo"
             email := "jose.antigo@sistema.com"
             profile := "operator"
             active := false
             lastLogin := none
             createdAt := some "2023-04-01T00:00:00.000Z"
             updatedAt := none }] ++ joseStore.state.users } }

/-! ## Properties -/

/-! ### Audit log -/

/-- The conditional truncation of `addLog` is a plain `take 1000`. -/
theorem addLog_logs (env : Env) (s : Store) (action module details : String)
    (userId userName : Option String) :
    (Store.addLog env s action module details userId userName).1.state.logs
      = (Store.makeLog env s action module details userId userName
          :: s.state.logs).take 1000 := by
  simp only [Store.addLog, Store.saveLogs]
  split
  · rfl
  · rename_i h
    rw [List.take_of_length_le (by omega)]

/-- The entry returned by `addLog` is the one built by `makeLog`. -/
theorem addLog_entry (env : Env) (s : Store) (action module details : String)
    (userId userName : Option String) :
    (Store.addLog env s action module details userId userName).2
      = Store.makeLog env s action module details userId userName := rfl

/-- The `addLog` call touches no in-memory field other than `logs`. -/
theorem addLog_state (env : Env) (s : Store) (action module details : String)
    (userId userName : Option String) :
    (Store.addLog env s action module details userId userName).1.state
      = { s.state with
          logs := (Store.addLog env s action module details userId userName).1.state.logs } :=
  rfl

/-- The entry built by `addLog` reads nothing of the store but the session. -/
theorem makeLog_congr (env : Env) (s t : Store) (action module details : String)
    (userId userName : Option String) (h : s.state.currentUser = t.state.currentUser) :
    Store.makeLog env s action module details userId userName
      = Store.makeLog env t action module details userId userName := by
  simp only [Store.makeLog, h]

/-- A sequence of `addLog` calls leaves the session untouched. -/
theorem addLogs_currentUser (cs : List LogCall) (s : Store) :
    (Store.addLogs s cs).state.currentUser = s.state.currentUser := by
  induction cs generalizing s with
  | nil => rfl
  | cons c cs ih =>
    have h : (Store.addLogs s (c :: cs)) = Store.addLogs (Store.addLogCall s c) cs := rfl
    rw [h, ih]
    rfl

/-- Up to the cap, the log after a sequence of calls is the created entries,
newest first, in front of the initial log. -/
theorem addLogs_take (cs : List LogCall) (s : Store) :
    (Store.addLogs s cs).state.logs.take 1000
      = ((logEntriesOf s cs).reverse ++ s.state.logs).take 1000 := by
  induction cs generalizing s with
  | nil => rfl
  | cons c cs ih =>
    have h : (Store.addLogs s (c :: cs)) = Store.addLogs (Store.addLogCall s c) cs := rfl
    have hcu : (Store.addLogCall s c).state.currentUser = s.state.currentUser := rfl
    have hent : logEntriesOf (Store.addLogCall s c) cs = logEntriesOf s cs := by
      simp only [logEntriesOf]
      apply List.map_congr_left
      intro d _
      exact makeLog_congr _ _ _ _ _ _ _ _ hcu
    rw [h, ih, hent]
    have hl : (Store.addLogCall s c).state.logs
        = (Store.makeLog c.env s c.action c.module c.details c.userId c.userName
            :: s.state.logs).take 1000 := addLog_logs _ _ _ _ _ _ _
    rw [hl]
    simp only [logEntriesOf, List.map_cons, List.reverse_cons, List.append_assoc,
      List.singleton_append]
    rw [List.take_append_eq_append_take, List.take_append_eq_append_take, List.take_take]
    congr 2
    omega

/-- C2. After every `addLog` call of every sequence of calls on every initial log
collection: `state.logs` has at most 1000 entries, its first entry is the entry just
added, it is the new entry followed by the first 999 entries of the previous list
(which is the whole previous list when that had fewer than 1000 entries), and it is
the first 1000 entries of the list of all inserted entries, newest first, followed by the
initial collection. -/
theorem addLog_bounded_newest_first (s : Store) (cs : List LogCall) (c : LogCall) :
    (Store.addLogs s (cs ++ [c])).state.logs.length ≤ 1000
    ∧ (Store.addLogs s (cs ++ [c])).state.logs.head?
        = some (Store.addLog c.env (Store.addLogs s cs)
            c.action c.module c.details c.userId c.userName).2
    ∧ (Store.addLogs s (cs ++ [c])).state.logs
        = (Store.addLog c.env (Store.addLogs s cs)
            c.action c.module c.details c.userId c.userName).2
          :: (Store.addLogs s cs).state.logs.take 999
    ∧ (Store.addLogs s (cs ++ [c])).state.logs
        = ((logEntriesOf s (cs ++ [c])).reverse ++ s.state.logs).take 1000 := by
  have hstep : (Store.addLogs s (cs ++ [c])).state.logs
      = (Store.makeLog c.env (Store.addLogs s cs) c.action c.module c.details c.userId
          c.userName :: (Store.addLogs s cs).state.logs).take 1000 := by
    simp only [Store.addLogs, List.foldl_append, List.foldl_cons, List.foldl_nil]
    exact addLog_logs _ _ _ _ _ _ _
  rw [addLog_entry, hstep]
  refine ⟨?_, ?_, ?_, ?_⟩
  · exact List.length_take_le _ _
  · rfl
  · rfl
  · have h1 := addLogs_take cs s
    have hm := makeLog_congr c.env (Store.addLogs s cs) s c.action c.module c.details
      c.userId c.userName (addLogs_currentUser cs s)
    rw [hm]
    simp only [logEntriesOf, List.map_append, List.map_cons, List.map_nil,
      List.reverse_append, List.reverse_cons, List.reverse_nil, List.nil_append,
      List.singleton_append, List.cons_append]
    show _ :: List.take 999 _ = _ :: List.take 999 _
    congr 1
    have h2 : List.take 999 (List.take 1000 (Store.addLogs s cs).state.logs)
        = List.take 999 (List.take 1000
            ((logEntriesOf s cs).reverse ++ s.state.logs)) := by rw [h1]
    simpa only [List.take_take, logEntriesOf] using h2

/-! ### Products -/

/-- When `findIdx?` answers an index, the list has an element there and it
satisfies the predicate. -/
theorem findIdx?_some_getElem? {α : Type} (p : α → Bool) (xs : List α) (i : Nat)
    (h : xs.findIdx? p = some i) : ∃ x, xs[i]? = some x ∧ p x = true := by
  rw [List.findIdx?_eq_some_iff_getElem] at h
  obtain ⟨hi, hp, _⟩ := h
  exact ⟨xs[i], List.getElem?_eq_getElem hi, hp⟩

/-- C1 (the defect). An update record that carries an `id` and a `createdAt` key
overwrites both: on the store holding product `prod_a1`, `updateProduct` returns
and stores a product whose id is `prod_zz` and whose `createdAt` is the supplied one. -/
theorem updateProduct_overwrites_id_and_createdAt :
    (Store.updateProduct sampleEnv storeA1 "prod_a1" idUpdates).2.map
        (fun p => (p.id, p.createdAt))
      = some ("prod_zz", some "1999-12-31T00:00:00.000Z")
    ∧ (Store.updateProduct sampleEnv storeA1 "prod_a1" idUpdates).1.state.products.map
        (fun p => (p.id, p.createdAt))
      = [("prod_zz", some "1999-12-31T00:00:00.000Z")]
    ∧ storeA1.state.products.map (fun p => (p.id, p.createdAt))
      = [("prod_a1", some "2023-01-01T00:00:00.000Z")] := by
  decide

/-- What `updateProduct` does guarantee: for an existing id it returns and stores,
at the position of the first product with that id, the merged record; its
`updatedAt` is the current timestamp, and its `id` and `createdAt` are the old
ones whenever the update record carries neither key. -/
theorem updateProduct_frame (env : Env) (s : Store) (id : String) (updates : ProductUpdates)
    (i : Nat) (old : Product)
    (hi : s.state.products.findIdx? (fun p => p.id == id) = some i)
    (hold : s.state.products[i]? = some old) :
    (Store.updateProduct env s id updates).2 = some (mergeProduct env old updates)
    ∧ (Store.updateProduct env s id updates).1.state.products
        = s.state.products.set i (mergeProduct env old updates)
    ∧ (mergeProduct env old updates).updatedAt = some env.nowIso
    ∧ (updates.id = none → (mergeProduct env old updates).id = old.id)
    ∧ (updates.createdAt = none → (mergeProduct env old updates).createdAt = old.createdAt) := by
  refine ⟨?_, ?_, rfl, ?_, ?_⟩
  · simp only [Store.updateProduct, hi, hold]
  · simp only [Store.updateProduct, hi, hold]
    rfl
  · intro h
    simp only [mergeProduct, h, Option.getD_none]
  · intro h
    simp only [mergeProduct, h]

/-! ### One audit entry per successful command -/

/-- C3. Each successful mutating command (`addProduct`, `updateProduct`,
`deleteProduct`, `addSale`, `deleteSale`, `addExpense`, `deleteExpense`, `addUser`,
`updateUser`, `deleteUser`, `importData`) leaves `state.logs` equal to one new entry,
whose action is create / update / delete / system according to the command,
followed by the previous entries in their previous order, cut to 1000 entries. -/
theorem command_appends_one_log (env : Env) (s : Store) (cmd : Command)
    (hok : (cmd.run env s).2 = true) :
    ∃ e : LogEntry,
      e.action = cmd.action
      ∧ (cmd.run env s).1.state.logs = (e :: s.state.logs).take 1000 := by
  cases cmd with
  | addProduct product => exact ⟨_, rfl, addLog_logs _ _ _ _ _ _ _⟩
  | addSale sale => exact ⟨_, rfl, addLog_logs _ _ _ _ _ _ _⟩
  | addExpense expense => exact ⟨_, rfl, addLog_logs _ _ _ _ _ _ _⟩
  | addUser user => exact ⟨_, rfl, addLog_logs _ _ _ _ _ _ _⟩
  | importData data merge => exact ⟨_, rfl, addLog_logs _ _ _ _ _ _ _⟩
  | updateProduct id updates =>
    simp only [Command.run, Store.updateProduct] at hok ⊢
    split at hok
    · simp at hok
    · rename_i index hidx
      split at hok
      · simp at hok
      · rename_i old hold
        simp only [hidx, hold]
        exact ⟨_, rfl, addLog_logs _ _ _ _ _ _ _⟩
  | updateUser id updates =>
    simp only [Command.run, Store.updateUser] at hok ⊢
    split at hok
    · simp at hok
    · rename_i index hidx
      split at hok
      · simp at hok
      · rename_i old hold
        simp only [hidx, hold]
        exact ⟨_, rfl, addLog_logs _ _ _ _ _ _ _⟩
  | deleteProduct id =>
    simp only [Command.run, Store.deleteProduct] at hok ⊢
    split at hok
    · simp at hok
    · rename_i index hidx
      split at hok
      · simp at hok
      · rename_i old hold
        simp only [hidx, hold]
        exact ⟨_, rfl, addLog_logs _ _ _ _ _ _ _⟩
  | deleteSale id =>
    simp only [Command.run, Store.deleteSale] at hok ⊢
    split at hok
    · simp at hok
    · rename_i index hidx
      split at hok
      · simp at hok
      · rename_i old hold
        simp only [hidx, hold]
        exact ⟨_, rfl, addLog_logs _ _ _ _ _ _ _⟩
  | deleteExpense id =>
    simp only [Command.run, Store.deleteExpense] at hok ⊢
    split at hok
    · simp at hok
    · rename_i index hidx
      split at hok
      · simp at hok
      · rename_i old hold
        simp only [hidx, hold]
        exact ⟨_, rfl, addLog_logs _ _ _ _ _ _ _⟩
  | deleteUser id =>
    simp only [Command.run, Store.deleteUser] at hok ⊢
    split at hok
    · simp at hok
    · rename_i index hidx
      split at hok
      · simp at hok
      · rename_i old hold
        simp only [hidx, hold]
        exact ⟨_, rfl, addLog_logs _ _ _ _ _ _ _⟩

/-! ### Stock bookkeeping -/

theorem adjustStock_cons (p : Product) (ps : List Product) (id : String) (delta : Int) :
    adjustStock (p :: ps) id delta
      = if p.id == id then { p with stock := p.stock + delta } :: ps
        else p :: adjustStock ps id delta := rfl

theorem lineSum_nil (d : SaleItem → Int) (id : String) : lineSum d [] id = 0 := rfl

theorem lineSum_cons (d : SaleItem → Int) (it : SaleItem) (items : List SaleItem)
    (id : String) :
    lineSum d (it :: items) id
      = (if it.productId == id then d it else 0) + lineSum d items id := by
  unfold lineSum
  by_cases h : it.productId == id <;> simp [List.filter_cons, h]

/-- Running the loop on a non-empty product list: the head product receives the
sum over the lines that reference its id, and the tail sees only the other lines. -/
theorem adjustAll_cons (d : SaleItem → Int) (items : List SaleItem) (p : Product)
    (ps : List Product) :
    adjustAll d (p :: ps) items
      = { p with stock := p.stock + lineSum d items p.id }
        :: adjustAll d ps (items.filter (fun i => !(i.productId == p.id))) := by
  induction items generalizing p ps with
  | nil => simp [adjustAll, lineSum_nil]
  | cons it rest ih =>
    have hstep : adjustAll d (p :: ps) (it :: rest)
        = adjustAll d (adjustStock (p :: ps) it.productId (d it)) rest := rfl
    rw [hstep, adjustStock_cons, lineSum_cons]
    by_cases h : p.id = it.productId
    · have h1 : (p.id == it.productId) = true := by simp [h]
      have h2 : (it.productId == p.id) = true := by simp [h]
      rw [if_pos h1, ih, if_pos h2, List.filter_cons]
      simp only [h2, Bool.not_true]
      simp only [Bool.false_eq_true, ↓reduceIte]
      congr 1
      simp only [Product.mk.injEq, true_and, and_true]
      omega
    · have h1 : (p.id == it.productId) = false := by simp [h]
      have h2 : (it.productId == p.id) = false := by
        simp only [beq_eq_false_iff_ne, ne_eq]
        exact fun e => h e.symm
      rw [if_neg (by simp [h1]), ih, if_neg (by simp [h2]), List.filter_cons]
      simp only [h2, Bool.not_false, ↓reduceIte, zero_add]
      rfl

theorem adjustAll_nil (d : SaleItem → Int) (items : List SaleItem) :
    adjustAll d [] items = [] := by
  induction items with
  | nil => rfl
  | cons it rest ih =>
    have hstep : adjustAll d [] (it :: rest) = adjustAll d (adjustStock [] it.productId (d it)) rest :=
      rfl
    rw [hstep]
    exact ih

theorem lineSum_filter_self (d : SaleItem → Int) (items : List SaleItem) (a : String) :
    lineSum d (items.filter (fun i => !(i.productId == a))) a = 0 := by
  induction items with
  | nil => rfl
  | cons it rest ih =>
    by_cases h : it.productId = a
    · simp only [List.filter_cons, h, beq_self_eq_true, Bool.not_true, Bool.false_eq_true,
        ↓reduceIte]
      exact ih
    · have h2 : (it.productId == a) = false := by simpa using h
      simp only [List.filter_cons, h2, Bool.not_false, ↓reduceIte, lineSum_cons,
        Bool.false_eq_true, zero_add]
      exact ih

theorem lineSum_filter_other (d : SaleItem → Int) (items : List SaleItem) (a b : String)
    (hab : a ≠ b) :
    lineSum d (items.filter (fun i => !(i.productId == a))) b = lineSum d items b := by
  induction items with
  | nil => rfl
  | cons it rest ih =>
    by_cases h : it.productId = a
    · have h3 : (it.productId == b) = false := by
        simp only [beq_eq_false_iff_ne, ne_eq, h]
        exact hab
      simp only [List.filter_cons, h, beq_self_eq_true, Bool.not_true, Bool.false_eq_true,
        ↓reduceIte, lineSum_cons]
      rw [ih]
      have h4 : (a == b) = false := by simpa using hab
      simp [h4]
    · have h2 : (it.productId == a) = false := by simpa using h
      simp only [List.filter_cons, h2, Bool.not_false, ↓reduceIte, lineSum_cons]
      rw [ih]

theorem lineSum_neg (d : SaleItem → Int) (items : List SaleItem) (a : String) :
    lineSum (fun i => -(d i)) items a = -(lineSum d items a) := by
  induction items with
  | nil => rfl
  | cons it rest ih =>
    rw [lineSum_cons, lineSum_cons, ih]
    split <;> omega

/-- What `getProduct` returns after the loop: the product it returned before, with
the sum over the lines referencing that id added to its stock. -/
theorem find?_adjustAll (d : SaleItem → Int) (ps : List Product) (items : List SaleItem)
    (a : String) :
    (adjustAll d ps items).find? (fun p => p.id == a)
      = (ps.find? (fun p => p.id == a)).map
          (fun p => { p with stock := p.stock + lineSum d items a }) := by
  induction ps generalizing items with
  | nil => rw [adjustAll_nil]; rfl
  | cons p ps ih =>
    rw [adjustAll_cons]
    by_cases h : p.id = a
    · subst h
      simp only [List.find?_cons, beq_self_eq_true, Option.map_some']
    · have h1 : (p.id == a) = false := by simpa using h
      simp only [List.find?_cons, h1]
      rw [ih, lineSum_filter_other d items p.id a h]

/-- The loop, position by position: the product at position `j` changes only when
it is the one `getProduct` finds for its id, and then by the sum over the lines
referencing that id. -/
theorem adjustAll_getElem? (d : SaleItem → Int) (ps : List Product) (items : List SaleItem)
    (j : Nat) :
    (adjustAll d ps items)[j]?
      = (ps[j]?).map (fun p =>
          { p with stock := p.stock +
              (if ps.findIdx? (fun q => q.id == p.id) = some j then lineSum d items p.id
               else 0) }) := by
  induction ps generalizing items j with
  | nil => rw [adjustAll_nil]; rfl
  | cons p ps ih =>
    rw [adjustAll_cons]
    cases j with
    | zero =>
      simp only [List.getElem?_cons_zero, Option.map_some', List.findIdx?_cons,
        beq_self_eq_true, ↓reduceIte]
    | succ j =>
      simp only [List.getElem?_cons_succ]
      rw [ih]
      cases hq : ps[j]? with
      | none => rfl
      | some q =>
        simp only [Option.map_some', Option.some.injEq, Product.mk.injEq, true_and, and_true]
        congr 1
        by_cases h : p.id = q.id
        · have h1 : (p.id == q.id) = true := by simp [h]
          rw [← h, lineSum_filter_self]
          simp [List.findIdx?_cons]
        · have h1 : (p.id == q.id) = false := by simpa using h
          rw [lineSum_filter_other d items p.id q.id h]
          simp only [List.findIdx?_cons, h1, Bool.false_eq_true, ↓reduceIte, zero_add,
            List.findIdx?_succ, Option.map_eq_some', Nat.add_right_cancel_iff,
            exists_eq_right]

/-- Adding back what was taken restores the product list. -/
theorem adjustAll_restore (ps : List Product) (items : List SaleItem) :
    adjustAll (fun i => i.quantity) (adjustAll (fun i => -i.quantity) ps items) items = ps := by
  induction ps generalizing items with
  | nil => rw [adjustAll_nil, adjustAll_nil]
  | cons p ps ih =>
    rw [adjustAll_cons, adjustAll_cons, ih]
    congr 1
    rw [lineSum_neg]
    cases p
    simp only [Product.mk.injEq, true_and, and_true]
    exact neg_add_cancel_right _ _

theorem foldl_total (items : List SaleItem) (acc : ℚ) :
    items.foldl (fun sum i => sum + i.total) acc = acc + (items.map (fun i => i.total)).sum := by
  induction items generalizing acc with
  | nil => simp
  | cons it rest ih => simp only [List.foldl_cons, ih, List.map_cons, List.sum_cons]; ring

theorem foldlM_cost (s : Store) (items : List SaleItem) (acc : ℚ)
    (h : ∀ i ∈ items, (Store.getProduct s i.productId).isSome = true) :
    items.foldlM
      (fun sum i =>
        (Store.getProduct s i.productId).map (fun p => sum + p.cost * (i.quantity : ℚ)))
      acc
      = some (acc + (items.map (lineCost s)).sum) := by
  induction items generalizing acc with
  | nil => simp
  | cons it rest ih =>
    have hit := h it (List.mem_cons_self _ _)
    have hrest : ∀ i ∈ rest, (Store.getProduct s i.productId).isSome = true :=
      fun i hi => h i (List.mem_cons_of_mem _ hi)
    obtain ⟨p, hp⟩ := Option.isSome_iff_exists.mp hit
    simp only [List.foldlM_cons, hp, Option.map_some', Option.some_bind,
      List.map_cons, List.sum_cons, Option.bind_eq_bind]
    rw [ih _ hrest]
    simp only [lineCost, hp]
    congr 1
    ring


/-! ### Creating and deleting a sale -/

/-- Under the three preconditions `saveSale` goes through: it returns the
application whose store is the result of `addSale` on the store with the
decremented stocks. -/
theorem saveSale_saved (env : Env) (app : App) (clientInput : String)
    (hclient : trim clientInput ≠ "")
    (hcart : app.saleItems ≠ [])
    (hrefs : ∀ i ∈ app.saleItems, (Store.getProduct app.store i.productId).isSome = true) :
    App.saveSale env app clientInput
      = .saved
          { app with store :=
              (Store.addSale env
                { app.store with state :=
                    { app.store.state with
                      products := adjustAll (fun i => -i.quantity) app.store.state.products
                        app.saleItems } }
                (cartSale env app (trim clientInput)
                  (app.saleItems.map (fun i => i.total)).sum
                  (app.saleItems.map (lineCost app.store)).sum)).1 }
          (newSaleOf env (cartSale env app (trim clientInput)
            (app.saleItems.map (fun i => i.total)).sum
            (app.saleItems.map (lineCost app.store)).sum)) := by
  have hcost : saleCost app.store app.saleItems
      = some ((app.saleItems.map (lineCost app.store)).sum) := by
    have h := foldlM_cost app.store app.saleItems 0 hrefs
    rw [zero_add] at h
    exact h
  have htotal : app.saleItems.foldl (fun sum i => sum + i.total) 0
      = (app.saleItems.map (fun i => i.total)).sum := by
    rw [foldl_total, zero_add]
  have hc : (trim clientInput == "") = false := by simpa using hclient
  have hl : (app.saleItems.length == 0) = false := by
    cases h : app.saleItems with
    | nil => exact absurd h hcart
    | cons _ _ => rfl
  unfold App.saveSale
  simp only [hc, hl, hcost, htotal, Bool.false_eq_true, ↓reduceIte]
  rfl

theorem cartSale_items (env : Env) (app : App) (client : String) (total cost : ℚ) :
    (cartSale env app client total cost).items = app.saleItems := by
  simp only [cartSale]
  exact List.map_id _

theorem cartQuantity_of_single (items : List SaleItem) (i : SaleItem)
    (h : items.filter (fun k => k.productId == i.productId) = [i]) :
    cartQuantity items i.productId = i.quantity := by
  simp [cartQuantity, lineSum, h]

/-- C4. With a non-empty client name and a non-empty cart whose lines reference
existing products, `saveSale` succeeds; the created sale is put at the head of
`state.sales`, its total is the sum of the line totals and its cost the sum over the
lines of (cost of the referenced product × quantity); the product that `getProduct`
finds for an id has its stock decreased by the quantity the cart asks of that id
(exactly the line's quantity when one line references it) and no other field
changed; position by position, every other product is unchanged. -/
theorem saveSale_effect (env : Env) (app : App) (clientInput : String)
    (hclient : trim clientInput ≠ "")
    (hcart : app.saleItems ≠ [])
    (hrefs : ∀ i ∈ app.saleItems, (Store.getProduct app.store i.productId).isSome = true) :
    ∃ (app' : App) (sale : Sale),
      App.saveSale env app clientInput = .saved app' sale
      ∧ app'.store.state.sales = sale :: app.store.state.sales
      ∧ sale.total = (app.saleItems.map (fun i => i.total)).sum
      ∧ sale.cost = (app.saleItems.map (lineCost app.store)).sum
      ∧ (∀ id, Store.getProduct app'.store id
          = (Store.getProduct app.store id).map
              (fun p : Product =>
                { p with stock := p.stock - cartQuantity app.saleItems id }))
      ∧ (∀ i ∈ app.saleItems,
          app.saleItems.filter (fun k => k.productId == i.productId) = [i] →
          (Store.getProduct app'.store i.productId).map (fun p => p.stock)
            = (Store.getProduct app.store i.productId).map (fun p => p.stock - i.quantity))
      ∧ (∀ j, app'.store.state.products[j]?
          = (app.store.state.products[j]?).map (fun p : Product =>
              { p with stock := p.stock -
                  (if app.store.state.products.findIdx? (fun q : Product => q.id == p.id) = some j
                   then cartQuantity app.saleItems p.id else 0) })) := by
  have hfind : ∀ id,
      (adjustAll (fun i => -i.quantity) app.store.state.products app.saleItems).find?
          (fun p => p.id == id)
        = (Store.getProduct app.store id).map
            (fun p : Product =>
              { p with stock := p.stock - cartQuantity app.saleItems id }) := by
    intro id
    rw [find?_adjustAll, lineSum_neg (fun i => i.quantity)]
    rfl
  refine ⟨_, _, saveSale_saved env app clientInput hclient hcart hrefs, rfl, rfl, rfl,
    hfind, ?_, ?_⟩
  · intro i _ hsingle
    have h := hfind i.productId
    rw [cartQuantity_of_single _ _ hsingle] at h
    show Option.map (fun p => p.stock)
      ((adjustAll (fun i => -i.quantity) app.store.state.products app.saleItems).find?
        (fun p => p.id == i.productId)) = _
    rw [h, Option.map_map]
    rfl
  · intro j
    show (adjustAll (fun i => -i.quantity) app.store.state.products app.saleItems)[j]? = _
    rw [adjustAll_getElem?]
    congr 1
    funext p
    rw [lineSum_neg (fun i => i.quantity)]
    simp only [Product.mk.injEq, true_and, and_true]
    show _ = p.stock - (if _ then lineSum (fun i => i.quantity) app.saleItems p.id else 0)
    split <;> omega

/-- Deleting the sale at the head of `state.sales` by its id removes exactly it and
adds each of its line quantities back to the product `getProduct` finds. -/
theorem deleteSale_head (env : Env) (app : App) (sale : Sale) (rest : List Sale)
    (h : app.store.state.sales = sale :: rest) :
    (App.deleteSale env app sale.id true).store.state.sales = rest
    ∧ (App.deleteSale env app sale.id true).store.state.products
        = adjustAll (fun i => i.quantity) app.store.state.products sale.items := by
  simp only [App.deleteSale, Store.deleteSale, h, List.find?_cons, List.findIdx?_cons,
    beq_self_eq_true, ↓reduceIte, List.getElem?_cons_zero, List.eraseIdx_cons_zero]
  exact ⟨rfl, rfl⟩

/-- C5. With a non-empty client name and a non-empty cart whose lines reference
existing products, `saveSale` followed by a confirmed `deleteSale` of the sale just
created gives back the sales collection and the product list (hence every stock)
of before the sale. -/
theorem saveSale_deleteSale_roundtrip (env env2 : Env) (app : App) (clientInput : String)
    (hclient : trim clientInput ≠ "")
    (hcart : app.saleItems ≠ [])
    (hrefs : ∀ i ∈ app.saleItems, (Store.getProduct app.store i.productId).isSome = true) :
    ∃ (app' : App) (sale : Sale),
      App.saveSale env app clientInput = .saved app' sale
      ∧ sale ∈ app'.store.state.sales
      ∧ (App.deleteSale env2 app' sale.id true).store.state.sales = app.store.state.sales
      ∧ (App.deleteSale env2 app' sale.id true).store.state.products
          = app.store.state.products := by
  refine ⟨_, _, saveSale_saved env app clientInput hclient hcart hrefs, ?_, ?_, ?_⟩
  · exact List.mem_cons_self _ _
  · exact (deleteSale_head env2 _ _ app.store.state.sales rfl).1
  · rw [(deleteSale_head env2 _ _ app.store.state.sales rfl).2]
    simp only [newSaleOf, cartSale_items]
    show adjustAll (fun i => i.quantity)
      (adjustAll (fun i => -i.quantity) app.store.state.products app.saleItems)
      app.saleItems = _
    exact adjustAll_restore _ _


/-- C3 at a concrete input: deleting the existing product `prod_a1` succeeds and
leaves one new `delete` entry in front of the previous log. -/
theorem command_appends_one_log_witness :
    (Command.run sampleEnv storeA1 (.deleteProduct "prod_a1")).2 = true
    ∧ ∃ e : LogEntry,
        e.action = "delete"
        ∧ (Command.run sampleEnv storeA1 (.deleteProduct "prod_a1")).1.state.logs
            = (e :: storeA1.state.logs).take 1000 :=
  ⟨by decide,
    command_appends_one_log sampleEnv storeA1 (.deleteProduct "prod_a1") (by decide)⟩

/-- C4 at the spec scenario: product cost 10, price 20, stock 5 and one line of
quantity 2 give stock 3, total 40 and cost 20. -/
theorem saveSale_effect_witness :
    (trim "Bob" ≠ "" ∧ appA1.saleItems ≠ []
      ∧ ∀ i ∈ appA1.saleItems, (Store.getProduct appA1.store i.productId).isSome = true)
    ∧ ∃ (app' : App) (sale : Sale),
        App.saveSale sampleEnv appA1 "Bob" = .saved app' sale
        ∧ app'.store.state.sales = [sale]
        ∧ sale.total = 40
        ∧ sale.cost = 20
        ∧ (Store.getProduct app'.store "prod_a1").map (fun p => p.stock) = some 3 := by
  refine ⟨⟨by decide, by decide, by decide⟩, ?_⟩
  obtain ⟨app', sale, hsaved, hsales, htotal, hcost, _, hline, _⟩ :=
    saveSale_effect sampleEnv appA1 "Bob" (by decide) (by decide) (by decide)
  refine ⟨app', sale, hsaved, hsales, ?_, ?_, ?_⟩
  · rw [htotal]; decide!
  · rw [hcost]; decide!
  · have h := hline
      { productId := "prod_a1", name := "Produto A1", price := 20, quantity := 2, total := 40 }
      (by decide) (by decide)
    rw [h]
    decide

/-- C5 at the spec scenario: creating the sale of 2 units of `prod_a1` and
deleting it again gives back the empty sales collection and the product list
with stock 5. -/
theorem saveSale_deleteSale_roundtrip_witness :
    (trim "Bob" ≠ "" ∧ appA1.saleItems ≠ []
      ∧ ∀ i ∈ appA1.saleItems, (Store.getProduct appA1.store i.productId).isSome = true)
    ∧ ∃ (app' : App) (sale : Sale),
        App.saveSale sampleEnv appA1 "Bob" = .saved app' sale
        ∧ sale ∈ app'.store.state.sales
        ∧ (App.deleteSale sampleEnv app' sale.id true).store.state.sales
            = appA1.store.state.sales
        ∧ (App.deleteSale sampleEnv app' sale.id true).store.state.products
            = appA1.store.state.products :=
  ⟨⟨by decide, by decide, by decide⟩,
    saveSale_deleteSale_roundtrip sampleEnv sampleEnv appA1 "Bob"
      (by decide) (by decide) (by decide)⟩

/-! ### Permission matrix -/

/-- C6. `getUserPermissions` gives: for `admin` every leaf true; for `manager`
everything true except the four users capabilities, `logs.export` and settings
view/edit; for `operator` only dashboard, products.view, sales.view, sales.create,
expenses.view and reports.view true. -/
theorem getUserPermissions_roles :
    Store.getUserPermissions "admin"
      = { dashboard := true
          products := { view := true, create := true, edit := true, delete := true }
          sales := { view := true, create := true, edit := true, delete := true }
          expenses := { view := true, create := true, edit := true, delete := true }
          reports := { view := true, export_ := true }
          users := { view := true, create := true, edit := true, delete := true }
          logs := { view := true, export_ := some true }
          settings := { view := true, edit := true } }
    ∧ Store.getUserPermissions "manager"
      = { dashboard := true
          products := { view := true, create := true, edit := true, delete := true }
          sales := { view := true, create := true, edit := true, delete := true }
          expenses := { view := true, create := true, edit := true, delete := true }
          reports := { view := true, export_ := true }
          users := { view := false, create := false, edit := false, delete := false }
          logs := { view := true, export_ := some false }
          settings := { view := false, edit := false } }
    ∧ Store.getUserPermissions "operator"
      = { dashboard := true
          products := { view := true, create := false, edit := false, delete := false }
          sales := { view := true, create := true, edit := false, delete := false }
          expenses := { view := true, create := false, edit := false, delete := false }
          reports := { view := true, export_ := false }
          users := { view := false, create := false, edit := false, delete := false }
          logs := { view := false, export_ := some false }
          settings := { view := false, edit := false } } := by
  decide

/-- C7 (as stated, refuted). For the unrecognised profile `guest` the matrix grants
the delete capability on products, sales and expenses. -/
theorem getUserPermissions_default_grants_delete :
    "guest" ≠ "admin" ∧ "guest" ≠ "manager" ∧ "guest" ≠ "operator"
    ∧ ¬ ((Store.getUserPermissions "guest").products.delete = false
        ∧ (Store.getUserPermissions "guest").sales.delete = false
        ∧ (Store.getUserPermissions "guest").expenses.delete = false
        ∧ (Store.getUserPermissions "guest").users.delete = false)
    ∧ (Store.getUserPermissions "guest").products.delete = true
    ∧ (Store.getUserPermissions "guest").sales.delete = true
    ∧ (Store.getUserPermissions "guest").expenses.delete = true := by
  decide

/-- C7 (amended). Every profile other than `admin`, `manager` and `operator` gets one
fixed default matrix.  It grants no administrative right: the four users
capabilities, `logs.view` and settings view/edit are false and there is no
`logs.export` leaf.  It does grant delete on products, sales and expenses. -/
theorem getUserPermissions_default (profile : String)
    (hadmin : profile ≠ "admin") (hmanager : profile ≠ "manager")
    (hoperator : profile ≠ "operator") :
    Store.getUserPermissions profile
      = { dashboard := true
          products := { view := true, create := true, edit := true, delete := true }
          sales := { view := true, create := true, edit := false, delete := true }
          expenses := { view := true, create := true, edit := true, delete := true }
          reports := { view := true, export_ := true }
          users := { view := false, create := false, edit := false, delete := false }
          logs := { view := false, export_ := none }
          settings := { view := false, edit := false } } := by
  simp only [Store.getUserPermissions, hadmin, hmanager, hoperator, ↓reduceIte]

/-- C7 (amended) at the profile `guest`. -/
theorem getUserPermissions_default_witness :
    ("guest" ≠ "admin" ∧ "guest" ≠ "manager" ∧ "guest" ≠ "operator")
    ∧ Store.getUserPermissions "guest"
      = { dashboard := true
          products := { view := true, create := true, edit := true, delete := true }
          sales := { view := true, create := true, edit := false, delete := true }
          expenses := { view := true, create := true, edit := true, delete := true }
          reports := { view := true, export_ := true }
          users := { view := false, create := false, edit := false, delete := false }
          logs := { view := false, export_ := none }
          settings := { view := false, edit := false } } :=
  ⟨by decide, getUserPermissions_default "guest" (by decide) (by decide) (by decide)⟩


/-! ### Login -/

theorem credentialsMatch_iff (username password : String) (u : User) :
    credentialsMatch username password u = true
      ↔ toLowerCase u.username = toLowerCase username ∧ u.password = password := by
  simp only [credentialsMatch, Bool.and_eq_true, beq_iff_eq]

/-- No user matches: `login` logs the failed attempt and answers "invalid credentials". -/
theorem login_of_none (env : Env) (s : Store) (username password : String)
    (hf : s.state.users.find? (credentialsMatch username password) = none) :
    Store.login env s username password
      = ((Store.addLog env s "login" "usuarios"
            ("Falha de login para usuário: " ++ username) none none).1,
          .failure invalidMessage) := by
  simp only [Store.login, hf]

/-- The matching user is inactive: `login` returns at once, the store untouched. -/
theorem login_of_inactive (env : Env) (s : Store) (username password : String) (u : User)
    (hf : s.state.users.find? (credentialsMatch username password) = some u)
    (hact : u.active = false) :
    Store.login env s username password = (s, .failure inactiveMessage) := by
  simp only [Store.login, hf, hact, Bool.not_false, ↓reduceIte]

/-- The matching user is active: `login` succeeds. -/
theorem login_of_active (env : Env) (s : Store) (username password : String) (u : User)
    (hf : s.state.users.find? (credentialsMatch username password) = some u)
    (hact : u.active = true) :
    (Store.login env s username password).2.isSuccess = true
    ∧ (Store.login env s username password).1.state.logs
        = (Store.makeLog env
            (Store.saveToStorage
              { s with state :=
                  { s.state with
                    users := modifyFirst (credentialsMatch username password)
                      (fun v => { v with lastLogin := some env.nowIso }) s.state.users
                    currentUser := some
                      { id := u.id
                        username := u.username
                        fullName := u.fullName
                        email := u.email
                        profile := u.profile
                        permissions := Store.getUserPermissions u.profile } } })
            "login" "usuarios" "Login realizado com sucesso" (some u.id) (some u.fullName)
          :: s.state.logs).take 1000 := by
  simp only [Store.login, hf, hact, Bool.not_true, Bool.false_eq_true, ↓reduceIte,
    LoginResult.isSuccess, true_and]
  exact addLog_logs _ _ _ _ _ _ _

theorem messages_differ : inactiveMessage ≠ invalidMessage := by decide

/-- C8. When the usernames are pairwise distinct ignoring case: `login` succeeds
exactly when some user has the given username ignoring case, the given password
exactly and is active; it returns the "inactive user" failure exactly when such a
user matches but is inactive; in every other case it returns the "invalid
credentials" failure; and the two failure messages differ. -/
theorem login_outcomes (env : Env) (s : Store) (username password : String)
    (hdistinct : (s.state.users.map (fun u => toLowerCase u.username)).Nodup) :
    ((Store.login env s username password).2.isSuccess = true
      ↔ ∃ u ∈ s.state.users,
          toLowerCase u.username = toLowerCase username ∧ u.password = password
          ∧ u.active = true)
    ∧ ((Store.login env s username password).2 = .failure inactiveMessage
      ↔ ∃ u ∈ s.state.users,
          toLowerCase u.username = toLowerCase username ∧ u.password = password
          ∧ u.active = false)
    ∧ ((¬ ∃ u ∈ s.state.users,
          toLowerCase u.username = toLowerCase username ∧ u.password = password) →
        (Store.login env s username password).2 = .failure invalidMessage)
    ∧ inactiveMessage ≠ invalidMessage := by
  cases hf : s.state.users.find? (credentialsMatch username password) with
  | none =>
    have hnone : ∀ u ∈ s.state.users,
        ¬ (toLowerCase u.username = toLowerCase username ∧ u.password = password) := by
      intro u hu hm
      have h := List.find?_eq_none.mp hf u hu
      exact h ((credentialsMatch_iff username password u).mpr hm)
    rw [login_of_none env s username password hf]
    refine ⟨⟨?_, ?_⟩, ⟨?_, ?_⟩, fun _ => rfl, messages_differ⟩
    · intro h
      simp [LoginResult.isSuccess] at h
    · rintro ⟨u, hu, h1, h2, _⟩
      exact absurd ⟨h1, h2⟩ (hnone u hu)
    · intro h
      simp only [LoginResult.failure.injEq] at h
      exact absurd h.symm messages_differ
    · rintro ⟨u, hu, h1, h2, _⟩
      exact absurd ⟨h1, h2⟩ (hnone u hu)
  | some u =>
    have hu : u ∈ s.state.users := List.mem_of_find?_eq_some hf
    have hm := (credentialsMatch_iff username password u).mp (List.find?_some hf)
    have huniq : ∀ v ∈ s.state.users,
        toLowerCase v.username = toLowerCase username → v = u := by
      intro v hv h
      exact List.inj_on_of_nodup_map hdistinct hv hu (h.trans hm.1.symm)
    cases hact : u.active with
    | false =>
      rw [login_of_inactive env s username password u hf hact]
      refine ⟨⟨?_, ?_⟩, ⟨?_, ?_⟩, ?_, messages_differ⟩
      · intro h
        simp [LoginResult.isSuccess] at h
      · rintro ⟨v, hv, h1, _, h3⟩
        rw [huniq v hv h1, hact] at h3
        exact absurd h3 (by decide)
      · intro _
        exact ⟨u, hu, hm.1, hm.2, hact⟩
      · intro _
        rfl
      · intro h
        exact absurd ⟨u, hu, hm.1, hm.2⟩ h
    | true =>
      have hs := (login_of_active env s username password u hf hact).1
      refine ⟨⟨?_, ?_⟩, ⟨?_, ?_⟩, ?_, messages_differ⟩
      · intro _
        exact ⟨u, hu, hm.1, hm.2, hact⟩
      · intro _
        exact hs
      · intro h
        rw [h] at hs
        simp [LoginResult.isSuccess] at hs
      · rintro ⟨v, hv, h1, _, h3⟩
        rw [huniq v hv h1, hact] at h3
        exact absurd h3 (by decide)
      · intro h
        exact absurd ⟨u, hu, hm.1, hm.2⟩ h

/-- C8 on the default installation, for the credentials `ADMIN` / `admin`. -/
theorem login_outcomes_witness :
    (defaultUsersStore.state.users.map (fun u => toLowerCase u.username)).Nodup
    ∧ (((Store.login sampleEnv defaultUsersStore "ADMIN" "admin").2.isSuccess = true
        ↔ ∃ u ∈ defaultUsersStore.state.users,
            toLowerCase u.username = toLowerCase "ADMIN" ∧ u.password = "admin"
            ∧ u.active = true)
      ∧ ((Store.login sampleEnv defaultUsersStore "ADMIN" "admin").2
            = .failure inactiveMessage
        ↔ ∃ u ∈ defaultUsersStore.state.users,
            toLowerCase u.username = toLowerCase "ADMIN" ∧ u.password = "admin"
            ∧ u.active = false)
      ∧ ((¬ ∃ u ∈ defaultUsersStore.state.users,
            toLowerCase u.username = toLowerCase "ADMIN" ∧ u.password = "admin") →
          (Store.login sampleEnv defaultUsersStore "ADMIN" "admin").2
            = .failure invalidMessage)
      ∧ inactiveMessage ≠ invalidMessage)
    ∧ (Store.login sampleEnv defaultUsersStore "ADMIN" "admin").2.isSuccess = true
    ∧ (Store.login sampleEnv defaultUsersStore "admin" "ADMIN").2
        = .failure invalidMessage :=
  ⟨by decide, login_outcomes sampleEnv defaultUsersStore "ADMIN" "admin" (by decide),
    by decide, by decide⟩

/-- C9. Whenever `login` does not succeed, `state.currentUser` and `state.users`
(every `lastLogin` included) are what they were before the call. -/
theorem login_failure_keeps_session (env : Env) (s : Store) (username password : String)
    (hfail : (Store.login env s username password).2.isSuccess = false) :
    (Store.login env s username password).1.state.currentUser = s.state.currentUser
    ∧ (Store.login env s username password).1.state.users = s.state.users := by
  cases hf : s.state.users.find? (credentialsMatch username password) with
  | none =>
    rw [login_of_none env s username password hf]
    exact ⟨rfl, rfl⟩
  | some u =>
    cases hact : u.active with
    | false =>
      rw [login_of_inactive env s username password u hf hact]
      exact ⟨rfl, rfl⟩
    | true =>
      rw [(login_of_active env s username password u hf hact).1] at hfail
      exact absurd hfail (by decide)

/-- C9 on the default installation: `login("admin", "wrongpass")` fails and creates
no session. -/
theorem login_failure_keeps_session_witness :
    (Store.login sampleEnv defaultUsersStore "admin" "wrongpass").2.isSuccess = false
    ∧ (Store.login sampleEnv defaultUsersStore "admin" "wrongpass").1.state.currentUser
        = defaultUsersStore.state.currentUser
    ∧ (Store.login sampleEnv defaultUsersStore "admin" "wrongpass").1.state.users
        = defaultUsersStore.state.users :=
  ⟨by decide,
    login_failure_keeps_session sampleEnv defaultUsersStore "admin" "wrongpass" (by decide)⟩

/-- C10 (the defect). A login attempt on an inactive account returns the "inactive
user" failure and records nothing: the audit log is the same before and after. -/
theorem login_inactive_records_no_log :
    (Store.login sampleEnv inactiveUserStore "bia" "s3nha").2 = .failure inactiveMessage
    ∧ (Store.login sampleEnv inactiveUserStore "bia" "s3nha").1.state.logs
        = inactiveUserStore.state.logs
    ∧ inactiveUserStore.state.logs = [] := by
  decide

/-- What `login` does record: an attempt that succeeds or that matches no user adds
exactly one entry, with action `login`, in front of the previous log; an attempt
that hits an inactive account adds none. -/
theorem login_logs (env : Env) (s : Store) (username password : String) :
    ((Store.login env s username password).2 ≠ .failure inactiveMessage →
      ∃ e : LogEntry, e.action = "login"
        ∧ (Store.login env s username password).1.state.logs
            = (e :: s.state.logs).take 1000)
    ∧ ((Store.login env s username password).2 = .failure inactiveMessage →
      (Store.login env s username password).1.state.logs = s.state.logs) := by
  cases hf : s.state.users.find? (credentialsMatch username password) with
  | none =>
    rw [login_of_none env s username password hf]
    refine ⟨fun _ => ⟨_, rfl, addLog_logs _ _ _ _ _ _ _⟩, ?_⟩
    intro h
    simp only [LoginResult.failure.injEq] at h
    exact absurd h.symm messages_differ
  | some u =>
    cases hact : u.active with
    | false =>
      rw [login_of_inactive env s username password u hf hact]
      exact ⟨fun h => absurd rfl h, fun _ => rfl⟩
    | true =>
      have h := login_of_active env s username password u hf hact
      refine ⟨fun _ => ⟨_, rfl, h.2⟩, ?_⟩
      intro hres
      have hs := h.1
      rw [hres] at hs
      exact absurd hs (by decide)


/-! ### The session created by a successful login -/

/-- The element `find?` returns sits at an index before which nothing satisfies the
predicate, and `modifyFirst` rewrites exactly that position. -/
theorem find?_some_modifyFirst {α : Type} (p : α → Bool) (f : α → α) (xs : List α) (u : α)
    (h : xs.find? p = some u) :
    ∃ i : Nat, xs[i]? = some u
      ∧ (∀ (j : Nat) (v : α), j < i → xs[j]? = some v → p v = false)
      ∧ modifyFirst p f xs = xs.set i (f u) := by
  induction xs with
  | nil => simp at h
  | cons x xs ih =>
    by_cases hp : p x = true
    · simp only [List.find?_cons, hp, Option.some.injEq] at h
      subst h
      refine ⟨0, by simp, ?_, ?_⟩
      · intro j v hj
        exact absurd hj (Nat.not_lt_zero j)
      · simp only [modifyFirst, hp, ↓reduceIte, List.set_cons_zero]
    · have hp' : p x = false := by simpa using hp
      simp only [List.find?_cons, hp'] at h
      obtain ⟨i, hi, hbefore, hmod⟩ := ih h
      refine ⟨i + 1, by simpa using hi, ?_, ?_⟩
      · intro j v hj hv
        cases j with
        | zero =>
          simp only [List.getElem?_cons_zero, Option.some.injEq] at hv
          rw [← hv]
          exact hp'
        | succ j =>
          simp only [List.getElem?_cons_succ] at hv
          exact hbefore j v (by omega) hv
      · simp only [modifyFirst, hp', Bool.false_eq_true, ↓reduceIte, List.set_cons_succ, hmod]

/-- The matching user is active: the store and the result `login` returns. -/
theorem login_of_active_eq (env : Env) (s : Store) (username password : String) (u : User)
    (hf : s.state.users.find? (credentialsMatch username password) = some u)
    (hact : u.active = true) :
    Store.login env s username password
      = ((Store.addLog env
            (Store.saveToStorage
              { s with state :=
                  { s.state with
                    users := modifyFirst (credentialsMatch username password)
                      (fun v => { v with lastLogin := some env.nowIso }) s.state.users
                    currentUser := some
                      { id := u.id
                        username := u.username
                        fullName := u.fullName
                        email := u.email
                        profile := u.profile
                        permissions := Store.getUserPermissions u.profile } } })
            "login" "usuarios" "Login realizado com sucesso" (some u.id)
            (some u.fullName)).1,
          .success
            { id := u.id
              username := u.username
              fullName := u.fullName
              email := u.email
              profile := u.profile
              permissions := Store.getUserPermissions u.profile }) := by
  simp only [Store.login, hf]
  rw [if_neg (by simp [hact])]

/-- C11. When `login` succeeds, it does so for the first user `u` of `state.users`
whose username (ignoring case) and password match: the result and
`state.currentUser` are the snapshot of `u` (id, username, fullName, email, profile)
with `permissions = getUserPermissions(u.profile)`, and `state.users` is the old
list in which only that record changed, and in it only `lastLogin`, now the
current timestamp. -/
theorem login_success_effect (env : Env) (s : Store) (username password : String)
    (hok : (Store.login env s username password).2.isSuccess = true) :
    ∃ (i : Nat) (u : User),
      s.state.users[i]? = some u
      ∧ credentialsMatch username password u = true
      ∧ (∀ (j : Nat) (v : User), j < i → s.state.users[j]? = some v →
          credentialsMatch username password v = false)
      ∧ (Store.login env s username password).2
          = .success
              { id := u.id
                username := u.username
                fullName := u.fullName
                email := u.email
                profile := u.profile
                permissions := Store.getUserPermissions u.profile }
      ∧ (Store.login env s username password).1.state.currentUser
          = some
              { id := u.id
                username := u.username
                fullName := u.fullName
                email := u.email
                profile := u.profile
                permissions := Store.getUserPermissions u.profile }
      ∧ (Store.login env s username password).1.state.users
          = s.state.users.set i { u with lastLogin := some env.nowIso } := by
  cases hf : s.state.users.find? (credentialsMatch username password) with
  | none =>
    rw [login_of_none env s username password hf] at hok
    simp [LoginResult.isSuccess] at hok
  | some u =>
    cases hact : u.active with
    | false =>
      rw [login_of_inactive env s username password u hf hact] at hok
      simp [LoginResult.isSuccess] at hok
    | true =>
      obtain ⟨i, hi, hbefore, hmod⟩ :=
        find?_some_modifyFirst (credentialsMatch username password)
          (fun v => { v with lastLogin := some env.nowIso }) s.state.users u hf
      have hlogin := login_of_active_eq env s username password u hf hact
      refine ⟨i, u, hi, List.find?_some hf, hbefore, ?_, ?_, ?_⟩
      · rw [hlogin]
      · rw [hlogin]
        rfl
      · rw [hlogin]
        exact hmod

/-- C11 on the default installation: `login("admin", "admin")` succeeds for the
first user and stamps its `lastLogin`. -/
theorem login_success_effect_witness :
    (Store.login sampleEnv defaultUsersStore "admin" "admin").2.isSuccess = true
    ∧ (∃ (i : Nat) (u : User),
        defaultUsersStore.state.users[i]? = some u
        ∧ credentialsMatch "admin" "admin" u = true
        ∧ (∀ (j : Nat) (v : User), j < i → defaultUsersStore.state.users[j]? = some v →
            credentialsMatch "admin" "admin" v = false)
        ∧ (Store.login sampleEnv defaultUsersStore "admin" "admin").2
            = .success
                { id := u.id
                  username := u.username
                  fullName := u.fullName
                  email := u.email
                  profile := u.profile
                  permissions := Store.getUserPermissions u.profile }
        ∧ (Store.login sampleEnv defaultUsersStore "admin" "admin").1.state.currentUser
            = some
                { id := u.id
                  username := u.username
                  fullName := u.fullName
                  email := u.email
                  profile := u.profile
                  permissions := Store.getUserPermissions u.profile }
        ∧ (Store.login sampleEnv defaultUsersStore "admin" "admin").1.state.users
            = defaultUsersStore.state.users.set i { u with lastLogin := some sampleEnv.nowIso })
    ∧ (Store.login sampleEnv defaultUsersStore "admin" "admin").1.state.users.map
        (fun u => (u.id, u.lastLogin))
      = [("user_1", some "2023-11-14T22:13:20.000Z"), ("user_2", none), ("user_3", none)] :=
  ⟨by decide, login_success_effect sampleEnv defaultUsersStore "admin" "admin" (by decide),
    by decide⟩

/-! ### Logout -/

/-- The entry `logout` writes for the session `u` carries the session's id and
full name, also when one of them is the empty string. -/
theorem makeLog_logout (env : Env) (s : Store) (u : Session)
    (h : s.state.currentUser = some u) :
    (Store.makeLog env s "logout" "usuarios" "Logout realizado" (some u.id)
        (some u.fullName)).userId = some u.id
    ∧ (Store.makeLog env s "logout" "usuarios" "Logout realizado" (some u.id)
        (some u.fullName)).userName = u.fullName := by
  constructor
  · simp only [Store.makeLog, h]
    split <;> rfl
  · simp only [Store.makeLog, h, Option.getD_some]
    split <;> rfl

/-- C12. `logout` leaves `state.currentUser` null (so `isLoggedIn()` is false) and the
persisted session record absent, keeps products, sales, expenses and users, and
touches the log only when a session existed: then `state.logs` is one new entry
with action `logout` and the former session's id and full name, followed by the
previous entries (cut to 1000). -/
theorem logout_effect (env : Env) (s : Store) :
    (Store.logout env s).state.currentUser = none
    ∧ Store.isLoggedIn (Store.logout env s) = false
    ∧ (Store.logout env s).localStorage.currentUser = none
    ∧ (Store.logout env s).state.products = s.state.products
    ∧ (Store.logout env s).state.sales = s.state.sales
    ∧ (Store.logout env s).state.expenses = s.state.expenses
    ∧ (Store.logout env s).state.users = s.state.users
    ∧ (match s.state.currentUser with
        | some u =>
          ∃ e : LogEntry, e.action = "logout" ∧ e.userId = some u.id
            ∧ e.userName = u.fullName
            ∧ (Store.logout env s).state.logs = (e :: s.state.logs).take 1000
        | none => (Store.logout env s).state.logs = s.state.logs) := by
  cases hcu : s.state.currentUser with
  | none =>
    simp only [Store.logout, hcu, Store.isLoggedIn, Option.isSome_none, and_self]
  | some u =>
    refine ⟨rfl, rfl, rfl, ?_, ?_, ?_, ?_, ?_⟩
    · simp only [Store.logout, hcu]; rfl
    · simp only [Store.logout, hcu]; rfl
    · simp only [Store.logout, hcu]; rfl
    · simp only [Store.logout, hcu]; rfl
    · refine ⟨Store.makeLog env s "logout" "usuarios" "Logout realizado" (some u.id)
        (some u.fullName), rfl, (makeLog_logout env s u hcu).1,
        (makeLog_logout env s u hcu).2, ?_⟩
      simp only [Store.logout, hcu]
      exact addLog_logs _ _ _ _ _ _ _

/-! ### Export and import -/

/-- C13. Exporting, clearing all data and importing the export with `merge = false`
gives back the products, sales and expenses collections of the original state. -/
theorem export_clear_import_roundtrip (env1 env2 env3 : Env) (s : Store) :
    (Store.importData env3 (Store.clearAllData env2 s)
        (Store.exportAllData env1 s).toPayload false).state.products = s.state.products
    ∧ (Store.importData env3 (Store.clearAllData env2 s)
        (Store.exportAllData env1 s).toPayload false).state.sales = s.state.sales
    ∧ (Store.importData env3 (Store.clearAllData env2 s)
        (Store.exportAllData env1 s).toPayload false).state.expenses = s.state.expenses :=
  ⟨rfl, rfl, rfl⟩

/-- C14 (as stated, refuted). A payload that carries a `users` field, imported with
`merge = false` into the populated store, does not replace `state.users`: the
three default users stay and the payload's user is not among them. -/
theorem importData_replace_ignores_users :
    usersOnlyPayload.users = some [userNovo]
    ∧ (Store.importData sampleEnv sampleStore usersOnlyPayload false).state.users
        ≠ [userNovo]
    ∧ (Store.importData sampleEnv sampleStore usersOnlyPayload false).state.users
        = sampleStore.state.users
    ∧ (sampleStore.state.users.map (fun u => u.id)) = ["user_1", "user_2", "user_3"] := by
  decide

/-- C14 (amended). After `importData(data, false)`, each of products, sales and
expenses equals the payload's collection when the payload carries it and is
unchanged otherwise; `state.users` is unchanged whether or not the payload carries
users. -/
theorem importData_replace (env : Env) (s : Store) (data : ImportPayload) :
    (Store.importData env s data false).state.products
        = (data.products).getD s.state.products
    ∧ (Store.importData env s data false).state.sales = (data.sales).getD s.state.sales
    ∧ (Store.importData env s data false).state.expenses
        = (data.expenses).getD s.state.expenses
    ∧ (Store.importData env s data false).state.users = s.state.users := by
  refine ⟨?_, ?_, ?_, ?_⟩
  · cases h : data.products <;>
      simp [Store.importData, Store.addLog, Store.saveLogs, Store.saveToStorage, h]
  · cases h : data.sales <;>
      simp [Store.importData, Store.addLog, Store.saveLogs, Store.saveToStorage, h]
  · cases h : data.expenses <;>
      simp [Store.importData, Store.addLog, Store.saveLogs, Store.saveToStorage, h]
  · cases h : data.users <;>
      simp [Store.importData, Store.addLog, Store.saveLogs, Store.saveToStorage, h]

/-- C15. After `importData(data, true)`: each of products, sales and expenses equals
the payload's collection when the payload carries it and the current collection
was empty, and is unchanged otherwise; `state.users` is the previous list followed
by the payload users whose id is the id of no previous user, in payload order. -/
theorem importData_merge (env : Env) (s : Store) (data : ImportPayload) :
    (Store.importData env s data true).state.products
        = (match data.products with
            | some ps => if s.state.products = [] then ps else s.state.products
            | none => s.state.products)
    ∧ (Store.importData env s data true).state.sales
        = (match data.sales with
            | some xs => if s.state.sales = [] then xs else s.state.sales
            | none => s.state.sales)
    ∧ (Store.importData env s data true).state.expenses
        = (match data.expenses with
            | some xs => if s.state.expenses = [] then xs else s.state.expenses
            | none => s.state.expenses)
    ∧ (Store.importData env s data true).state.users
        = s.state.users
          ++ ((data.users).getD []).filter
              (fun u => decide (∀ v ∈ s.state.users, v.id ≠ u.id)) := by
  refine ⟨?_, ?_, ?_, ?_⟩
  · cases h : data.products <;>
      simp [Store.importData, Store.addLog, Store.saveLogs, Store.saveToStorage, h,
        List.length_eq_zero]
  · cases h : data.sales <;>
      simp [Store.importData, Store.addLog, Store.saveLogs, Store.saveToStorage, h,
        List.length_eq_zero]
  · cases h : data.expenses <;>
      simp [Store.importData, Store.addLog, Store.saveLogs, Store.saveToStorage, h,
        List.length_eq_zero]
  · cases h : data.users with
    | none =>
      simp [Store.importData, Store.addLog, Store.saveLogs, Store.saveToStorage, h]
    | some us =>
      simp only [Store.importData, Store.addLog, Store.saveLogs, Store.saveToStorage, h,
        ↓reduceIte, Option.getD_some]
      congr 1
      apply List.filter_congr
      intro u _
      have key : (s.state.users.map (fun u => u.id)).contains u.id = true
          ↔ ∃ v ∈ s.state.users, v.id = u.id := by
        rw [List.contains_iff_exists_mem_beq]
        constructor
        · rintro ⟨a, ha, hb⟩
          obtain ⟨v, hv, rfl⟩ := List.mem_map.mp ha
          exact ⟨v, hv, (beq_iff_eq.mp hb).symm⟩
        · rintro ⟨v, hv, hid⟩
          exact ⟨v.id, List.mem_map_of_mem _ hv, beq_iff_eq.mpr hid.symm⟩
      cases hc : (s.state.users.map (fun u => u.id)).contains u.id with
      | false =>
        symm
        rw [Bool.not_false, decide_eq_true_iff]
        intro v hv hid
        have hcontra := key.mpr ⟨v, hv, hid⟩
        rw [hc] at hcontra
        exact absurd hcontra (by decide)
      | true =>
        symm
        rw [Bool.not_true, decide_eq_false_iff_not]
        intro hall
        obtain ⟨v, hv, hid⟩ := key.mp hc
        exact hall v hv hid

/-- C16. `exportAllData` returns the stored products, sales, expenses, logs and
settings, and the stored users in the same order with only the password replaced
by the placeholder; so two states that differ only in the stored passwords (equal
collections, and equal user lists once the passwords are blanked) export the same
object. -/
theorem exportAllData_redacts (env : Env) (s t : Store)
    (hproducts : s.state.products = t.state.products)
    (hsales : s.state.sales = t.state.sales)
    (hexpenses : s.state.expenses = t.state.expenses)
    (hlogs : s.state.logs = t.state.logs)
    (hsettings : s.state.settings = t.state.settings)
    (husers : s.state.users.map (fun u => { u with password := "" })
      = t.state.users.map (fun u => { u with password := "" })) :
    (Store.exportAllData env s).products = s.state.products
    ∧ (Store.exportAllData env s).sales = s.state.sales
    ∧ (Store.exportAllData env s).expenses = s.state.expenses
    ∧ (Store.exportAllData env s).logs = s.state.logs
    ∧ (Store.exportAllData env s).settings = s.state.settings
    ∧ (Store.exportAllData env s).users.length = s.state.users.length
    ∧ (∀ i : Nat, (Store.exportAllData env s).users[i]?
        = (s.state.users[i]?).map (fun u => { u with password := "***" }))
    ∧ Store.exportAllData env s = Store.exportAllData env t := by
  refine ⟨rfl, rfl, rfl, rfl, rfl, ?_, ?_, ?_⟩
  · simp only [Store.exportAllData, List.length_map]
  · intro i
    simp only [Store.exportAllData, List.getElem?_map]
    rfl
  · have h := congrArg (List.map (fun u : User => { u with password := passwordPlaceholder }))
      husers
    simp only [List.map_map] at h
    simp only [Store.exportAllData, hproducts, hsales, hexpenses, hlogs, hsettings]
    congr 1

/-- C16 on the populated store and the same store with every password changed. -/
theorem exportAllData_redacts_witness :
    sampleStore.state.users ≠ sampleStoreOtherPasswords.state.users
    ∧ (Store.exportAllData sampleEnv sampleStore).products = sampleStore.state.products
    ∧ (Store.exportAllData sampleEnv sampleStore).sales = sampleStore.state.sales
    ∧ (Store.exportAllData sampleEnv sampleStore).expenses = sampleStore.state.expenses
    ∧ (Store.exportAllData sampleEnv sampleStore).logs = sampleStore.state.logs
    ∧ (Store.exportAllData sampleEnv sampleStore).settings = sampleStore.state.settings
    ∧ (Store.exportAllData sampleEnv sampleStore).users.length
        = sampleStore.state.users.length
    ∧ (∀ i : Nat, (Store.exportAllData sampleEnv sampleStore).users[i]?
        = (sampleStore.state.users[i]?).map (fun u => { u with password := "***" }))
    ∧ Store.exportAllData sampleEnv sampleStore
        = Store.exportAllData sampleEnv sampleStoreOtherPasswords :=
  ⟨by decide,
    exportAllData_redacts sampleEnv sampleStore sampleStoreOtherPasswords
      (by decide) (by decide) (by decide) (by decide) (by decide) (by decide)⟩

/-! ### Unknown ids -/

/-- C17. For an id that no entity of the collection concerned carries, the update
commands return `null` and the delete commands return `false`, and the store
(state, audit log and persisted snapshot) is returned as it was. -/
theorem unknown_id_is_noop (env : Env) (s : Store) (id : String)
    (updates : ProductUpdates) (userUpdates : UserUpdates) :
    ((∀ p ∈ s.state.products, p.id ≠ id) →
        Store.updateProduct env s id updates = (s, none)
        ∧ Store.deleteProduct env s id = (s, false))
    ∧ ((∀ x ∈ s.state.sales, x.id ≠ id) → Store.deleteSale env s id = (s, false))
    ∧ ((∀ x ∈ s.state.expenses, x.id ≠ id) → Store.deleteExpense env s id = (s, false))
    ∧ ((∀ u ∈ s.state.users, u.id ≠ id) →
        Store.updateUser env s id userUpdates = (s, none)
        ∧ Store.deleteUser env s id = (s, false)) := by
  refine ⟨?_, ?_, ?_, ?_⟩
  · intro h
    have hnone : s.state.products.findIdx? (fun p => p.id == id) = none := by
      rw [List.findIdx?_eq_none_iff]
      intro p hp
      simpa using h p hp
    simp only [Store.updateProduct, Store.deleteProduct, hnone, and_self]
  · intro h
    have hnone : s.state.sales.findIdx? (fun x => x.id == id) = none := by
      rw [List.findIdx?_eq_none_iff]
      intro x hx
      simpa using h x hx
    simp only [Store.deleteSale, hnone]
  · intro h
    have hnone : s.state.expenses.findIdx? (fun x => x.id == id) = none := by
      rw [List.findIdx?_eq_none_iff]
      intro x hx
      simpa using h x hx
    simp only [Store.deleteExpense, hnone]
  · intro h
    have hnone : s.state.users.findIdx? (fun u => u.id == id) = none := by
      rw [List.findIdx?_eq_none_iff]
      intro u hu
      simpa using h u hu
    simp only [Store.updateUser, Store.deleteUser, hnone, and_self]

/-- C17 on the populated store, for the id `nope`. -/
theorem unknown_id_is_noop_witness :
    ((∀ p ∈ sampleStore.state.products, p.id ≠ "nope")
      ∧ (∀ x ∈ sampleStore.state.sales, x.id ≠ "nope")
      ∧ (∀ x ∈ sampleStore.state.expenses, x.id ≠ "nope")
      ∧ (∀ u ∈ sampleStore.state.users, u.id ≠ "nope"))
    ∧ Store.updateProduct sampleEnv sampleStore "nope" noUpdates = (sampleStore, none)
    ∧ Store.deleteProduct sampleEnv sampleStore "nope" = (sampleStore, false)
    ∧ Store.deleteSale sampleEnv sampleStore "nope" = (sampleStore, false)
    ∧ Store.deleteExpense sampleEnv sampleStore "nope" = (sampleStore, false)
    ∧ Store.updateUser sampleEnv sampleStore "nope" noUserUpdates = (sampleStore, none)
    ∧ Store.deleteUser sampleEnv sampleStore "nope" = (sampleStore, false) :=
  have h := unknown_id_is_noop sampleEnv sampleStore "nope" noUpdates noUserUpdates
  ⟨⟨by decide, by decide, by decide, by decide⟩,
    (h.1 (by decide)).1, (h.1 (by decide)).2, h.2.1 (by decide), h.2.2.1 (by decide),
    (h.2.2.2 (by decide)).1, (h.2.2.2 (by decide)).2⟩

/-! ### Sales are snapshots -/

/-- C18. `updateProduct` and `deleteProduct` leave `state.sales` as it was, whatever
their arguments; and `deleteProduct` either finds no product with the id, returns
`false` and keeps the product list, or returns `true` and removes exactly the
first product carrying the id, the others staying in order. -/
theorem product_commands_keep_sales (env : Env) (s : Store) (id : String)
    (updates : ProductUpdates) :
    (Store.updateProduct env s id updates).1.state.sales = s.state.sales
    ∧ (Store.deleteProduct env s id).1.state.sales = s.state.sales
    ∧ (((Store.deleteProduct env s id).2 = false
          ∧ (Store.deleteProduct env s id).1.state.products = s.state.products
          ∧ ∀ p ∈ s.state.products, p.id ≠ id)
      ∨ ((Store.deleteProduct env s id).2 = true
          ∧ ∃ (i : Nat) (p : Product),
              s.state.products[i]? = some p ∧ p.id = id
              ∧ (∀ (j : Nat) (q : Product), j < i → s.state.products[j]? = some q →
                  q.id ≠ id)
              ∧ (Store.deleteProduct env s id).1.state.products
                  = s.state.products.eraseIdx i)) := by
  cases hidx : s.state.products.findIdx? (fun p => p.id == id) with
  | none =>
    refine ⟨?_, ?_, Or.inl ⟨?_, ?_, ?_⟩⟩
    · simp only [Store.updateProduct, hidx]
    · simp only [Store.deleteProduct, hidx]
    · simp only [Store.deleteProduct, hidx]
    · simp only [Store.deleteProduct, hidx]
    · intro p hp
      have h := List.findIdx?_eq_none_iff.mp hidx p hp
      simpa using h
  | some i =>
    obtain ⟨hi, hp, hbefore⟩ := List.findIdx?_eq_some_iff_getElem.mp hidx
    have hget : s.state.products[i]? = some s.state.products[i] :=
      List.getElem?_eq_getElem hi
    refine ⟨?_, ?_, Or.inr ⟨?_, i, s.state.products[i], hget, ?_, ?_, ?_⟩⟩
    · simp only [Store.updateProduct, hidx, hget]
      rfl
    · simp only [Store.deleteProduct, hidx, hget]
      rfl
    · simp only [Store.deleteProduct, hidx, hget]
    · simpa using hp
    · intro j q hj hq
      have hjl : j < s.state.products.length := Nat.lt_trans hj hi
      have h := hbefore j hj
      rw [List.getElem?_eq_getElem hjl, Option.some.injEq] at hq
      rw [← hq]
      simpa using h
    · simp only [Store.deleteProduct, hidx, hget]
      rfl


/-! ### Financial report: totals -/

theorem foldl_add_map {α : Type} (f : α → ℚ) (xs : List α) (acc : ℚ) :
    xs.foldl (fun sum x => sum + f x) acc = acc + (xs.map f).sum := by
  induction xs generalizing acc with
  | nil => simp
  | cons x xs ih => simp only [List.foldl_cons, ih, List.map_cons, List.sum_cons]; ring

/-- The two successive filters of `filterSalesByDate` select the sales whose date
lies in the inclusive range. -/
theorem filterSalesByDate_eq (s : Store) (startDate endDate : Option String) :
    Store.filterSalesByDate s startDate endDate
      = s.state.sales.filter (fun x => inDateRange startDate endDate x.date) := by
  unfold Store.filterSalesByDate inDateRange
  cases h1 : truthy startDate <;> cases h2 : truthy endDate <;>
    simp [List.filter_filter, Bool.and_comm]

/-- The two successive filters of `filterExpensesByDate` select the expenses whose
date lies in the inclusive range. -/
theorem filterExpensesByDate_eq (s : Store) (startDate endDate : Option String) :
    Store.filterExpensesByDate s startDate endDate
      = s.state.expenses.filter (fun e => inDateRange startDate endDate e.date) := by
  unfold Store.filterExpensesByDate inDateRange
  cases h1 : truthy startDate <;> cases h2 : truthy endDate <;>
    simp [List.filter_filter, Bool.and_comm]

/-- C19. In `getFinancialReport(start, end)`: `totalSales` and `totalCost` are the sums
of `total` and of `cost` over the sales whose date lies in the inclusive range,
`totalExpenses` is the sum of `value` over the expenses in the range,
`grossProfit = totalSales − totalCost`, `netProfit = grossProfit − totalExpenses`, and
`salesCount` / `expensesCount` are the numbers of sales / expenses in the range. -/
theorem financialReport_totals (env : Env) (s : Store) (startDate endDate : Option String) :
    (Store.getFinancialReport env s startDate endDate).totalSales
        = ((s.state.sales.filter (fun x => inDateRange startDate endDate x.date)).map
            (fun x => x.total)).sum
    ∧ (Store.getFinancialReport env s startDate endDate).totalCost
        = ((s.state.sales.filter (fun x => inDateRange startDate endDate x.date)).map
            (fun x => x.cost)).sum
    ∧ (Store.getFinancialReport env s startDate endDate).totalExpenses
        = ((s.state.expenses.filter (fun e => inDateRange startDate endDate e.date)).map
            (fun e => e.value)).sum
    ∧ (Store.getFinancialReport env s startDate endDate).grossProfit
        = (Store.getFinancialReport env s startDate endDate).totalSales
          - (Store.getFinancialReport env s startDate endDate).totalCost
    ∧ (Store.getFinancialReport env s startDate endDate).netProfit
        = (Store.getFinancialReport env s startDate endDate).grossProfit
          - (Store.getFinancialReport env s startDate endDate).totalExpenses
    ∧ (Store.getFinancialReport env s startDate endDate).salesCount
        = (s.state.sales.filter (fun x => inDateRange startDate endDate x.date)).length
    ∧ (Store.getFinancialReport env s startDate endDate).expensesCount
        = (s.state.expenses.filter
            (fun e => inDateRange startDate endDate e.date)).length := by
  refine ⟨?_, ?_, ?_, rfl, rfl, ?_, ?_⟩
  · simp only [Store.getFinancialReport, Store.getTotalSales, Option.getD_some,
      foldl_add_map, zero_add, filterSalesByDate_eq]
  · simp only [Store.getFinancialReport, Store.getTotalCost, Option.getD_some,
      foldl_add_map, zero_add, filterSalesByDate_eq]
  · simp only [Store.getFinancialReport, Store.getTotalExpenses, Option.getD_some,
      foldl_add_map, zero_add, filterExpensesByDate_eq]
  · simp only [Store.getFinancialReport, filterSalesByDate_eq]
  · simp only [Store.getFinancialReport, filterExpensesByDate_eq]

/-! ### Financial report: month buckets -/

theorem objUpdate_keys {β : Type} (o : List (String × β)) (k : String) (f : β → β) :
    (objUpdate o k f).map (fun e => e.1) = o.map (fun e => e.1) := by
  induction o with
  | nil => rfl
  | cons e o ih =>
    unfold objUpdate at ih ⊢
    by_cases h : (e.1 == k) = true
    · simp only [modifyFirst, h, ↓reduceIte, List.map_cons]
    · simp only [modifyFirst, h, Bool.false_eq_true, ↓reduceIte, List.map_cons, ih]

/-- On an object (keys pairwise distinct) the in-place update touches the property
`k` and no other. -/
theorem objUpdate_eq_map {β : Type} (o : List (String × β)) (k : String) (f : β → β)
    (hnodup : (o.map (fun e => e.1)).Nodup) :
    objUpdate o k f = o.map (fun e => if e.1 == k then (e.1, f e.2) else e) := by
  induction o with
  | nil => rfl
  | cons e o ih =>
    rw [List.map_cons, List.nodup_cons] at hnodup
    have ih' := ih hnodup.2
    unfold objUpdate at ih' ⊢
    by_cases h : (e.1 == k) = true
    · simp only [modifyFirst, h, ↓reduceIte, List.map_cons, List.cons.injEq, true_and]
      symm
      conv_rhs => rw [← List.map_id o]
      apply List.map_congr_left
      intro a ha
      have hne : (a.1 == k) = false := by
        rw [beq_eq_false_iff_ne]
        intro hak
        apply hnodup.1
        rw [beq_iff_eq] at h
        rw [h, ← hak]
        exact List.mem_map_of_mem _ ha
      simp only [hne, Bool.false_eq_true, ↓reduceIte, id_eq]
    · simp only [modifyFirst, h, Bool.false_eq_true, ↓reduceIte, List.map_cons, ih']

/-- A loop of in-place updates over an object: every property ends with the
updates of exactly the records filed under its key, applied in order. -/
theorem foldl_objUpdate {α β : Type} (key : α → String) (upd : α → β → β) (xs : List α)
    (o : List (String × β)) (hnodup : (o.map (fun e => e.1)).Nodup) :
    xs.foldl (fun o x => objUpdate o (key x) (upd x)) o
      = o.map (fun e =>
          (e.1, (xs.filter (fun x => e.1 == key x)).foldl (fun b x => upd x b) e.2)) := by
  induction xs generalizing o with
  | nil => simp
  | cons x xs ih =>
    have hkeys : ((objUpdate o (key x) (upd x)).map (fun e => e.1)).Nodup := by
      rw [objUpdate_keys]
      exact hnodup
    rw [List.foldl_cons, ih _ hkeys, objUpdate_eq_map _ _ _ hnodup, List.map_map]
    apply List.map_congr_left
    intro e _
    by_cases h : (e.1 == key x) = true
    · simp only [Function.comp_apply, h, ↓reduceIte, List.filter_cons, List.foldl_cons]
    · simp only [Function.comp_apply, h, Bool.false_eq_true, ↓reduceIte, List.filter_cons]

theorem mem_keys_objSet {β : Type} (o : List (String × β)) (k : String) (v : β) (a : String)
    (h : a ∈ (objSet o k v).map (fun e => e.1)) :
    a ∈ o.map (fun e => e.1) ∨ a = k := by
  induction o with
  | nil =>
    simp only [objSet, List.map_cons, List.map_nil, List.mem_singleton] at h
    exact Or.inr h
  | cons e o ih =>
    obtain ⟨k1, v1⟩ := e
    by_cases hk : (k1 == k) = true
    · simp only [objSet, hk, ↓reduceIte, List.map_cons, List.mem_cons] at h
      exact Or.inl (by simpa using h)
    · simp only [objSet, hk, Bool.false_eq_true, ↓reduceIte, List.map_cons,
        List.mem_cons] at h
      rcases h with h | h
      · exact Or.inl (by simp [h])
      · rcases ih h with h' | h'
        · exact Or.inl (by simp only [List.map_cons, List.mem_cons]; exact Or.inr h')
        · exact Or.inr h'

theorem objSet_nodup {β : Type} (o : List (String × β)) (k : String) (v : β)
    (hnodup : (o.map (fun e => e.1)).Nodup) :
    ((objSet o k v).map (fun e => e.1)).Nodup := by
  induction o with
  | nil => simp [objSet]
  | cons e o ih =>
    obtain ⟨k1, v1⟩ := e
    rw [List.map_cons, List.nodup_cons] at hnodup
    by_cases hk : (k1 == k) = true
    · simp only [objSet, hk, ↓reduceIte, List.map_cons, List.nodup_cons]
      exact hnodup
    · simp only [objSet, hk, Bool.false_eq_true, ↓reduceIte, List.map_cons,
        List.nodup_cons]
      refine ⟨?_, ih hnodup.2⟩
      intro hmem
      rcases mem_keys_objSet o k v k1 hmem with h' | h'
      · exact hnodup.1 h'
      · exact hk (by simp [h'])

theorem objSet_forall {β : Type} (P : β → Prop) (o : List (String × β)) (k : String) (v : β)
    (ho : ∀ e ∈ o, P e.2) (hv : P v) : ∀ e ∈ objSet o k v, P e.2 := by
  induction o with
  | nil =>
    intro e he
    simp only [objSet, List.mem_singleton] at he
    rw [he]
    exact hv
  | cons e0 o ih =>
    obtain ⟨k1, v1⟩ := e0
    intro e he
    by_cases hk : (k1 == k) = true
    · simp only [objSet, hk, ↓reduceIte, List.mem_cons] at he
      rcases he with he | he
      · rw [he]; exact hv
      · exact ho e (List.mem_cons_of_mem _ he)
    · simp only [objSet, hk, Bool.false_eq_true, ↓reduceIte, List.mem_cons] at he
      rcases he with he | he
      · rw [he]; exact ho (k1, v1) (List.mem_cons_self _ _)
      · exact ih (fun e he => ho e (List.mem_cons_of_mem _ he)) e he

/-- The object built by the first loop of `getFinancialReport`: its keys are
pairwise distinct and every bucket starts at zero. -/
theorem initial_buckets (months : List MonthEntry) (o : List (String × MonthBucket))
    (hnodup : (o.map (fun e => e.1)).Nodup)
    (hzero : ∀ e ∈ o, e.2.sales = 0 ∧ e.2.expenses = 0 ∧ e.2.profit = 0) :
    ((months.foldl
        (fun o m => objSet o (monthKey m)
          { label := m.label, sales := 0, expenses := 0, profit := 0 }) o).map
        (fun e => e.1)).Nodup
    ∧ ∀ e ∈ months.foldl
        (fun o m => objSet o (monthKey m)
          { label := m.label, sales := 0, expenses := 0, profit := 0 }) o,
        e.2.sales = 0 ∧ e.2.expenses = 0 ∧ e.2.profit = 0 := by
  induction months generalizing o with
  | nil => exact ⟨hnodup, hzero⟩
  | cons m months ih =>
    rw [List.foldl_cons]
    exact ih _ (objSet_nodup o _ _ hnodup)
      (objSet_forall (fun b => b.sales = 0 ∧ b.expenses = 0 ∧ b.profit = 0) o _ _ hzero
        ⟨rfl, rfl, rfl⟩)

theorem foldl_sales_bucket (xs : List Sale) (b : MonthBucket) :
    xs.foldl
        (fun b sale =>
          { b with
            sales := b.sales + sale.total
            profit := b.profit + (sale.total - sale.cost) }) b
      = { b with
          sales := b.sales + (xs.map (fun x => x.total)).sum
          profit := b.profit + ((xs.map (fun x => x.total)).sum
            - (xs.map (fun x => x.cost)).sum) } := by
  induction xs generalizing b with
  | nil => simp
  | cons x xs ih =>
    rw [List.foldl_cons, ih]
    simp only [List.map_cons, List.sum_cons, MonthBucket.mk.injEq, true_and]
    constructor <;> ring

theorem foldl_expenses_bucket (xs : List Expense) (b : MonthBucket) :
    xs.foldl
        (fun b e => { b with expenses := b.expenses + e.value, profit := b.profit - e.value })
        b
      = { b with
          expenses := b.expenses + (xs.map (fun e => e.value)).sum
          profit := b.profit - (xs.map (fun e => e.value)).sum } := by
  induction xs generalizing b with
  | nil => simp
  | cons x xs ih =>
    rw [List.foldl_cons, ih]
    simp only [List.map_cons, List.sum_cons, MonthBucket.mk.injEq, true_and]
    constructor <;> ring

/-- Every property of the object `salesByMonth`: its bucket holds the sum of the
totals of the in-range sales filed under its key, the sum of the values of the
in-range expenses filed under its key, and as profit the former minus the cost of
those sales minus the latter. -/
theorem salesByMonthObject_entry (env : Env) (s : Store) (startDate endDate : Option String)
    (e : String × MonthBucket)
    (he : e ∈ Store.salesByMonthObject env s startDate endDate) :
    e.2.sales
        = (((Store.filterSalesByDate s startDate endDate).filter
            (fun x => monthOf x.date == e.1)).map (fun x => x.total)).sum
    ∧ e.2.expenses
        = (((Store.filterExpensesByDate s startDate endDate).filter
            (fun x => monthOf x.date == e.1)).map (fun x => x.value)).sum
    ∧ e.2.profit
        = (((Store.filterSalesByDate s startDate endDate).filter
            (fun x => monthOf x.date == e.1)).map (fun x => x.total)).sum
          - (((Store.filterSalesByDate s startDate endDate).filter
            (fun x => monthOf x.date == e.1)).map (fun x => x.cost)).sum
          - (((Store.filterExpensesByDate s startDate endDate).filter
            (fun x => monthOf x.date == e.1)).map (fun x => x.value)).sum := by
  obtain ⟨hnodup, hzero⟩ := initial_buckets (getLastMonths env 12) []
    (by simp) (by simp)
  have h1 := foldl_objUpdate (fun sale : Sale => substring sale.date 0 7)
    (fun sale (b : MonthBucket) =>
      { b with sales := b.sales + sale.total, profit := b.profit + (sale.total - sale.cost) })
    (Store.filterSalesByDate s startDate endDate) _ hnodup
  have hkeys1 : ((List.foldl
      (fun o (x : Sale) => objUpdate o (substring x.date 0 7)
        (fun (b : MonthBucket) =>
          { b with sales := b.sales + x.total, profit := b.profit + (x.total - x.cost) }))
      (List.foldl
        (fun o m => objSet o (monthKey m)
          { label := m.label, sales := 0, expenses := 0, profit := 0 })
        [] (getLastMonths env 12))
      (Store.filterSalesByDate s startDate endDate)).map (fun e => e.1)).Nodup := by
    rw [h1, List.map_map]
    exact hnodup
  have h2 := foldl_objUpdate (fun x : Expense => substring x.date 0 7)
    (fun x (b : MonthBucket) =>
      { b with expenses := b.expenses + x.value, profit := b.profit - x.value })
    (Store.filterExpensesByDate s startDate endDate) _ hkeys1
  have he' : e ∈ List.foldl
      (fun o (x : Expense) => objUpdate o (substring x.date 0 7)
        (fun (b : MonthBucket) =>
          { b with expenses := b.expenses + x.value, profit := b.profit - x.value }))
      (List.foldl
        (fun o (x : Sale) => objUpdate o (substring x.date 0 7)
          (fun (b : MonthBucket) =>
            { b with sales := b.sales + x.total, profit := b.profit + (x.total - x.cost) }))
        (List.foldl
          (fun o m => objSet o (monthKey m)
            { label := m.label, sales := 0, expenses := 0, profit := 0 })
          [] (getLastMonths env 12))
        (Store.filterSalesByDate s startDate endDate))
      (Store.filterExpensesByDate s startDate endDate) := he
  rw [h2, h1, List.map_map] at he'
  obtain ⟨e0, he0, rfl⟩ := List.mem_map.mp he'
  obtain ⟨hs, hx, hp⟩ := hzero e0 he0
  have hfs : ∀ l : List Sale,
      l.filter (fun x => e0.1 == substring x.date 0 7)
        = l.filter (fun x => monthOf x.date == e0.1) := by
    intro l
    apply List.filter_congr
    intro x _
    show (e0.1 == substring x.date 0 7) = (substring x.date 0 7 == e0.1)
    exact BEq.comm
  have hfe : ∀ l : List Expense,
      l.filter (fun x => e0.1 == substring x.date 0 7)
        = l.filter (fun x => monthOf x.date == e0.1) := by
    intro l
    apply List.filter_congr
    intro x _
    show (e0.1 == substring x.date 0 7) = (substring x.date 0 7 == e0.1)
    exact BEq.comm
  simp only [Function.comp_apply, foldl_sales_bucket, foldl_expenses_bucket, hs, hx, hp,
    zero_add, hfs, hfe]
  exact ⟨trivial, trivial, trivial⟩

/-- C20 (as stated, refuted). In the report of the populated store on 2023-11-14 the
bucket of November 2023 has sales 40, expenses 5 and profit 15, which is not
40 − 5. -/
theorem salesByMonth_profit_is_not_sales_minus_expenses :
    ∃ b ∈ (Store.getFinancialReport sampleEnv sampleStore none none).salesByMonth,
      b.sales = 40 ∧ b.expenses = 5 ∧ b.profit = 15 ∧ b.profit ≠ b.sales - b.expenses :=
  ⟨{ label := "Nov/23", sales := 40, expenses := 5, profit := 15 }, by decide!,
    rfl, rfl, rfl, by decide!⟩

/-- C20 (amended). Every month bucket of `getFinancialReport(start, end).salesByMonth`
belongs to a month key; its `sales` is the sum of the totals of the in-range sales
of that month, its `expenses` the sum of the values of the in-range expenses of
that month, and its `profit` equals its sales minus the cost of those sales minus
its expenses. -/
theorem salesByMonth_profit (env : Env) (s : Store) (startDate endDate : Option String)
    (b : MonthBucket)
    (hb : b ∈ (Store.getFinancialReport env s startDate endDate).salesByMonth) :
    ∃ k : String,
      (k, b) ∈ Store.salesByMonthObject env s startDate endDate
      ∧ b.sales
          = (((s.state.sales.filter (fun x => inDateRange startDate endDate x.date)).filter
              (fun x => monthOf x.date == k)).map (fun x => x.total)).sum
      ∧ b.expenses
          = (((s.state.expenses.filter
              (fun x => inDateRange startDate endDate x.date)).filter
              (fun x => monthOf x.date == k)).map (fun x => x.value)).sum
      ∧ b.profit
          = b.sales
            - (((s.state.sales.filter (fun x => inDateRange startDate endDate x.date)).filter
                (fun x => monthOf x.date == k)).map (fun x => x.cost)).sum
            - b.expenses := by
  have hb' : b ∈ (Store.salesByMonthObject env s startDate endDate).map (fun e => e.2) := hb
  obtain ⟨e, he, rfl⟩ := List.mem_map.mp hb'
  obtain ⟨h1, h2, h3⟩ := salesByMonthObject_entry env s startDate endDate e he
  simp only [filterSalesByDate_eq, filterExpensesByDate_eq] at h1 h2 h3
  refine ⟨e.1, he, h1, h2, ?_⟩
  rw [h3, h1, h2]

/-- C20 (amended) on the populated store: the November 2023 bucket. -/
theorem salesByMonth_profit_witness :
    ({ label := "Nov/23", sales := 40, expenses := 5, profit := 15 } : MonthBucket)
        ∈ (Store.getFinancialReport sampleEnv sampleStore none none).salesByMonth
    ∧ ∃ k : String,
        (k, ({ label := "Nov/23", sales := 40, expenses := 5, profit := 15 } : MonthBucket))
          ∈ Store.salesByMonthObject sampleEnv sampleStore none none
        ∧ (40 : ℚ)
          = (((sampleStore.state.sales.filter (fun x => inDateRange none none x.date)).filter
              (fun x => monthOf x.date == k)).map (fun x => x.total)).sum
        ∧ (5 : ℚ)
          = (((sampleStore.state.expenses.filter
              (fun x => inDateRange none none x.date)).filter
              (fun x => monthOf x.date == k)).map (fun x => x.value)).sum
        ∧ (15 : ℚ)
          = 40
            - (((sampleStore.state.sales.filter (fun x => inDateRange none none x.date)).filter
                (fun x => monthOf x.date == k)).map (fun x => x.cost)).sum
            - 5 :=
  ⟨by decide!,
    salesByMonth_profit sampleEnv sampleStore none none
      { label := "Nov/23", sales := 40, expenses := 5, profit := 15 } (by decide!)⟩

/-! ### Margin -/

/-- C29. `calculateMargin(0, price)` is 0 for every price: the guard answers before the
quotient by the cost, which for a zero cost would not be a finite number, is formed.
In particular `calculateMargin(0, 100) = 0`. -/
theorem calculateMargin_zero_cost (price : ℚ) :
    calculateMargin 0 price = some 0
    ∧ jsDivide (price - 0) 0 = none
    ∧ calculateMargin 0 100 = some 0 := by
  refine ⟨?_, ?_, ?_⟩
  · simp [calculateMargin]
  · simp [jsDivide]
  · simp [calculateMargin]

/-! ### Margin: the rounding of doubles -/

theorem binaryLogCore_spec (fuel n : Nat) (hfuel : n ≤ fuel) (hn : n ≠ 0) :
    2 ^ binaryLogCore fuel n ≤ n ∧ n < 2 ^ (binaryLogCore fuel n + 1) := by
  induction fuel generalizing n with
  | zero => omega
  | succ fuel ih =>
    unfold binaryLogCore
    by_cases h2 : n < 2
    · have h1 : n = 1 := by omega
      subst h1
      simp
    · simp only [h2, ↓reduceIte]
      obtain ⟨hlo, hhi⟩ := ih (n / 2) (by omega) (by omega)
      constructor
      · rw [pow_succ]
        omega
      · rw [pow_succ]
        omega

theorem binaryLog_spec (n : Nat) (hn : n ≠ 0) :
    2 ^ binaryLog n ≤ n ∧ n < 2 ^ (binaryLog n + 1) :=
  binaryLogCore_spec n n (le_refl n) hn

theorem twoPow_eq (e : Int) : twoPow e = (2 : ℚ) ^ e := by
  unfold twoPow
  by_cases h : 0 ≤ e
  · rw [if_pos h]
    obtain ⟨k, rfl⟩ := Int.eq_ofNat_of_zero_le h
    simp
  · rw [if_neg h]
    have hneg : 0 ≤ -e := by omega
    obtain ⟨k, hk⟩ := Int.eq_ofNat_of_zero_le hneg
    have he : e = -(k : Int) := by omega
    subst he
    simp

theorem twoPow_pos (e : Int) : 0 < twoPow e := by
  rw [twoPow_eq]
  positivity

theorem twoPow_add (a b : Int) : twoPow (a + b) = twoPow a * twoPow b := by
  rw [twoPow_eq, twoPow_eq, twoPow_eq, zpow_add₀ (by norm_num : (2 : ℚ) ≠ 0)]

theorem twoPow_lt_twoPow (a b : Int) (h : twoPow a < twoPow b) : a < b := by
  rw [twoPow_eq, twoPow_eq] at h
  exact (zpow_lt_zpow_iff_right₀ (by norm_num : (1 : ℚ) < 2)).mp h

theorem twoPow_le_twoPow (a b : Int) (h : a ≤ b) : twoPow a ≤ twoPow b := by
  rw [twoPow_eq, twoPow_eq]
  exact zpow_le_zpow_right₀ (by norm_num : (1 : ℚ) ≤ 2) h

theorem magnitude_eq_abs (x : ℚ) : magnitude x = |x| := by
  unfold magnitude
  by_cases h : x < 0
  · rw [if_pos h, abs_of_neg h]
  · rw [if_neg h, abs_of_nonneg (not_lt.mp h)]

theorem abs_eq_natAbs_div_den (x : ℚ) : |x| = (x.num.natAbs : ℚ) / (x.den : ℚ) := by
  have hden : (0 : ℚ) < x.den := by exact_mod_cast x.den_pos
  conv_lhs => rw [← Rat.num_div_den x]
  rw [abs_div, abs_of_pos hden]
  congr 1
  rw [Nat.cast_natAbs, Int.cast_abs]

/-- The binary exponent brackets the magnitude between two powers of two. -/
theorem binaryExponent_spec (x : ℚ) (hx : x ≠ 0) :
    twoPow (binaryExponent x) ≤ |x| ∧ |x| < twoPow (binaryExponent x + 1) := by
  have hnum : x.num.natAbs ≠ 0 := by
    rw [Ne, Int.natAbs_eq_zero, Rat.num_eq_zero]
    exact hx
  have hden : x.den ≠ 0 := x.den_nz
  obtain ⟨halo, hahi⟩ := binaryLog_spec _ hnum
  obtain ⟨hblo, hbhi⟩ := binaryLog_spec _ hden
  have hdpos : (0 : ℚ) < x.den := by exact_mod_cast x.den_pos
  have habs := abs_eq_natAbs_div_den x
  have halo' : ((2 : ℚ) ^ binaryLog x.num.natAbs) ≤ (x.num.natAbs : ℚ) := by exact_mod_cast halo
  have hahi' : (x.num.natAbs : ℚ) < (2 : ℚ) ^ (binaryLog x.num.natAbs + 1) := by
    exact_mod_cast hahi
  have hblo' : ((2 : ℚ) ^ binaryLog x.den) ≤ (x.den : ℚ) := by exact_mod_cast hblo
  have hbhi' : (x.den : ℚ) < (2 : ℚ) ^ (binaryLog x.den + 1) := by exact_mod_cast hbhi
  have hpa : (0 : ℚ) < 2 ^ binaryLog x.num.natAbs := by positivity
  have hpb : (0 : ℚ) < 2 ^ binaryLog x.den := by positivity
  -- the estimate `e0` is at most one too large
  have hupper : |x| < twoPow ((binaryLog x.num.natAbs : Int) - (binaryLog x.den : Int) + 1) := by
    rw [twoPow_eq, habs, div_lt_iff₀ hdpos]
    have h2 : (2 : ℚ) ^ ((binaryLog x.num.natAbs : Int) - (binaryLog x.den : Int) + 1)
        = 2 ^ (binaryLog x.num.natAbs + 1) / 2 ^ binaryLog x.den := by
      rw [show ((binaryLog x.num.natAbs : Int) - (binaryLog x.den : Int) + 1)
          = ((binaryLog x.num.natAbs + 1 : Nat) : Int) - ((binaryLog x.den : Nat) : Int) by
        push_cast; ring]
      rw [zpow_sub₀ (by norm_num : (2 : ℚ) ≠ 0), zpow_natCast, zpow_natCast]
    rw [h2, div_mul_eq_mul_div, lt_div_iff₀ hpb]
    calc (x.num.natAbs : ℚ) * 2 ^ binaryLog x.den
        < 2 ^ (binaryLog x.num.natAbs + 1) * 2 ^ binaryLog x.den :=
          mul_lt_mul_of_pos_right hahi' hpb
      _ ≤ 2 ^ (binaryLog x.num.natAbs + 1) * (x.den : ℚ) :=
          mul_le_mul_of_nonneg_left hblo' (by positivity)
  have hlower : twoPow ((binaryLog x.num.natAbs : Int) - (binaryLog x.den : Int) - 1) ≤ |x| := by
    rw [twoPow_eq, habs, le_div_iff₀ hdpos]
    have h2 : (2 : ℚ) ^ ((binaryLog x.num.natAbs : Int) - (binaryLog x.den : Int) - 1)
        = 2 ^ binaryLog x.num.natAbs / 2 ^ (binaryLog x.den + 1) := by
      rw [show ((binaryLog x.num.natAbs : Int) - (binaryLog x.den : Int) - 1)
          = ((binaryLog x.num.natAbs : Nat) : Int) - ((binaryLog x.den + 1 : Nat) : Int) by
        push_cast; ring]
      rw [zpow_sub₀ (by norm_num : (2 : ℚ) ≠ 0), zpow_natCast, zpow_natCast]
    have hpb1 : (0 : ℚ) < 2 ^ (binaryLog x.den + 1) := by positivity
    rw [h2, div_mul_eq_mul_div, div_le_iff₀ hpb1]
    calc (2 : ℚ) ^ binaryLog x.num.natAbs * (x.den : ℚ)
        ≤ (x.num.natAbs : ℚ) * (x.den : ℚ) :=
          mul_le_mul_of_nonneg_right halo' (le_of_lt hdpos)
      _ ≤ (x.num.natAbs : ℚ) * 2 ^ (binaryLog x.den + 1) :=
          mul_le_mul_of_nonneg_left (le_of_lt hbhi') (by positivity)
  unfold binaryExponent
  simp only
  rw [magnitude_eq_abs]
  split
  · rename_i h
    exact ⟨h, hupper⟩
  · rename_i h
    refine ⟨hlower, ?_⟩
    rw [sub_add_cancel]
    exact not_le.mp h

theorem roundHalfEven_err (q : ℚ) : |((roundHalfEven q : ℤ) : ℚ) - q| ≤ 1 / 2 := by
  have h1 := Int.floor_le q
  have h2 := Int.lt_floor_add_one q
  unfold roundHalfEven
  simp only
  split
  · rw [abs_le]
    constructor <;> linarith
  · split
    · rw [abs_le]
      push_cast
      constructor <;> linarith
    · rename_i h3 h4
      have h5 : q - ⌊q⌋ = 1 / 2 := le_antisymm (not_lt.mp h4) (not_lt.mp h3)
      split
      · rw [abs_le]
        constructor <;> linarith
      · rw [abs_le]
        push_cast
        constructor <;> linarith

theorem roundHalfEven_nonneg (q : ℚ) (hq : 0 ≤ q) : 0 ≤ roundHalfEven q := by
  have h0 : 0 ≤ ⌊q⌋ := Int.floor_nonneg.mpr hq
  unfold roundHalfEven
  simp only
  split
  · exact h0
  · split
    · omega
    · split
      · exact h0
      · omega

theorem toDouble_zero : toDouble 0 = some 0 := by
  simp [toDouble]

/-- Rounding a number of the normal range to a double: the result is finite and the
relative error is at most `2 ^ (-53)`. -/
theorem toDouble_normal (x : ℚ) (hx : x ≠ 0) (hlo : twoPow (-1022) ≤ |x|)
    (hhi : |x| < twoPow 1023) :
    ∃ y, toDouble x = some y ∧ |y - x| ≤ |x| / 2 ^ 53 := by
  obtain ⟨helo, hehi⟩ := binaryExponent_spec x hx
  have he1 : -1022 ≤ binaryExponent x := by
    have := twoPow_lt_twoPow _ _ (lt_of_le_of_lt hlo hehi)
    omega
  have he2 : binaryExponent x ≤ 1022 := by
    have := twoPow_lt_twoPow _ _ (lt_of_le_of_lt helo hhi)
    omega
  have hmax : max (binaryExponent x) (-1022) = binaryExponent x := max_eq_left he1
  have hulp : 0 < twoPow (binaryExponent x - 52) := twoPow_pos _
  have herr := roundHalfEven_err (|x| / twoPow (binaryExponent x - 52))
  have hsplit : twoPow (binaryExponent x) = twoPow (binaryExponent x - 52) * 2 ^ 52 := by
    have h52 : twoPow 52 = 2 ^ 52 := by
      rw [twoPow_eq]
      norm_num
    have hadd := twoPow_add (binaryExponent x - 52) 52
    rw [sub_add_cancel, h52] at hadd
    exact hadd
  -- the rounded magnitude is within half a unit in the last place
  have hmag : abs (((roundHalfEven (|x| / twoPow (binaryExponent x - 52)) : ℤ) : ℚ)
      * twoPow (binaryExponent x - 52) - abs x) ≤ twoPow (binaryExponent x - 52) / 2 := by
    have h3 : ((roundHalfEven (|x| / twoPow (binaryExponent x - 52)) : ℤ) : ℚ)
        * twoPow (binaryExponent x - 52) - |x|
        = (((roundHalfEven (|x| / twoPow (binaryExponent x - 52)) : ℤ) : ℚ)
            - |x| / twoPow (binaryExponent x - 52)) * twoPow (binaryExponent x - 52) := by
      field_simp
    rw [h3, abs_mul, abs_of_pos hulp]
    calc _ ≤ 1 / 2 * twoPow (binaryExponent x - 52) :=
          mul_le_mul_of_nonneg_right herr (le_of_lt hulp)
      _ = twoPow (binaryExponent x - 52) / 2 := by ring
  have hhalf : twoPow (binaryExponent x - 52) / 2 ≤ |x| / 2 ^ 53 := by
    have h4 : twoPow (binaryExponent x - 52) / 2 = twoPow (binaryExponent x) / 2 ^ 53 := by
      rw [hsplit]
      field_simp
      ring
    rw [h4]
    exact div_le_div_of_nonneg_right helo (by positivity)
  have hbig : ((roundHalfEven (|x| / twoPow (binaryExponent x - 52)) : ℤ) : ℚ)
      * twoPow (binaryExponent x - 52) < twoPow 1024 := by
    have h5 := (abs_le.mp hmag).2
    have h6 : twoPow (binaryExponent x - 52) ≤ twoPow 1023 :=
      twoPow_le_twoPow _ _ (by omega)
    have h7 : twoPow 1024 = twoPow 1023 * 2 := by
      rw [twoPow_eq, twoPow_eq]
      norm_num
    rw [h7]
    have h8 := twoPow_pos 1023
    linarith
  refine ⟨if x < 0 then
      -(((roundHalfEven (|x| / twoPow (binaryExponent x - 52)) : ℤ) : ℚ)
          * twoPow (binaryExponent x - 52))
    else ((roundHalfEven (|x| / twoPow (binaryExponent x - 52)) : ℤ) : ℚ)
          * twoPow (binaryExponent x - 52), ?_, ?_⟩
  · simp only [toDouble, hx, ↓reduceIte, hmax, magnitude_eq_abs, not_le.mpr hbig]
  · by_cases hneg : x < 0
    · rw [if_pos hneg]
      have h9 : |x| = -x := abs_of_neg hneg
      rw [h9] at hmag ⊢
      rw [show -(((roundHalfEven (-x / twoPow (binaryExponent x - 52)) : ℤ) : ℚ)
          * twoPow (binaryExponent x - 52)) - x
        = -(((roundHalfEven (-x / twoPow (binaryExponent x - 52)) : ℤ) : ℚ)
          * twoPow (binaryExponent x - 52) - -x) by ring, abs_neg]
      rw [h9] at hhalf
      exact le_trans hmag hhalf
    · rw [if_neg hneg]
      have h9 : |x| = x := abs_of_nonneg (not_lt.mp hneg)
      rw [h9] at hmag hhalf ⊢
      exact le_trans hmag hhalf

theorem twoPow_neg_1022 : twoPow (-1022) = 1 / 2 ^ 1022 := by
  unfold twoPow
  rw [if_neg (by omega)]
  have h : (-(-1022 : Int)).toNat = 1022 := by decide
  rw [h]
  simp only [Nat.cast_pow, Nat.cast_ofNat]

theorem twoPow_1023 : twoPow 1023 = 2 ^ 1023 := by
  unfold twoPow
  rw [if_pos (by omega)]
  have h : (1023 : Int).toNat = 1023 := by decide
  rw [h]
  simp only [Nat.cast_pow, Nat.cast_ofNat]

theorem mathRound_zero : mathRound 0 = 0 := by
  unfold mathRound
  rw [Int.floor_eq_iff]
  norm_num

/-- A relative perturbation of at most one half keeps a product within a factor 2. -/
theorem perturb_bounds (A a k α : ℚ) (hα1 : α ≤ 1 / 2) (ha : |a - A| ≤ |A| * α) :
    |A * k| / 2 ≤ |a * k| ∧ |a * k| ≤ |A * k| * 2 ∧ |a * k - A * k| ≤ |A * k| * α := by
  have hk : 0 ≤ |k| := abs_nonneg k
  have hA : 0 ≤ |A * k| := abs_nonneg _
  have hdiff : |a * k - A * k| ≤ |A * k| * α := by
    rw [← sub_mul, abs_mul, abs_mul]
    calc |a - A| * |k| ≤ |A| * α * |k| := mul_le_mul_of_nonneg_right ha hk
      _ = |A| * |k| * α := by ring
  have hhalf : |A * k| * α ≤ |A * k| / 2 := by
    have := mul_le_mul_of_nonneg_left hα1 hA
    linarith
  have h1 := abs_sub_abs_le_abs_sub (A * k) (a * k)
  have h2 := abs_sub_abs_le_abs_sub (a * k) (A * k)
  rw [abs_sub_comm] at h1
  refine ⟨by linarith, by linarith, hdiff⟩

/-- One rounded operation in the normal range: the relative error `α` of the operand
grows to `α + u + α u`, with `u = 2 ^ (-53)`. -/
theorem rounding_step (A a k α : ℚ) (hα1 : α ≤ 1 / 2)
    (ha : |a - A| ≤ |A| * α)
    (hlo : 1 / 2 ^ 1021 ≤ |A * k|) (hhi : |A * k| < 2 ^ 1022) :
    ∃ b, toDouble (a * k) = some b
      ∧ |b - A * k| ≤ |A * k| * (α + 1 / 2 ^ 53 + α / 2 ^ 53) := by
  obtain ⟨h1, h2, h3⟩ := perturb_bounds A a k α hα1 ha
  have hlo' : twoPow (-1022) ≤ |a * k| := by
    rw [twoPow_neg_1022]
    have hsucc : (2 : ℚ) ^ 1022 = 2 ^ 1021 * 2 := by rw [← pow_succ]
    have : (1 : ℚ) / 2 ^ 1022 = 1 / 2 ^ 1021 / 2 := by
      rw [hsucc, div_div]
    rw [this]
    linarith
  have hhi' : |a * k| < twoPow 1023 := by
    rw [twoPow_1023]
    have : (2 : ℚ) ^ 1023 = 2 ^ 1022 * 2 := by rw [← pow_succ]
    rw [this]
    linarith
  have hne : a * k ≠ 0 := by
    intro h0
    rw [h0, abs_zero] at hlo'
    exact absurd hlo' (not_le.mpr (twoPow_pos _))
  obtain ⟨b, hb, herr⟩ := toDouble_normal (a * k) hne hlo' hhi'
  refine ⟨b, hb, ?_⟩
  have hA : 0 ≤ |A * k| := abs_nonneg _
  have htri : |b - A * k| ≤ |b - a * k| + |a * k - A * k| := by
    have := abs_add (b - a * k) (a * k - A * k)
    rwa [sub_add_sub_cancel] at this
  have h4 : |a * k| ≤ |A * k| * (1 + α) := by
    have := abs_sub_abs_le_abs_sub (a * k) (A * k)
    linarith
  have h5 : |a * k| / 2 ^ 53 ≤ |A * k| * (1 + α) / 2 ^ 53 :=
    div_le_div_of_nonneg_right h4 (by positivity)
  calc |b - A * k| ≤ |b - a * k| + |a * k - A * k| := htri
    _ ≤ |A * k| * (1 + α) / 2 ^ 53 + |A * k| * α := by linarith
    _ = |A * k| * (α + 1 / 2 ^ 53 + α / 2 ^ 53) := by ring

theorem mathRound_err (t : ℚ) : |((mathRound t : ℤ) : ℚ) - t| ≤ 1 / 2 := by
  have h1 := Int.floor_le (t + 1 / 2)
  have h2 := Int.lt_floor_add_one (t + 1 / 2)
  unfold mathRound
  rw [abs_le]
  constructor <;> linarith

/-- The accuracy of `calculateMargin` for quantities of ordinary size: the result is
finite and differs from the exact margin by at most 0.05 and a relative error of
`2 ^ (-49)`. -/
theorem calculateMargin_accuracy (cost price : ℚ) (hcost : cost ≠ 0) (hprice : price ≠ 0)
    (hsize : price = cost
      ∨ (1 / 2 ^ 1022 ≤ |price - cost| ∧ |price - cost| < 2 ^ 1023
          ∧ 1 / 2 ^ 1000 ≤ |(price - cost) / cost| ∧ |(price - cost) / cost| ≤ 2 ^ 1000)) :
    ∃ r, calculateMargin cost price = some r
      ∧ |r - (price - cost) / cost * 100|
          ≤ 1 / 20 + (|(price - cost) / cost * 100| + 1) / 2 ^ 49 := by
  rcases hsize with heq | ⟨hD1, hD2, hQ1, hQ2⟩
  · subst heq
    refine ⟨0, ?_, ?_⟩
    · simp [calculateMargin, tenfoldMargin, jsSubtract, jsDivide, jsMultiply, mathRound_zero,
        toDouble_zero, hcost]
    · simp only [sub_self, zero_div, zero_mul, abs_zero, zero_add]
      positivity
  · -- the difference
    have hDne : price - cost ≠ 0 := by
      intro h0
      rw [h0, abs_zero] at hD1
      exact absurd hD1 (not_le.mpr (by positivity))
    have hP : (1 : ℚ) ≤ 2 ^ 1000 := one_le_pow₀ (by norm_num)
    have hPlo : (1 : ℚ) / 2 ^ 1021 ≤ 1 / 2 ^ 1000 :=
      one_div_le_one_div_of_le (by positivity)
        (pow_le_pow_right₀ (by norm_num) (by norm_num))
    have hP22 : (2 : ℚ) ^ 1022 = 2 ^ 1000 * 2 ^ 22 := by rw [← pow_add]
    have hP23 : (2 : ℚ) ^ 1023 = 2 ^ 1000 * 2 ^ 23 := by rw [← pow_add]
    have hQabs : 0 ≤ |(price - cost) / cost| := abs_nonneg _
    obtain ⟨d, hd, hderr⟩ := toDouble_normal (price - cost) hDne
      (by rw [twoPow_neg_1022]; exact hD1) (by rw [twoPow_1023]; exact hD2)
    have hd' : |d - (price - cost)| ≤ |price - cost| * (1 / 2 ^ 53) := by
      rw [mul_one_div]
      exact hderr
    -- the quotient
    have hQ : (price - cost) * cost⁻¹ = (price - cost) / cost := (div_eq_mul_inv _ _).symm
    obtain ⟨q, hq, hqerr⟩ := rounding_step (price - cost) d cost⁻¹ (1 / 2 ^ 53)
      (by norm_num) hd'
      (by rw [hQ]; exact le_trans hPlo hQ1)
      (by
        rw [hQ, hP22]
        have : (2 : ℚ) ^ 1000 * 1 < 2 ^ 1000 * 2 ^ 22 :=
          mul_lt_mul_of_pos_left (by norm_num) (by positivity)
        linarith)
    rw [hQ] at hqerr
    have hq' : |q - (price - cost) / cost| ≤ |(price - cost) / cost| * (3 / 2 ^ 53) := by
      refine le_trans hqerr (mul_le_mul_of_nonneg_left ?_ (abs_nonneg _))
      norm_num
    -- times 100
    have h100 : |(price - cost) / cost * 100| = |(price - cost) / cost| * 100 := by
      rw [abs_mul]
      norm_num
    obtain ⟨m, hm, hmerr⟩ := rounding_step ((price - cost) / cost) q 100 (3 / 2 ^ 53)
      (by norm_num) hq'
      (by
        rw [h100]
        linarith)
      (by
        rw [h100, hP22]
        have : (2 : ℚ) ^ 1000 * 100 < 2 ^ 1000 * 2 ^ 22 :=
          mul_lt_mul_of_pos_left (by norm_num) (by positivity)
        linarith)
    have hm' : |m - (price - cost) / cost * 100|
        ≤ |(price - cost) / cost * 100| * (5 / 2 ^ 53) := by
      refine le_trans hmerr (mul_le_mul_of_nonneg_left ?_ (abs_nonneg _))
      norm_num
    -- times 10
    have h1000 : |(price - cost) / cost * 100 * 10| = |(price - cost) / cost| * 1000 := by
      rw [abs_mul, abs_mul]
      norm_num
      ring
    obtain ⟨t, ht, hterr⟩ := rounding_step ((price - cost) / cost * 100) m 10 (5 / 2 ^ 53)
      (by norm_num) hm'
      (by
        rw [h1000]
        linarith)
      (by
        rw [h1000, hP22]
        have : (2 : ℚ) ^ 1000 * 1000 < 2 ^ 1000 * 2 ^ 22 :=
          mul_lt_mul_of_pos_left (by norm_num) (by positivity)
        linarith)
    have ht' : |t - (price - cost) / cost * 100 * 10|
        ≤ |(price - cost) / cost * 100| * 10 * (7 / 2 ^ 53) := by
      have h10 : |(price - cost) / cost * 100 * 10| = |(price - cost) / cost * 100| * 10 := by
        rw [abs_mul]
        norm_num
      rw [h10] at hterr
      have hnn : 0 ≤ |(price - cost) / cost * 100| * 10 :=
        mul_nonneg (abs_nonneg _) (by norm_num)
      have hα : (5 : ℚ) / 2 ^ 53 + 1 / 2 ^ 53 + 5 / 2 ^ 53 / 2 ^ 53 ≤ 7 / 2 ^ 53 := by norm_num
      exact le_trans hterr (mul_le_mul_of_nonneg_left hα hnn)
    have htenfold : tenfoldMargin cost price = some t := by
      simp only [tenfoldMargin, jsSubtract, hd, Option.some_bind, jsDivide, hcost, ↓reduceIte,
        div_eq_mul_inv, hq, jsMultiply, hm, ht]
    -- the rounding to an integer and the division by 10
    have hn := mathRound_err t
    have hMabs : 0 ≤ |(price - cost) / cost * 100| := abs_nonneg _
    have htabs : |t| ≤ |(price - cost) / cost * 100| * 10 * (1 + 7 / 2 ^ 53) := by
      have h10 : |(price - cost) / cost * 100 * 10| = |(price - cost) / cost * 100| * 10 := by
        rw [abs_mul]
        norm_num
      have := abs_sub_abs_le_abs_sub t ((price - cost) / cost * 100 * 10)
      rw [h10] at this
      linarith
    have hnabs : |((mathRound t : ℤ) : ℚ)| ≤ |t| + 1 / 2 := by
      have := abs_sub_abs_le_abs_sub ((mathRound t : ℤ) : ℚ) t
      linarith
    have hcalc : calculateMargin cost price = toDouble (((mathRound t : ℤ) : ℚ) / 10) := by
      have hg : ¬ (cost = 0 ∨ cost = 0 ∨ price = 0) := by
        simp [hcost, hprice]
      simp only [calculateMargin, hg, ↓reduceIte, htenfold, Option.some_bind, jsDivide]
      norm_num
    have hMQ : |(price - cost) / cost * 100| ≤ 2 ^ 1000 * 100 := by
      rw [h100]
      linarith
    obtain ⟨r, hr, hrerr⟩ : ∃ r, toDouble (((mathRound t : ℤ) : ℚ) / 10) = some r
        ∧ |r - ((mathRound t : ℤ) : ℚ) / 10| ≤ |((mathRound t : ℤ) : ℚ) / 10| / 2 ^ 53 := by
      by_cases hn0 : mathRound t = 0
      · refine ⟨0, ?_, ?_⟩
        · rw [hn0]
          simp [toDouble_zero]
        · rw [hn0]
          simp
      · have hge : (1 : ℚ) ≤ |((mathRound t : ℤ) : ℚ)| := by
          rw [← Int.cast_abs]
          exact_mod_cast Int.one_le_abs hn0
        have hdiv : |((mathRound t : ℤ) : ℚ) / 10| = |((mathRound t : ℤ) : ℚ)| / 10 := by
          rw [abs_div]
          norm_num
        apply toDouble_normal
        · intro h0
          rw [h0, abs_zero] at hdiv
          linarith
        · rw [twoPow_neg_1022, hdiv]
          have h16 : (1 : ℚ) / 2 ^ 1022 ≤ 1 / 2 ^ 4 :=
            one_div_le_one_div_of_le (by positivity)
              (pow_le_pow_right₀ (by norm_num) (by norm_num))
          have : (1 : ℚ) / 2 ^ 4 ≤ 1 / 10 := by norm_num
          linarith
        · rw [twoPow_1023, hdiv]
          have h3 : (2 : ℚ) ^ 1000 * 100 * 10 * (1 + 7 / 2 ^ 53) + 1 / 2 < 2 ^ 1023 * 10 := by
            rw [hP23]
            have hε : (2 : ℚ) ^ 1000 * 100 * 10 * (1 + 7 / 2 ^ 53) ≤ 2 ^ 1000 * 2000 := by
              have : (2 : ℚ) ^ 1000 * 100 * 10 * (1 + 7 / 2 ^ 53)
                  = 2 ^ 1000 * (1000 * (1 + 7 / 2 ^ 53)) := by ring
              rw [this]
              exact mul_le_mul_of_nonneg_left (by norm_num) (by positivity)
            have h23 : (2 : ℚ) ^ 1000 * 2 ^ 23 * 10 = 2 ^ 1000 * 83886080 := by norm_num
            rw [h23]
            linarith
          have h4 : |(price - cost) / cost * 100| * 10 * (1 + 7 / 2 ^ 53)
              ≤ 2 ^ 1000 * 100 * 10 * (1 + 7 / 2 ^ 53) := by
            apply mul_le_mul_of_nonneg_right _ (by positivity)
            linarith
          rw [div_lt_iff₀ (by norm_num : (0 : ℚ) < 10)]
          linarith
    refine ⟨r, by rw [hcalc, hr], ?_⟩
    -- the three errors add up
    have hdiv : |((mathRound t : ℤ) : ℚ) / 10| = |((mathRound t : ℤ) : ℚ)| / 10 := by
      rw [abs_div]
      norm_num
    rw [hdiv] at hrerr
    have e1 : |((mathRound t : ℤ) : ℚ) / 10 - t / 10| ≤ 1 / 20 := by
      rw [← sub_div, abs_div]
      norm_num
      linarith
    have e2 : |t / 10 - (price - cost) / cost * 100|
        ≤ |(price - cost) / cost * 100| * (7 / 2 ^ 53) := by
      have h5 : t / 10 - (price - cost) / cost * 100
          = (t - (price - cost) / cost * 100 * 10) / 10 := by ring
      rw [h5, abs_div]
      norm_num
      linarith
    have htri : |r - (price - cost) / cost * 100|
        ≤ |r - ((mathRound t : ℤ) : ℚ) / 10| + |((mathRound t : ℤ) : ℚ) / 10 - t / 10|
          + |t / 10 - (price - cost) / cost * 100| := by
      have h6 := abs_add (r - ((mathRound t : ℤ) : ℚ) / 10)
        (((mathRound t : ℤ) : ℚ) / 10 - t / 10)
      have h7 := abs_add (r - ((mathRound t : ℤ) : ℚ) / 10
        + (((mathRound t : ℤ) : ℚ) / 10 - t / 10)) (t / 10 - (price - cost) / cost * 100)
      have h8 : r - ((mathRound t : ℤ) : ℚ) / 10 + (((mathRound t : ℤ) : ℚ) / 10 - t / 10)
          + (t / 10 - (price - cost) / cost * 100) = r - (price - cost) / cost * 100 := by
        ring
      rw [h8] at h7
      linarith
    have e3 : |((mathRound t : ℤ) : ℚ)| / 10 / 2 ^ 53
        ≤ (|(price - cost) / cost * 100| * (1 + 7 / 2 ^ 53) + 1 / 20) / 2 ^ 53 := by
      apply div_le_div_of_nonneg_right _ (by positivity)
      linarith
    have hfinal : (|(price - cost) / cost * 100| * (1 + 7 / 2 ^ 53) + 1 / 20) / 2 ^ 53
        + 1 / 20 + |(price - cost) / cost * 100| * (7 / 2 ^ 53)
        ≤ 1 / 20 + (|(price - cost) / cost * 100| + 1) / 2 ^ 49 := by
      have h9 : (0 : ℚ) ≤ |(price - cost) / cost * 100| := abs_nonneg _
      have h10 : ((1 : ℚ) + 7 / 2 ^ 53) / 2 ^ 53 + 7 / 2 ^ 53 ≤ 1 / 2 ^ 49 := by norm_num
      have h11 : (1 : ℚ) / 20 / 2 ^ 53 ≤ 1 / 2 ^ 49 := by norm_num
      have h12 := mul_le_mul_of_nonneg_left h10 h9
      have h13 : (|(price - cost) / cost * 100| * (1 + 7 / 2 ^ 53) + 1 / 20) / 2 ^ 53
          + 1 / 20 + |(price - cost) / cost * 100| * (7 / 2 ^ 53)
          = |(price - cost) / cost * 100| * ((1 + 7 / 2 ^ 53) / 2 ^ 53 + 7 / 2 ^ 53)
            + 1 / 20 / 2 ^ 53 + 1 / 20 := by ring
      have h14 : 1 / 20 + (|(price - cost) / cost * 100| + 1) / 2 ^ 49
          = |(price - cost) / cost * 100| * (1 / 2 ^ 49) + 1 / 2 ^ 49 + 1 / 20 := by ring
      rw [h13, h14]
      linarith
    linarith

/-- C30 (as stated, refuted). With cost 16 and price 15 the margin is −6.25, a tie on
the first decimal, and every step is exact in doubles: `calculateMargin` gives −6.2
where rounding away from zero gives −6.3.  With cost 50 and price 0 it gives 0 where
the formula gives −100.  With cost 80 and price 103 the exact margin is 28.75, which
rounds to 28.8, but the double arithmetic yields 287.49999999999994 for ten times
the margin and `calculateMargin` gives 28.7. -/
theorem calculateMargin_not_half_away_from_zero :
    calculateMargin 16 15 = toDouble (-62 / 10)
    ∧ ((roundHalfAwayFromZero ((((15 : ℚ) - 16) / 16 * 100) * 10) : ℤ) : ℚ) / 10 = -63 / 10
    ∧ toDouble (-62 / 10) ≠ toDouble (-63 / 10)
    ∧ calculateMargin 50 0 = some 0
    ∧ ((roundHalfAwayFromZero ((((0 : ℚ) - 50) / 50 * 100) * 10) : ℤ) : ℚ) / 10 = -100
    ∧ tenfoldMargin 80 103 = some (5057753487769599 / 17592186044416)
    ∧ calculateMargin 80 103 = toDouble (287 / 10)
    ∧ ((roundHalfAwayFromZero ((((103 : ℚ) - 80) / 80 * 100) * 10) : ℤ) : ℚ) / 10 = 288 / 10
    ∧ toDouble (287 / 10) ≠ toDouble (288 / 10) := by
  decide!

/-- C30 (amended). For a cost other than 0: with price 0 the result is 0.  With any
other price, when `x`, the value of `((price − cost) / cost) × 100 × 10` computed in
doubles, is finite, the result is the double of `n / 10` for the integer `n` nearest
to `x`, a tie going to the larger one; when `x` is not finite neither is the
result.  For quantities of ordinary size the result is finite and differs from the
exact margin `m = ((price − cost) / cost) × 100` by at most
`0.05 + (|m| + 1) × 2 ^ (-49)`. -/
theorem calculateMargin_rounds (cost price : ℚ) (hcost : cost ≠ 0) :
    calculateMargin cost 0 = some 0
    ∧ (price ≠ 0 →
        (∀ x : ℚ, tenfoldMargin cost price = some x →
          ∃ n : ℤ,
            calculateMargin cost price = toDouble ((n : ℚ) / 10)
            ∧ x - 1 / 2 < (n : ℚ) ∧ (n : ℚ) ≤ x + 1 / 2)
        ∧ (tenfoldMargin cost price = none → calculateMargin cost price = none)
        ∧ ((price = cost
            ∨ (1 / 2 ^ 1022 ≤ |price - cost| ∧ |price - cost| < 2 ^ 1023
                ∧ 1 / 2 ^ 1000 ≤ |(price - cost) / cost|
                ∧ |(price - cost) / cost| ≤ 2 ^ 1000)) →
          ∃ r : ℚ, calculateMargin cost price = some r
            ∧ |r - (price - cost) / cost * 100|
                ≤ 1 / 20 + (|(price - cost) / cost * 100| + 1) / 2 ^ 49)) := by
  refine ⟨by simp [calculateMargin], ?_⟩
  intro hprice
  have hg : ¬ (cost = 0 ∨ cost = 0 ∨ price = 0) := by
    simp [hcost, hprice]
  refine ⟨?_, ?_, calculateMargin_accuracy cost price hcost hprice⟩
  · intro x hx
    refine ⟨mathRound x, ?_, ?_, ?_⟩
    · simp only [calculateMargin, hg, ↓reduceIte, hx, Option.some_bind, jsDivide]
      norm_num
    · have h := Int.lt_floor_add_one (x + 1 / 2)
      unfold mathRound
      linarith
    · exact Int.floor_le _
  · intro hx
    simp only [calculateMargin, hg, ↓reduceIte, hx, Option.none_bind]

/-- C30 (amended) at cost 50 and price 75: the result is 50.0, which is within the
stated distance of the exact margin 50; at cost 50 and price 0 the result is 0. -/
theorem calculateMargin_rounds_witness :
    (50 : ℚ) ≠ 0
    ∧ calculateMargin 50 75 = some 50
    ∧ calculateMargin 50 0 = some 0
    ∧ (∃ r : ℚ, calculateMargin 50 75 = some r
        ∧ |r - ((75 : ℚ) - 50) / 50 * 100|
            ≤ 1 / 20 + (|((75 : ℚ) - 50) / 50 * 100| + 1) / 2 ^ 49) :=
  ⟨by decide!, by decide!, (calculateMargin_rounds 50 75 (by decide!)).1,
    ((calculateMargin_rounds 50 75 (by decide!)).2 (by decide!)).2.2
      (Or.inr ⟨by norm_num [abs_of_pos], by
          rw [show ((75 : ℚ) - 50) = 25 by norm_num, abs_of_pos (by norm_num : (0 : ℚ) < 25)]
          exact lt_of_lt_of_le (by norm_num : (25 : ℚ) < 2 ^ 5)
            (pow_le_pow_right₀ (by norm_num) (by norm_num)),
        by
          rw [show ((75 : ℚ) - 50) / 50 = 1 / 2 by norm_num,
            abs_of_pos (by norm_num : (0 : ℚ) < 1 / 2)]
          exact one_div_le_one_div_of_le (by norm_num)
            (le_trans (by norm_num : (2 : ℚ) ≤ 2 ^ 1)
              (pow_le_pow_right₀ (by norm_num) (by norm_num))),
        by
          rw [show ((75 : ℚ) - 50) / 50 = 1 / 2 by norm_num,
            abs_of_pos (by norm_num : (0 : ℚ) < 1 / 2)]
          exact le_trans (by norm_num : (1 : ℚ) / 2 ≤ 1) (one_le_pow₀ (by norm_num))⟩)⟩

/-! ### Stock report -/

theorem foldl_add_map_int {α : Type} (f : α → Int) (xs : List α) (acc : Int) :
    xs.foldl (fun sum x => sum + f x) acc = acc + (xs.map f).sum := by
  induction xs generalizing acc with
  | nil => simp
  | cons x xs ih => simp only [List.foldl_cons, ih, List.map_cons, List.sum_cons]; ring

/-- C22. `getStockReport()` returns `totalProducts` = number of products,
`totalItems` = Σ stock, `totalValue` = Σ cost × stock, `totalRetailValue` =
Σ price × stock, `potentialProfit = totalRetailValue − totalValue`, the products with
stock below `settings.lowStockThreshold` and those with stock 0, and `lowStock` /
`outOfStock` are the lengths of these two lists.  The function reads the state and
returns the report only, so the state is as before. -/
theorem getStockReport_totals (s : Store) :
    (Store.getStockReport s).totalProducts = s.state.products.length
    ∧ (Store.getStockReport s).totalItems = (s.state.products.map (fun p => p.stock)).sum
    ∧ (Store.getStockReport s).totalValue
        = (s.state.products.map (fun p => p.cost * (p.stock : ℚ))).sum
    ∧ (Store.getStockReport s).totalRetailValue
        = (s.state.products.map (fun p => p.price * (p.stock : ℚ))).sum
    ∧ (Store.getStockReport s).potentialProfit
        = (Store.getStockReport s).totalRetailValue - (Store.getStockReport s).totalValue
    ∧ (Store.getStockReport s).lowStockProducts
        = s.state.products.filter
            (fun p => decide (p.stock < s.state.settings.lowStockThreshold))
    ∧ (Store.getStockReport s).outOfStockProducts
        = s.state.products.filter (fun p => decide (p.stock = 0))
    ∧ (Store.getStockReport s).lowStock = (Store.getStockReport s).lowStockProducts.length
    ∧ (Store.getStockReport s).outOfStock
        = (Store.getStockReport s).outOfStockProducts.length := by
  refine ⟨rfl, ?_, ?_, ?_, rfl, rfl, ?_, rfl, rfl⟩
  · simp only [Store.getStockReport, foldl_add_map_int, zero_add]
  · simp only [Store.getStockReport, foldl_add_map, zero_add]
  · simp only [Store.getStockReport, foldl_add_map, zero_add]
  · simp only [Store.getStockReport]
    apply List.filter_congr
    intro p _
    rfl

/-- C23 (as stated, refuted). With `settings.lowStockThreshold` equal to 0 the product
with stock 0 is out of stock but not in `lowStockProducts`: `outOfStock` is 1 and
`lowStock` is 0. -/
theorem stock_zero_not_low_under_zero_threshold :
    zeroThresholdStore.state.settings.lowStockThreshold = 0
    ∧ productZero ∈ zeroThresholdStore.state.products
    ∧ productZero.stock = 0
    ∧ productZero ∈ (Store.getStockReport zeroThresholdStore).outOfStockProducts
    ∧ productZero ∉ (Store.getStockReport zeroThresholdStore).lowStockProducts
    ∧ (Store.getStockReport zeroThresholdStore).outOfStock = 1
    ∧ (Store.getStockReport zeroThresholdStore).lowStock = 0 := by
  decide

/-- C23 (amended). When `settings.lowStockThreshold` is positive, each product with
stock 0 is both in `lowStockProducts` and in `outOfStockProducts`, and
`outOfStock ≤ lowStock`. -/
theorem stock_zero_counted_twice (s : Store)
    (hthreshold : 0 < s.state.settings.lowStockThreshold) :
    (∀ p ∈ s.state.products, p.stock = 0 →
        p ∈ (Store.getStockReport s).lowStockProducts
        ∧ p ∈ (Store.getStockReport s).outOfStockProducts)
    ∧ (Store.getStockReport s).outOfStock ≤ (Store.getStockReport s).lowStock := by
  constructor
  · intro p hp hzero
    constructor
    · show p ∈ s.state.products.filter
        (fun p => decide (p.stock < s.state.settings.lowStockThreshold))
      rw [List.mem_filter]
      exact ⟨hp, by simpa [hzero] using hthreshold⟩
    · show p ∈ s.state.products.filter (fun p => p.stock == 0)
      rw [List.mem_filter]
      exact ⟨hp, by simp [hzero]⟩
  · show (s.state.products.filter (fun p => p.stock == 0)).length
      ≤ (s.state.products.filter
          (fun p => decide (p.stock < s.state.settings.lowStockThreshold))).length
    apply List.Sublist.length_le
    apply List.monotone_filter_right
    intro p hp
    have h0 : p.stock = 0 := by simpa using hp
    simpa [h0] using hthreshold

/-- C23 (amended) on the stock scenario: stock 0 and stock 5 under threshold 10 give
`lowStock = 2` and `outOfStock = 1`. -/
theorem stock_zero_counted_twice_witness :
    (0 < stockScenarioStore.state.settings.lowStockThreshold)
    ∧ ((∀ p ∈ stockScenarioStore.state.products, p.stock = 0 →
          p ∈ (Store.getStockReport stockScenarioStore).lowStockProducts
          ∧ p ∈ (Store.getStockReport stockScenarioStore).outOfStockProducts)
      ∧ (Store.getStockReport stockScenarioStore).outOfStock
          ≤ (Store.getStockReport stockScenarioStore).lowStock)
    ∧ (Store.getStockReport stockScenarioStore).lowStock = 2
    ∧ (Store.getStockReport stockScenarioStore).outOfStock = 1 :=
  ⟨by decide, stock_zero_counted_twice stockScenarioStore (by decide), by decide, by decide⟩

/-! ### Date filters -/

/-- C26. `filterSalesByDate(start, end)` is the sub-list, in collection order, of the
sales whose date satisfies (start omitted or date ≥ start) and (end omitted or
date ≤ end); with both bounds omitted it is `state.sales` itself; and
`filterExpensesByDate` is the same over `state.expenses`. -/
theorem filterByDate_is_inclusive_range (s : Store) (startDate endDate : Option String) :
    Store.filterSalesByDate s startDate endDate
        = s.state.sales.filter (fun x =>
            (!truthy startDate || strLe (startDate.getD "") x.date)
              && (!truthy endDate || strLe x.date (endDate.getD "")))
    ∧ Store.filterSalesByDate s none none = s.state.sales
    ∧ Store.filterExpensesByDate s startDate endDate
        = s.state.expenses.filter (fun x =>
            (!truthy startDate || strLe (startDate.getD "") x.date)
              && (!truthy endDate || strLe x.date (endDate.getD "")))
    ∧ Store.filterExpensesByDate s none none = s.state.expenses :=
  ⟨filterSalesByDate_eq s startDate endDate, rfl, filterExpensesByDate_eq s startDate endDate,
    rfl⟩

/-! ### The entry written by `addLog` -/

/-- C28. The entry created by `addLog` carries the given action, module and details
and becomes the head of `state.logs`; its `userId` / `userName` are the explicit
arguments when these are given (non-empty), otherwise the current session's id /
full name when a user is logged in, otherwise `null` / `Sistema`. -/
theorem addLog_entry_fields (env : Env) (s : Store) (action module details : String)
    (userId userName : Option String) :
    (Store.addLog env s action module details userId userName).2.action = action
    ∧ (Store.addLog env s action module details userId userName).2.module = module
    ∧ (Store.addLog env s action module details userId userName).2.details = details
    ∧ (Store.addLog env s action module details userId userName).1.state.logs.head?
        = some (Store.addLog env s action module details userId userName).2
    ∧ (∀ v : String, userId = some v → v ≠ "" →
        (Store.addLog env s action module details userId userName).2.userId = some v)
    ∧ (∀ v : String, userName = some v → v ≠ "" →
        (Store.addLog env s action module details userId userName).2.userName = v)
    ∧ ((userId = none ∨ userId = some "") →
        (∀ u : Session, s.state.currentUser = some u →
          (Store.addLog env s action module details userId userName).2.userId = some u.id)
        ∧ (s.state.currentUser = none →
          (Store.addLog env s action module details userId userName).2.userId = none))
    ∧ ((userName = none ∨ userName = some "") →
        (∀ u : Session, s.state.currentUser = some u →
          (Store.addLog env s action module details userId userName).2.userName
            = u.fullName)
        ∧ (s.state.currentUser = none →
          (Store.addLog env s action module details userId userName).2.userName
            = "Sistema")) := by
  refine ⟨rfl, rfl, rfl, ?_, ?_, ?_, ?_, ?_⟩
  · rw [addLog_logs]
    rfl
  · intro v hv hne
    simp [Store.addLog, Store.makeLog, truthy, hv, hne]
  · intro v hv hne
    simp [Store.addLog, Store.makeLog, truthy, hv, hne]
  · intro h
    have ht : truthy userId = false := by
      rcases h with h | h <;> simp [truthy, h]
    constructor
    · intro u hu
      simp [Store.addLog, Store.makeLog, ht, hu]
    · intro hu
      simp [Store.addLog, Store.makeLog, ht, hu]
  · intro h
    have ht : truthy userName = false := by
      rcases h with h | h <;> simp [truthy, h]
    constructor
    · intro u hu
      simp [Store.addLog, Store.makeLog, ht, hu]
    · intro hu
      simp [Store.addLog, Store.makeLog, ht, hu]

/-- C28 on the logged-in default installation: an explicit user is recorded as
given, and without one the administrator's session is recorded. -/
theorem addLog_entry_fields_witness :
    (Store.addLog sampleEnv loggedInStore "create" "produtos" "x" (some "user_9")
        (some "Bia")).2.userId = some "user_9"
    ∧ (Store.addLog sampleEnv loggedInStore "create" "produtos" "x" (some "user_9")
        (some "Bia")).2.userName = "Bia"
    ∧ (Store.addLog sampleEnv loggedInStore "create" "produtos" "x" none none).2.userId
        = some "user_1"
    ∧ (Store.addLog sampleEnv loggedInStore "create" "produtos" "x" none none).2.userName
        = "Administrador do Sistema"
    ∧ (Store.addLog sampleEnv emptyStore "create" "produtos" "x" none none).2.userId = none
    ∧ (Store.addLog sampleEnv emptyStore "create" "produtos" "x" none none).2.userName
        = "Sistema" :=
  ⟨(addLog_entry_fields sampleEnv loggedInStore "create" "produtos" "x" (some "user_9")
      (some "Bia")).2.2.2.2.1 "user_9" rfl (by decide),
    (addLog_entry_fields sampleEnv loggedInStore "create" "produtos" "x" (some "user_9")
      (some "Bia")).2.2.2.2.2.1 "Bia" rfl (by decide),
    by decide, by decide, by decide, by decide⟩

/-! ### The months of the reports -/

/-- C21 (the defect). On 31 March 2023 `getLastMonths(3)` returns January, March,
March: February is skipped and March comes twice, because `setMonth` carries day 31
of February into March.  The financial report of that day has 7 buckets, not 12. -/
theorem getLastMonths_repeats_a_month_on_day_31 :
    (getLastMonths envMarch31 3).map (fun m => (m.month, m.year))
      = [(0, 2023), (2, 2023), (2, 2023)]
    ∧ (Store.getFinancialReport envMarch31 sampleStore none none).salesByMonth.length = 7
    ∧ (Store.getFinancialReport envMarch31 sampleStore none none).salesByMonth.map
        (fun b => b.label)
      = ["Mai/22", "Jul/22", "Ago/22", "Out/22", "Dez/22", "Jan/23", "Mar/23"] := by
  decide

theorem daysInMonth_ge_28 (y : Int) (m : Nat) : 28 ≤ daysInMonth y m := by
  unfold daysInMonth
  split
  · split <;> omega
  all_goals omega

/-- What `getLastMonths` does guarantee: up to day 28 of the month, the `n` entries
are the `n` consecutive calendar months ending with the current one, oldest first
(the month number `year × 12 + month` goes down by one per offset). -/
theorem getLastMonths_consecutive (env : Env) (n : Nat) (hday : env.day ≤ 28) :
    (getLastMonths env n).map (fun m => m.year * 12 + (m.month : Int))
      = (List.range n).reverse.map
          (fun i : Nat => env.year * 12 + (env.month : Int) - (i : Int))
    ∧ ∀ m ∈ getLastMonths env n, m.month < 12 := by
  have hset : ∀ i : Nat,
      setMonth env.year env.day ((env.month : Int) - i)
        = ((env.year * 12 + ((env.month : Int) - i)) / 12,
            ((env.year * 12 + ((env.month : Int) - i)) % 12).toNat) := by
    intro i
    unfold setMonth
    have h28 := daysInMonth_ge_28 ((env.year * 12 + ((env.month : Int) - i)) / 12)
      ((env.year * 12 + ((env.month : Int) - i)) % 12).toNat
    simp only
    rw [if_pos (by omega)]
  constructor
  · simp only [getLastMonths, List.map_map]
    apply List.map_congr_left
    intro i _
    simp only [Function.comp_apply, monthEntry, hset]
    omega
  · intro m hm
    simp only [getLastMonths, List.mem_map] at hm
    obtain ⟨i, _, rfl⟩ := hm
    simp only [monthEntry, hset]
    omega

/-! ### Searches -/

theorem includes_iff (s sub : String) : includes s sub = true ↔ sub.data <:+: s.data := by
  unfold includes
  rw [List.any_eq_true, List.infix_iff_prefix_suffix]
  constructor
  · rintro ⟨t, ht, hp⟩
    exact ⟨t, List.isPrefixOf_iff_prefix.mp hp, (List.mem_tails t s.data).mp ht⟩
  · rintro ⟨t, hp, ht⟩
    exact ⟨t, (List.mem_tails t s.data).mpr ht, List.isPrefixOf_iff_prefix.mpr hp⟩

theorem includes_eq_decide (s sub : String) :
    includes (toLowerCase s) (toLowerCase sub) = decide (containsIgnoringCase s sub) := by
  rw [Bool.eq_iff_iff, decide_eq_true_iff, includes_iff]
  rfl

/-- C25. For a non-empty query `q`, `searchProducts(q)` is the sub-list, in collection
order, of the products whose name, code or category contains `q` ignoring letter
case; `searchSales(q)` likewise over client and id and `searchExpenses(q)` over
description and category; for an empty or absent query each returns its whole
collection. -/
theorem search_is_containment_ignoring_case (s : Store) (q : String) (hq : q ≠ "") :
    Store.searchProducts s (some q)
        = s.state.products.filter (fun p =>
            decide (containsIgnoringCase p.name q ∨ containsIgnoringCase p.code q
              ∨ containsIgnoringCase p.category q))
    ∧ Store.searchSales s (some q)
        = s.state.sales.filter (fun x =>
            decide (containsIgnoringCase x.client q ∨ containsIgnoringCase x.id q))
    ∧ Store.searchExpenses s (some q)
        = s.state.expenses.filter (fun e =>
            decide (containsIgnoringCase e.description q
              ∨ containsIgnoringCase e.category q))
    ∧ Store.searchProducts s none = s.state.products
    ∧ Store.searchProducts s (some "") = s.state.products
    ∧ Store.searchSales s none = s.state.sales
    ∧ Store.searchSales s (some "") = s.state.sales
    ∧ Store.searchExpenses s none = s.state.expenses
    ∧ Store.searchExpenses s (some "") = s.state.expenses := by
  have ht : truthy (some q) = true := by simp [truthy, hq]
  refine ⟨?_, ?_, ?_, rfl, rfl, rfl, rfl, rfl, rfl⟩
  · simp only [Store.searchProducts, ht, Bool.not_true, Bool.false_eq_true, ↓reduceIte,
      Option.getD_some, includes_eq_decide]
    apply List.filter_congr
    intro p _
    simp only [Bool.decide_or]
    rw [Bool.or_assoc]
  · simp only [Store.searchSales, ht, Bool.not_true, Bool.false_eq_true, ↓reduceIte,
      Option.getD_some, includes_eq_decide]
    apply List.filter_congr
    intro p _
    simp only [Bool.decide_or]
  · simp only [Store.searchExpenses, ht, Bool.not_true, Bool.false_eq_true, ↓reduceIte,
      Option.getD_some, includes_eq_decide]
    apply List.filter_congr
    intro p _
    simp only [Bool.decide_or]

/-- C25 on the populated store: the query `a1` finds the product with code `A1`, and
the query `zzz` finds nothing. -/
theorem search_is_containment_ignoring_case_witness :
    "a1" ≠ ""
    ∧ Store.searchProducts sampleStore (some "a1") = [productA1]
    ∧ Store.searchProducts sampleStore (some "zzz") = []
    ∧ Store.searchProducts sampleStore (some "a1")
        = sampleStore.state.products.filter (fun p =>
            decide (containsIgnoringCase p.name "a1" ∨ containsIgnoringCase p.code "a1"
              ∨ containsIgnoringCase p.category "a1")) :=
  ⟨by decide, by decide, by decide,
    (search_is_containment_ignoring_case sampleStore "a1" (by decide)).1⟩

/-! ### Log filter -/

theorem ite_filter {α : Type} (c : Bool) (p : α → Bool) (l : List α) :
    (if c = true then l.filter p else l) = l.filter (fun x => !c || p x) := by
  cases c <;> simp

theorem truthy_eq_false_iff (x : Option String) : truthy x = false ↔ absent x := by
  unfold absent
  cases x with
  | none => simp [truthy]
  | some v => simp [truthy]

theorem truthy_eq_true_iff (x : Option String) : truthy x = true ↔ ¬ absent x := by
  rw [← truthy_eq_false_iff]
  cases truthy x <;> simp

theorem equalityFilter_iff (a : Option String) (x : String) :
    ((!(truthy a && a != some "all") || x == a.getD "") = true)
      ↔ (absent a ∨ a = some "all" ∨ a = some x) := by
  unfold absent
  cases a with
  | none => simp [truthy]
  | some v =>
    by_cases h1 : v = ""
    · simp [truthy, h1]
    · by_cases h2 : v = "all"
      · simp [truthy, h2]
      · have ht : truthy (some v) = true := by simp [truthy, h1]
        have hb : ((some v : Option String) != some "all") = true := by simp [h2]
        rw [ht, hb]
        simp only [Bool.and_self, Bool.not_true, Bool.false_or, Option.getD_some,
          beq_iff_eq]
        constructor
        · intro h
          exact Or.inr (Or.inr (by rw [h]))
        · rintro (h | h | h)
          · rcases h with h | h
            · exact absurd h (by simp)
            · exact absurd (Option.some.inj h) h1
          · exact absurd (Option.some.inj h) h2
          · exact (Option.some.inj h).symm

theorem dateFilter_iff (d : Option String) (ts : String) :
    ((!truthy d || startsWith ts (d.getD "")) = true)
      ↔ (absent d ∨ (d.getD "").data <+: ts.data) := by
  rw [Bool.or_eq_true, Bool.not_eq_true', truthy_eq_false_iff]
  unfold startsWith
  rw [List.isPrefixOf_iff_prefix]

theorem userFilter_iff (u : Option String) (x : Option String) :
    ((!truthy u || x == u) = true) ↔ (absent u ∨ x = u) := by
  rw [Bool.or_eq_true, Bool.not_eq_true', truthy_eq_false_iff, beq_iff_eq]

theorem searchFilter_iff (q : Option String) (a b c : String) :
    ((!truthy q
        || (includes (toLowerCase a) (toLowerCase (q.getD ""))
            || includes (toLowerCase b) (toLowerCase (q.getD ""))
            || includes (toLowerCase c) (toLowerCase (q.getD "")))) = true)
      ↔ (absent q ∨ containsIgnoringCase a (q.getD "") ∨ containsIgnoringCase b (q.getD "")
          ∨ containsIgnoringCase c (q.getD "")) := by
  simp only [Bool.or_eq_true, Bool.not_eq_true', truthy_eq_false_iff, includes_eq_decide,
    decide_eq_true_iff, or_assoc]

/-- C27. `filterLogs(filters)` is the sub-list, in log order, of the entries that
satisfy every filter that is present (action equal, module equal, timestamp
starting with the date prefix, userId equal, search text contained ignoring case
in details, module or userName), an absent filter and the value `all` of action or
module restricting nothing; so `filterLogs({})` is the whole log.  The function
returns a list only: `state.logs` is as before. -/
theorem filterLogs_is_conjunction (s : Store) (f : LogFilters) :
    Store.filterLogs s f = s.state.logs.filter (fun l => decide (satisfiesLogFilters f l))
    ∧ Store.filterLogs s noLogFilters = s.state.logs := by
  refine ⟨?_, by simp [Store.filterLogs, noLogFilters, truthy]⟩
  simp only [Store.filterLogs, ite_filter]
  simp only [List.filter_filter]
  apply List.filter_congr
  intro l _
  rw [Bool.eq_iff_iff, decide_eq_true_iff]
  unfold satisfiesLogFilters
  simp only [Bool.and_eq_true]
  rw [equalityFilter_iff, equalityFilter_iff, dateFilter_iff, userFilter_iff,
    searchFilter_iff]
  constructor
  · rintro ⟨h5, h4, h3, h2, h1⟩
    exact ⟨h1, h2, h3, h4, h5⟩
  · rintro ⟨h1, h2, h3, h4, h5⟩
    exact ⟨h5, h4, h3, h2, h1⟩

/-! ### Best-selling products: the aggregation -/

theorem objGet_objSet {β : Type} (o : List (String × β)) (k k' : String) (v : β) :
    objGet (objSet o k v) k' = if k' = k then some v else objGet o k' := by
  induction o with
  | nil =>
    by_cases h : k' = k
    · simp [objSet, objGet, h]
    · have h' : ¬ k = k' := fun e => h e.symm
      simp [objSet, objGet, h, h']
  | cons e o ih =>
    obtain ⟨k1, v1⟩ := e
    unfold objGet at ih ⊢
    by_cases hk : k1 = k
    · subst hk
      by_cases h : k' = k1
      · subst h
        simp [objSet]
      · have h' : ¬ k1 = k' := fun e => h e.symm
        simp [objSet, h, h']
    · have hk' : (k1 == k) = false := by simpa using hk
      by_cases h1 : k1 = k'
      · subst h1
        simp [objSet, hk', hk]
      · have h1' : (k1 == k') = false := by simpa using h1
        simp only [objSet, hk', Bool.false_eq_true, ↓reduceIte, List.find?_cons, h1', ih]

theorem objGet_objUpdate {β : Type} (o : List (String × β)) (k k' : String) (f : β → β) :
    objGet (objUpdate o k f) k' = if k' = k then (objGet o k).map f else objGet o k' := by
  induction o with
  | nil => simp [objUpdate, modifyFirst, objGet]
  | cons e o ih =>
    obtain ⟨k1, v1⟩ := e
    unfold objGet objUpdate at ih ⊢
    by_cases hk : k1 = k
    · subst hk
      by_cases h : k' = k1
      · subst h
        simp [modifyFirst]
      · have h' : ¬ k1 = k' := fun e => h e.symm
        simp [modifyFirst, h, h']
    · have hk' : (k1 == k) = false := by simpa using hk
      by_cases h1 : k1 = k'
      · subst h1
        have hne : ¬ k1 = k := hk
        simp [modifyFirst, hk', hne]
      · have h1' : (k1 == k') = false := by simpa using h1
        simp only [modifyFirst, hk', Bool.false_eq_true, ↓reduceIte, List.find?_cons, h1', ih]

theorem objGet_eq_none_iff {β : Type} (o : List (String × β)) (k : String) :
    objGet o k = none ↔ k ∉ o.map (fun e => e.1) := by
  unfold objGet
  rw [Option.map_eq_none', List.find?_eq_none]
  simp only [beq_iff_eq, List.mem_map, not_exists, not_and]

theorem objSet_keys {β : Type} (o : List (String × β)) (k : String) (v : β) :
    (objSet o k v).map (fun e => e.1)
      = if k ∈ o.map (fun e => e.1) then o.map (fun e => e.1)
        else o.map (fun e => e.1) ++ [k] := by
  induction o with
  | nil => simp [objSet]
  | cons e o ih =>
    obtain ⟨k1, v1⟩ := e
    by_cases hk : k1 = k
    · subst hk
      simp [objSet]
    · have hk' : (k1 == k) = false := by simpa using hk
      have hne : ¬ k = k1 := fun e => hk e.symm
      simp only [objSet, hk', Bool.false_eq_true, ↓reduceIte, List.map_cons, ih,
        List.mem_cons, hne, false_or]
      split <;> simp

/-- The keys after one line: a product id not seen before is appended. -/
theorem recordOwnLine_keys (o : List (String × ProductSales)) (item : SaleItem) :
    (recordOwnLine o item).map (fun e => e.1)
      = if item.productId ∈ o.map (fun e => e.1) then o.map (fun e => e.1)
        else o.map (fun e => e.1) ++ [item.productId] := by
  unfold recordOwnLine
  simp only [objUpdate_keys]
  cases h : objGet o item.productId with
  | none =>
    have hmem := (objGet_eq_none_iff o item.productId).mp h
    simp only [objSet_keys, hmem, ↓reduceIte]
  | some d =>
    have hmem : item.productId ∈ o.map (fun e => e.1) := by
      by_contra hcon
      rw [(objGet_eq_none_iff o item.productId).mpr hcon] at h
      exact absurd h (by simp)
    simp only [hmem, ↓reduceIte]

/-- The values after one line: the entry of the line's product id is created if
needed and receives the line's quantity and total; no other entry changes. -/
theorem recordOwnLine_get (o : List (String × ProductSales)) (item : SaleItem) (k : String) :
    objGet (recordOwnLine o item) k
      = if k = item.productId then
          some
            { name := ((objGet o k).map (fun d => d.name)).getD item.name
              quantity := ((objGet o k).map (fun d => d.quantity)).getD 0 + item.quantity
              revenue := ((objGet o k).map (fun d => d.revenue)).getD 0 + item.total }
        else objGet o k := by
  unfold recordOwnLine
  rw [objGet_objUpdate]
  by_cases hk : k = item.productId
  · subst hk
    simp only [↓reduceIte]
    cases h : objGet o item.productId with
    | none => simp [objGet_objSet]
    | some d => simp [h]
  · simp only [hk, ↓reduceIte]
    cases h : objGet o item.productId with
    | none => simp [objGet_objSet, hk]
    | some d => rfl

theorem firstOccurrences_nodup (l : List String) : (firstOccurrences l).Nodup := by
  induction l with
  | nil => simp [firstOccurrences]
  | cons x xs ih =>
    simp only [firstOccurrences, List.nodup_cons, List.mem_filter, bne_self_eq_false,
      Bool.false_eq_true, and_false, not_false_eq_true, true_and]
    exact ih.filter _

/-- The keys of `productSales`: behind the keys already there, the new product ids
in the order of their first occurrence. -/
theorem foldl_recordOwnLine_keys (lines : List SaleItem) (o : List (String × ProductSales)) :
    (lines.foldl recordOwnLine o).map (fun e => e.1)
      = o.map (fun e => e.1)
        ++ (firstOccurrences (lines.map (fun i => i.productId))).filter
            (fun k => !((o.map (fun e => e.1)).contains k)) := by
  induction lines generalizing o with
  | nil => simp [firstOccurrences]
  | cons it rest ih =>
    rw [List.foldl_cons, ih, recordOwnLine_keys]
    simp only [List.map_cons, firstOccurrences]
    generalize o.map (fun e => e.1) = keys
    by_cases hmem : it.productId ∈ keys
    · have hc : keys.contains it.productId = true := by simpa using hmem
      simp only [hmem, ↓reduceIte, List.filter_cons, hc, Bool.not_true, Bool.false_eq_true,
        List.filter_filter]
      congr 1
      apply List.filter_congr
      intro y _
      by_cases hy : y = it.productId
      · subst hy
        simp [hmem]
      · simp [hy]
    · have hc : keys.contains it.productId = false := by simpa using hmem
      simp only [hmem, ↓reduceIte, List.filter_cons, hc, Bool.not_false, List.filter_filter,
        List.append_assoc, List.singleton_append]
      congr 2
      apply List.filter_congr
      intro y _
      by_cases hy : y = it.productId
      · subst hy
        simp
      · have hy' : ¬ it.productId = y := fun e => hy e.symm
        by_cases hyk : y ∈ keys
        · simp [hy, hyk]
        · simp [hy, hyk]

theorem revenueSum_cons (it : SaleItem) (items : List SaleItem) (id : String) :
    revenueSum (it :: items) id
      = (if it.productId == id then it.total else 0) + revenueSum items id := by
  unfold revenueSum
  by_cases h : it.productId == id <;> simp [List.filter_cons, h]

/-- The values of `productSales`: an entry already there receives the quantities and
totals of the lines of its product id; a new entry starts from the name of the
first such line and holds their sums. -/
theorem foldl_recordOwnLine_get (lines : List SaleItem) (o : List (String × ProductSales))
    (k : String) :
    objGet (lines.foldl recordOwnLine o) k
      = match objGet o k with
        | some d =>
          some
            { name := d.name
              quantity := d.quantity + lineSum (fun i => i.quantity) lines k
              revenue := d.revenue + revenueSum lines k }
        | none =>
          (lines.find? (fun i => i.productId == k)).map (fun i =>
            { name := i.name
              quantity := lineSum (fun i => i.quantity) lines k
              revenue := revenueSum lines k }) := by
  induction lines generalizing o with
  | nil =>
    cases h : objGet o k with
    | none => simp [h]
    | some d => simp [h, lineSum_nil, revenueSum]
  | cons it rest ih =>
    rw [List.foldl_cons, ih, recordOwnLine_get, lineSum_cons, revenueSum_cons]
    by_cases hk : k = it.productId
    · subst hk
      cases h : objGet o it.productId with
      | none =>
        simp only [↓reduceIte, Option.map_none', Option.getD_none, zero_add,
          beq_self_eq_true, List.find?_cons, Option.map_some', h]
      | some d =>
        simp only [↓reduceIte, Option.map_some', Option.getD_some, beq_self_eq_true, h,
          Option.some.injEq, ProductSales.mk.injEq, true_and]
        constructor <;> ring
    · have hk' : (it.productId == k) = false := by
        rw [beq_eq_false_iff_ne]
        exact fun e => hk e.symm
      simp only [hk, ↓reduceIte, hk', Bool.false_eq_true, zero_add, List.find?_cons]

theorem objGet_of_mem {β : Type} (o : List (String × β)) (e : String × β)
    (hnodup : (o.map (fun e => e.1)).Nodup) (he : e ∈ o) : objGet o e.1 = some e.2 := by
  induction o with
  | nil => simp at he
  | cons e0 o ih =>
    rw [List.map_cons, List.nodup_cons] at hnodup
    unfold objGet at ih ⊢
    rcases List.mem_cons.mp he with h | h
    · subst h
      simp
    · have hne : (e0.1 == e.1) = false := by
        rw [beq_eq_false_iff_ne]
        intro heq
        apply hnodup.1
        rw [heq]
        exact List.mem_map_of_mem _ h
      simp only [List.find?_cons, hne]
      exact ih hnodup.2 h

/-! ### Best-selling products: the order -/

theorem filter_orderedInsert (q : Int) (a : TopProduct) (l : List TopProduct) :
    (l.orderedInsert (fun a b => b.quantity ≤ a.quantity) a).filter
        (fun e => e.quantity == q)
      = (a :: l).filter (fun e => e.quantity == q) := by
  induction l with
  | nil => rfl
  | cons b l ih =>
    simp only [List.orderedInsert]
    split
    · rfl
    · rename_i hlt
      have hlt' : a.quantity < b.quantity := by omega
      by_cases ha : a.quantity = q
      · have hb : (b.quantity == q) = false := by
          rw [beq_eq_false_iff_ne]
          omega
        have ha' : (a.quantity == q) = true := by simpa using ha
        simp only [List.filter_cons, hb, Bool.false_eq_true, ↓reduceIte, ih, ha']
      · have ha' : (a.quantity == q) = false := by simpa using ha
        simp only [List.filter_cons, ih, ha', Bool.false_eq_true, ↓reduceIte]

/-- Sorting by non-increasing quantity keeps, for every quantity, the entries having
it in the order they had: the sort is stable and loses or invents nothing. -/
theorem filter_sortByQuantityDesc (q : Int) (l : List TopProduct) :
    (sortByQuantityDesc l).filter (fun e => e.quantity == q)
      = l.filter (fun e => e.quantity == q) := by
  unfold sortByQuantityDesc
  induction l with
  | nil => rfl
  | cons a l ih =>
    simp only [List.insertionSort]
    rw [filter_orderedInsert, List.filter_cons, List.filter_cons, ih]

theorem sorted_sortByQuantityDesc (l : List TopProduct) :
    (sortByQuantityDesc l).Sorted (fun a b => b.quantity ≤ a.quantity) := by
  haveI : IsTotal TopProduct (fun a b => b.quantity ≤ a.quantity) :=
    ⟨fun a b => le_total b.quantity a.quantity⟩
  haveI : IsTrans TopProduct (fun a b => b.quantity ≤ a.quantity) :=
    ⟨fun _ _ _ hab hbc => le_trans hbc hab⟩
  exact List.sorted_insertionSort _ l

theorem foldl_recordLine_eq (lines : List SaleItem) (o : List (String × ProductSales)) :
    lines.foldl recordLine o
      = (lines.filter (fun i => !objectPrototypeNames.contains i.productId)).foldl
          recordOwnLine o := by
  induction lines generalizing o with
  | nil => rfl
  | cons it rest ih =>
    rw [List.foldl_cons, ih]
    unfold recordLine
    by_cases h : objectPrototypeNames.contains it.productId = true
    · simp only [h, ↓reduceIte, List.filter_cons, Bool.not_true, Bool.false_eq_true]
    · have h' : objectPrototypeNames.contains it.productId = false := by simpa using h
      simp only [h', Bool.false_eq_true, ↓reduceIte, List.filter_cons, Bool.not_false,
        List.foldl_cons]

theorem productSales_eq_foldl (s : Store) :
    Store.productSales s = (Store.ownLines s).foldl recordOwnLine [] := by
  have h : ∀ (sales : List Sale) (o : List (String × ProductSales)),
      sales.foldl (fun o sale => sale.items.foldl recordLine o) o
        = (sales.flatMap (fun sale => sale.items)).foldl recordLine o := by
    intro sales
    induction sales with
    | nil => intro o; rfl
    | cons x xs ih =>
      intro o
      rw [List.foldl_cons, ih, List.flatMap_cons, List.foldl_append]
  unfold Store.productSales Store.ownLines Store.allLines
  rw [h, foldl_recordLine_eq]

theorem productSales_keys (s : Store) :
    (Store.productSales s).map (fun e => e.1)
      = firstOccurrences ((Store.ownLines s).map (fun i => i.productId)) := by
  rw [productSales_eq_foldl, foldl_recordOwnLine_keys]
  simp

/-! ### Best-selling products: the enumeration of the entries -/

theorem objEntries_perm {β : Type} (o : List (String × β)) : (objEntries o).Perm o := by
  unfold objEntries
  exact ((List.perm_insertionSort _ _).append_right _).trans (List.filter_append_perm _ o)

theorem filter_map_fst {β : Type} (p : String → Bool) (o : List (String × β)) :
    (o.filter (fun e => p e.1)).map (fun e => e.1) = (o.map (fun e => e.1)).filter p := by
  induction o with
  | nil => rfl
  | cons e o ih =>
    by_cases h : p e.1 = true
    · simp [List.filter_cons, h, ih]
    · simp [List.filter_cons, h, ih]

theorem filter_eq_self_of_forall {α : Type} (p : α → Bool) (l : List α)
    (h : ∀ x ∈ l, p x = true) : l.filter p = l :=
  List.filter_eq_self.mpr h

theorem filter_eq_nil_of_forall {α : Type} (p : α → Bool) (l : List α)
    (h : ∀ x ∈ l, p x = false) : l.filter p = [] := by
  rw [List.filter_eq_nil_iff]
  intro x hx
  simp [h x hx]

/-- The keys `Object.entries` lists: the array indices, ascending, then the other
keys in creation order. -/
theorem objEntries_keys {β : Type} (o : List (String × β)) :
    ((objEntries o).map (fun e => e.1)).filter isArrayIndex
        = ((o.filter (fun e => isArrayIndex e.1)).insertionSort
            (fun a b => decimalValue a.1 ≤ decimalValue b.1)).map (fun e => e.1)
    ∧ ((objEntries o).map (fun e => e.1)).filter (fun k => !isArrayIndex k)
        = (o.map (fun e => e.1)).filter (fun k => !isArrayIndex k)
    ∧ (objEntries o).map (fun e => e.1)
        = ((objEntries o).map (fun e => e.1)).filter isArrayIndex
          ++ ((objEntries o).map (fun e => e.1)).filter (fun k => !isArrayIndex k) := by
  have hsorted : ∀ k ∈ ((o.filter (fun e => isArrayIndex e.1)).insertionSort
      (fun a b => decimalValue a.1 ≤ decimalValue b.1)).map (fun e => e.1),
      isArrayIndex k = true := by
    intro k hk
    obtain ⟨e, he, rfl⟩ := List.mem_map.mp hk
    have he' := (List.perm_insertionSort _ _).mem_iff.mp he
    exact (List.mem_filter.mp he').2
  have hrest : ∀ k ∈ (o.filter (fun e => !isArrayIndex e.1)).map (fun e => e.1),
      isArrayIndex k = false := by
    intro k hk
    obtain ⟨e, he, rfl⟩ := List.mem_map.mp hk
    simpa using (List.mem_filter.mp he).2
  have hrest2 : (o.filter (fun e => !isArrayIndex e.1)).map (fun e => e.1)
      = (o.map (fun e => e.1)).filter (fun k => !isArrayIndex k) :=
    filter_map_fst (fun k => !isArrayIndex k) o
  have h1 : ((objEntries o).map (fun e => e.1)).filter isArrayIndex
      = ((o.filter (fun e => isArrayIndex e.1)).insertionSort
          (fun a b => decimalValue a.1 ≤ decimalValue b.1)).map (fun e => e.1) := by
    unfold objEntries
    rw [List.map_append, List.filter_append, filter_eq_self_of_forall _ _ hsorted,
      filter_eq_nil_of_forall _ _ hrest, List.append_nil]
  have h2 : ((objEntries o).map (fun e => e.1)).filter (fun k => !isArrayIndex k)
      = (o.map (fun e => e.1)).filter (fun k => !isArrayIndex k) := by
    unfold objEntries
    rw [List.map_append, List.filter_append,
      filter_eq_nil_of_forall _ _ (fun k hk => by simp [hsorted k hk]),
      filter_eq_self_of_forall _ _ (fun k hk => by simp [hrest k hk]), List.nil_append, hrest2]
  refine ⟨h1, h2, ?_⟩
  rw [h1, h2, ← hrest2]
  unfold objEntries
  rw [List.map_append]

theorem objEntries_index_sorted {β : Type} (o : List (String × β)) :
    (((objEntries o).map (fun e => e.1)).filter isArrayIndex).Pairwise
      (fun a b => decimalValue a ≤ decimalValue b) := by
  rw [(objEntries_keys o).1, List.pairwise_map]
  haveI : IsTotal (String × β) (fun a b => decimalValue a.1 ≤ decimalValue b.1) :=
    ⟨fun a b => le_total (decimalValue a.1) (decimalValue b.1)⟩
  haveI : IsTrans (String × β) (fun a b => decimalValue a.1 ≤ decimalValue b.1) :=
    ⟨fun _ _ _ hab hbc => le_trans hab hbc⟩
  exact List.sorted_insertionSort _ _

theorem lineSum_filter_own (d : SaleItem → Int) (lines : List SaleItem) (k : String)
    (hk : objectPrototypeNames.contains k = false) :
    lineSum d (lines.filter (fun i => !objectPrototypeNames.contains i.productId)) k
      = lineSum d lines k := by
  unfold lineSum
  rw [List.filter_filter]
  congr 2
  apply List.filter_congr
  intro i _
  by_cases hi : i.productId = k
  · have hk' : k ∉ objectPrototypeNames := by simpa using hk
    simp [hi, hk']
  · simp [hi]

theorem revenueSum_filter_own (lines : List SaleItem) (k : String)
    (hk : objectPrototypeNames.contains k = false) :
    revenueSum (lines.filter (fun i => !objectPrototypeNames.contains i.productId)) k
      = revenueSum lines k := by
  unfold revenueSum
  rw [List.filter_filter]
  congr 2
  apply List.filter_congr
  intro i _
  by_cases hi : i.productId = k
  · have hk' : k ∉ objectPrototypeNames := by simpa using hk
    simp [hi, hk']
  · simp [hi]

theorem mem_firstOccurrences (l : List String) (k : String) :
    k ∈ firstOccurrences l ↔ k ∈ l := by
  induction l with
  | nil => simp [firstOccurrences]
  | cons x xs ih =>
    simp only [firstOccurrences, List.mem_cons, List.mem_filter, ih, bne_iff_ne, ne_eq]
    constructor
    · rintro (h | ⟨h, _⟩)
      · exact Or.inl h
      · exact Or.inr h
    · rintro (h | h)
      · exact Or.inl h
      · by_cases hk : k = x
        · exact Or.inl hk
        · exact Or.inr ⟨h, hk⟩

/-- C24 (as stated, refuted). The store has one sale with a line of product id `7`
and then a line of product id `3`, one unit each: `7` appears first in the scan, but
`getTopSellingProducts` lists `3` before `7`, because `Object.entries` lists the
property names that are array indices in ascending numeric order. -/
theorem getTopSellingProducts_lists_index_ids_first :
    (Store.allLines numericIdsStore).map (fun i => (i.productId, i.quantity))
      = [("7", 1), ("3", 1)]
    ∧ firstOccurrences ((Store.allLines numericIdsStore).map (fun i => i.productId))
      = ["7", "3"]
    ∧ (Store.getTopSellingProducts numericIdsStore 5).map (fun e => (e.id, e.quantity))
      = [("3", 1), ("7", 1)] := by
  decide!

/-- C24 (amended). `getTopSellingProducts(limit)` returns at most `limit` entries: the
first `limit` of the list, sorted by non-increasing quantity, that has one entry per
distinct product id of the line items (an id that is a property name inherited from
`Object.prototype` gets none), each with quantity = Σ line quantities and revenue =
Σ line totals of that id over all sales.  Entries of equal quantity stand in the
order in which `Object.entries` lists them: the ids that are array indices first, in
ascending numeric order, then the other ids in the order of their first occurrence
in the scan of the sales and their lines. -/
theorem getTopSellingProducts_spec (s : Store) (limit : Nat) :
    (Store.getTopSellingProducts s limit).length ≤ limit
    ∧ Store.getTopSellingProducts s limit
        = (sortByQuantityDesc (Store.productSalesEntries s)).take limit
    ∧ ((Store.productSalesEntries s).map (fun e => e.id)).Perm
        (firstOccurrences ((Store.ownLines s).map (fun i => i.productId)))
    ∧ (Store.productSalesEntries s).map (fun e => e.id)
        = ((Store.productSalesEntries s).map (fun e => e.id)).filter isArrayIndex
          ++ ((Store.productSalesEntries s).map (fun e => e.id)).filter
              (fun k => !isArrayIndex k)
    ∧ (((Store.productSalesEntries s).map (fun e => e.id)).filter isArrayIndex).Pairwise
        (fun a b => decimalValue a ≤ decimalValue b)
    ∧ ((Store.productSalesEntries s).map (fun e => e.id)).filter (fun k => !isArrayIndex k)
        = (firstOccurrences ((Store.ownLines s).map (fun i => i.productId))).filter
            (fun k => !isArrayIndex k)
    ∧ (∀ e ∈ Store.productSalesEntries s,
        e.quantity = lineSum (fun i => i.quantity) (Store.allLines s) e.id
        ∧ e.revenue = revenueSum (Store.allLines s) e.id)
    ∧ (sortByQuantityDesc (Store.productSalesEntries s)).Sorted
        (fun a b => b.quantity ≤ a.quantity)
    ∧ (∀ q : Int,
        (sortByQuantityDesc (Store.productSalesEntries s)).filter (fun e => e.quantity == q)
          = (Store.productSalesEntries s).filter (fun e => e.quantity == q)) := by
  have hids : (Store.productSalesEntries s).map (fun e => e.id)
      = (objEntries (Store.productSales s)).map (fun e => e.1) := by
    simp only [Store.productSalesEntries, List.map_map]
    rfl
  have hkeys := productSales_keys s
  refine ⟨List.length_take_le _ _, rfl, ?_, ?_, ?_, ?_, ?_, sorted_sortByQuantityDesc _,
    fun q => filter_sortByQuantityDesc q _⟩
  · rw [hids, ← hkeys]
    exact (objEntries_perm _).map _
  · rw [hids]
    exact (objEntries_keys _).2.2
  · rw [hids]
    exact objEntries_index_sorted _
  · rw [hids, (objEntries_keys _).2.1, hkeys]
  · intro e he
    simp only [Store.productSalesEntries, List.mem_map] at he
    obtain ⟨kd, hkd, rfl⟩ := he
    have hkd' : kd ∈ Store.productSales s := (objEntries_perm _).mem_iff.mp hkd
    have hnodup : ((Store.productSales s).map (fun e => e.1)).Nodup := by
      rw [hkeys]
      exact firstOccurrences_nodup _
    have hown : objectPrototypeNames.contains kd.1 = false := by
      have hmem : kd.1 ∈ (Store.productSales s).map (fun e => e.1) :=
        List.mem_map_of_mem (fun e => e.1) hkd'
      rw [hkeys, mem_firstOccurrences] at hmem
      obtain ⟨i, hi, hik⟩ := List.mem_map.mp hmem
      have := (List.mem_filter.mp hi).2
      rw [← hik]
      simpa using this
    have hget := objGet_of_mem _ kd hnodup hkd'
    rw [productSales_eq_foldl, foldl_recordOwnLine_get] at hget
    simp only [objGet, List.find?_nil, Option.map_none'] at hget
    cases hfind : (Store.ownLines s).find? (fun i => i.productId == kd.1) with
    | none =>
      rw [hfind] at hget
      simp at hget
    | some i =>
      rw [hfind] at hget
      simp only [Option.map_some', Option.some.injEq] at hget
      rw [← hget]
      exact ⟨lineSum_filter_own _ _ _ hown, revenueSum_filter_own _ _ hown⟩

/-- C24 (amended) on the store with three sales: `prod_c3` (5 units) comes first, and
of the two products with 2 units `prod_a1`, seen first, comes before `prod_b2`; on
the store with the inherited name only `prod_a1` has an entry. -/
theorem getTopSellingProducts_spec_witness :
    Store.getTopSellingProducts threeSalesStore 5
      = [{ id := "prod_c3", name := "Produto C3", quantity := 5, revenue := 35 },
         { id := "prod_a1", name := "Produto A1", quantity := 2, revenue := 40 },
         { id := "prod_b2", name := "Produto B2", quantity := 2, revenue := 10 }]
    ∧ Store.getTopSellingProducts threeSalesStore 2
      = [{ id := "prod_c3", name := "Produto C3", quantity := 5, revenue := 35 },
         { id := "prod_a1", name := "Produto A1", quantity := 2, revenue := 40 }]
    ∧ Store.getTopSellingProducts inheritedNameStore 5
      = [{ id := "prod_a1", name := "Produto A1", quantity := 1, revenue := 20 }]
    ∧ (Store.getTopSellingProducts threeSalesStore 2).length ≤ 2
    ∧ ((Store.productSalesEntries threeSalesStore).map (fun e => e.id)).filter
          (fun k => !isArrayIndex k)
        = (firstOccurrences ((Store.ownLines threeSalesStore).map
            (fun i => i.productId))).filter (fun k => !isArrayIndex k) :=
  ⟨by decide!, by decide!, by decide!, (getTopSellingProducts_spec threeSalesStore 2).1,
    (getTopSellingProducts_spec threeSalesStore 2).2.2.2.2.2.1⟩
/-! ### The stored snapshot follows the state -/

theorem addLog_inSync (env : Env) (s : Store) (action module details : String)
    (userId userName : Option String)
    (hproducts : s.localStorage.products = some s.state.products)
    (hsales : s.localStorage.sales = some s.state.sales)
    (hexpenses : s.localStorage.expenses = some s.state.expenses)
    (husers : s.localStorage.users = some s.state.users)
    (hsettings : s.localStorage.settings = some s.state.settings)
    (hsession : s.localStorage.currentUser = s.state.currentUser) :
    Store.inSync (Store.addLog env s action module details userId userName).1 :=
  ⟨hproducts, hsales, hexpenses, husers, rfl, hsettings, hsession⟩

theorem saveToStorage_inSync (s : Store)
    (hsession : s.state.currentUser = none → s.localStorage.currentUser = none) :
    Store.inSync (Store.saveToStorage s) := by
  refine ⟨rfl, rfl, rfl, rfl, rfl, rfl, ?_⟩
  show (match s.state.currentUser with
    | some u => some u
    | none => s.localStorage.currentUser) = s.state.currentUser
  cases h : s.state.currentUser with
  | none => simpa using hsession h
  | some u => rfl

theorem save_then_log_inSync (env : Env) (s : Store) (action module details : String)
    (userId userName : Option String)
    (hsession : s.state.currentUser = none → s.localStorage.currentUser = none) :
    Store.inSync
      (Store.addLog env (Store.saveToStorage s) action module details userId userName).1 := by
  obtain ⟨h1, h2, h3, h4, _, h6, h7⟩ := saveToStorage_inSync s hsession
  exact addLog_inSync env _ action module details userId userName h1 h2 h3 h4 h6 h7

theorem inSync_session (s : Store) (h : Store.inSync s) :
    s.state.currentUser = none → s.localStorage.currentUser = none := by
  intro hnone
  rw [h.2.2.2.2.2.2, hnone]

theorem command_inSync (env : Env) (s : Store) (hsync : Store.inSync s) (c : Command) :
    Store.inSync (Command.run env s c).1 := by
  have hs := inSync_session s hsync
  cases c with
  | addProduct product => exact save_then_log_inSync env _ _ _ _ _ _ hs
  | updateProduct id updates =>
    simp only [Command.run, Store.updateProduct]
    split
    · exact hsync
    · split
      · exact hsync
      · exact save_then_log_inSync env _ _ _ _ _ _ hs
  | deleteProduct id =>
    simp only [Command.run, Store.deleteProduct]
    split
    · exact hsync
    · split
      · exact hsync
      · exact save_then_log_inSync env _ _ _ _ _ _ hs
  | addSale sale => exact save_then_log_inSync env _ _ _ _ _ _ hs
  | deleteSale id =>
    simp only [Command.run, Store.deleteSale]
    split
    · exact hsync
    · split
      · exact hsync
      · exact save_then_log_inSync env _ _ _ _ _ _ hs
  | addExpense expense => exact save_then_log_inSync env _ _ _ _ _ _ hs
  | deleteExpense id =>
    simp only [Command.run, Store.deleteExpense]
    split
    · exact hsync
    · split
      · exact hsync
      · exact save_then_log_inSync env _ _ _ _ _ _ hs
  | addUser user => exact save_then_log_inSync env _ _ _ _ _ _ hs
  | updateUser id updates =>
    simp only [Command.run, Store.updateUser]
    split
    · exact hsync
    · split
      · exact hsync
      · exact save_then_log_inSync env _ _ _ _ _ _ hs
  | deleteUser id =>
    simp only [Command.run, Store.deleteUser]
    split
    · exact hsync
    · split
      · exact hsync
      · exact save_then_log_inSync env _ _ _ _ _ _ hs
  | importData data merge => exact save_then_log_inSync env _ _ _ _ _ _ hs

theorem login_inSync (env : Env) (s : Store) (hsync : Store.inSync s)
    (username password : String) :
    Store.inSync (Store.login env s username password).1 := by
  obtain ⟨h1, h2, h3, h4, _, h6, h7⟩ := hsync
  unfold Store.login
  split
  · split
    · exact ⟨h1, h2, h3, h4, by assumption, h6, h7⟩
    · exact save_then_log_inSync env _ _ _ _ _ _ (fun h => by simp at h)
  · exact addLog_inSync env s _ _ _ _ _ h1 h2 h3 h4 h6 h7

theorem logout_inSync (env : Env) (s : Store) (hsync : Store.inSync s) :
    Store.inSync (Store.logout env s) := by
  obtain ⟨h1, h2, h3, h4, h5, h6, h7⟩ := hsync
  unfold Store.logout
  cases hu : s.state.currentUser with
  | none => exact ⟨h1, h2, h3, h4, h5, h6, rfl⟩
  | some u =>
    obtain ⟨g1, g2, g3, g4, g5, g6, _⟩ :=
      addLog_inSync env s "logout" "usuarios" "Logout realizado" (some u.id) (some u.fullName)
        h1 h2 h3 h4 h6 h7
    exact ⟨g1, g2, g3, g4, g5, g6, rfl⟩

/-- C31. Starting from a store whose stored snapshot equals its in-memory state,
after every store command (add, update or delete of a product, sale, expense or
user, import, login, logout, `addLog`, `clearLogs`, `clearAllData`) the stored
products, sales, expenses, users, logs and settings equal the in-memory ones, and
the stored session is the in-memory session (absent exactly when it is null). -/
theorem commands_keep_storage_in_sync (env : Env) (s : Store) (hsync : Store.inSync s) :
    (∀ c : Command, Store.inSync (Command.run env s c).1)
    ∧ (∀ username password : String, Store.inSync (Store.login env s username password).1)
    ∧ Store.inSync (Store.logout env s)
    ∧ (∀ (action module details : String) (userId userName : Option String),
        Store.inSync (Store.addLog env s action module details userId userName).1)
    ∧ Store.inSync (Store.clearLogs env s)
    ∧ Store.inSync (Store.clearAllData env s) := by
  refine ⟨command_inSync env s hsync, login_inSync env s hsync, logout_inSync env s hsync,
    ?_, ?_, ?_⟩
  · intro action module details userId userName
    exact addLog_inSync env s action module details userId userName hsync.1 hsync.2.1
      hsync.2.2.1 hsync.2.2.2.1 hsync.2.2.2.2.2.1 hsync.2.2.2.2.2.2
  · exact addLog_inSync env _ _ _ _ _ _ hsync.1 hsync.2.1 hsync.2.2.1 hsync.2.2.2.1
      hsync.2.2.2.2.2.1 hsync.2.2.2.2.2.2
  · exact save_then_log_inSync env _ _ _ _ _ _ (inSync_session s hsync)

/-- C31 on the populated store after a full save: a login, then a new product, keep
the snapshot equal to the state, session included. -/
theorem commands_keep_storage_in_sync_witness :
    Store.inSync savedSampleStore
    ∧ Store.inSync (Store.login sampleEnv savedSampleStore "admin" "admin").1
    ∧ (Store.login sampleEnv savedSampleStore "admin" "admin").1.localStorage.currentUser
        = (Store.login sampleEnv savedSampleStore "admin" "admin").1.state.currentUser
    ∧ ((Store.login sampleEnv savedSampleStore "admin" "admin").1.state.currentUser).isSome
        = true
    ∧ Store.inSync (Store.clearLogs sampleEnv savedSampleStore) :=
  ⟨by decide!,
    (commands_keep_storage_in_sync sampleEnv savedSampleStore (by decide!)).2.1 "admin" "admin",
    ((commands_keep_storage_in_sync sampleEnv savedSampleStore (by decide!)).2.1
      "admin" "admin").2.2.2.2.2.2,
    by decide,
    (commands_keep_storage_in_sync sampleEnv savedSampleStore (by decide!)).2.2.2.2.1⟩

/-! ### Identifiers of new records -/

theorem nodup_append_singleton {α : Type} (l : List α) (a : α) :
    (l ++ [a]).Nodup ↔ l.Nodup ∧ a ∉ l := by
  rw [List.nodup_append]
  simp only [List.nodup_cons, List.not_mem_nil, not_false_eq_true, List.nodup_nil, and_self,
    true_and, List.Disjoint, List.mem_singleton]
  constructor
  · rintro ⟨h1, h2⟩
    exact ⟨h1, fun ha => h2 ha rfl⟩
  · rintro ⟨h1, h2⟩
    refine ⟨h1, ?_⟩
    intro b hb hba
    exact h2 (hba ▸ hb)

/-- C32 (as stated, refuted). Two `addProduct` calls at the same clock value give two
products with the same id `prod_loyw3v28`; and `addUser` with a data record that
carries the id `user_1` gives a second user with that id, not the generated one. -/
theorem add_can_repeat_an_id :
    (storeB2.state.products.map (fun p => p.id)).Nodup
    ∧ (Store.addProduct sampleEnv storeB2 productDataB2).2.id = "prod_loyw3v28"
    ∧ (Store.addProduct sampleEnv storeB2 productDataB2).1.state.products.map (fun p => p.id)
        = ["prod_loyw3v28", "prod_loyw3v28"]
    ∧ ¬ ((Store.addProduct sampleEnv storeB2 productDataB2).1.state.products.map
          (fun p => p.id)).Nodup
    ∧ (defaultUsersStore.state.users.map (fun u => u.id)).Nodup
    ∧ (Store.addUser sampleEnv defaultUsersStore userDataWithId).2.id = "user_1"
    ∧ ¬ ((Store.addUser sampleEnv defaultUsersStore userDataWithId).1.state.users.map
          (fun u => u.id)).Nodup := by
  decide

/-- C32 (amended). The id of the record an `add` command creates is the `id` key of
its data when it has one and otherwise the text generated from the clock
(`prod_`, `sale_`, `exp_`, `user_` followed by the clock value in base 36); the ids
of the collection, pairwise distinct before, are pairwise distinct after exactly
when that id was not in use. -/
theorem add_keeps_ids_distinct (env : Env) (s : Store) (product : ProductData)
    (sale : SaleData) (expense : ExpenseData) (user : UserData) :
    ((Store.addProduct env s product).2.id
        = (product.id).getD ("prod_" ++ toBase36 env.nowMs)
      ∧ (Store.addProduct env s product).2 ∈ (Store.addProduct env s product).1.state.products
      ∧ ((s.state.products.map (fun p => p.id)).Nodup →
          (((Store.addProduct env s product).1.state.products.map (fun p => p.id)).Nodup
            ↔ (Store.addProduct env s product).2.id ∉ s.state.products.map (fun p => p.id))))
    ∧ ((Store.addSale env s sale).2.id = (sale.id).getD ("sale_" ++ toBase36 env.nowMs)
      ∧ (Store.addSale env s sale).2 ∈ (Store.addSale env s sale).1.state.sales
      ∧ ((s.state.sales.map (fun x => x.id)).Nodup →
          (((Store.addSale env s sale).1.state.sales.map (fun x => x.id)).Nodup
            ↔ (Store.addSale env s sale).2.id ∉ s.state.sales.map (fun x => x.id))))
    ∧ ((Store.addExpense env s expense).2.id
        = (expense.id).getD ("exp_" ++ toBase36 env.nowMs)
      ∧ (Store.addExpense env s expense).2 ∈ (Store.addExpense env s expense).1.state.expenses
      ∧ ((s.state.expenses.map (fun x => x.id)).Nodup →
          (((Store.addExpense env s expense).1.state.expenses.map (fun x => x.id)).Nodup
            ↔ (Store.addExpense env s expense).2.id
                ∉ s.state.expenses.map (fun x => x.id))))
    ∧ ((Store.addUser env s user).2.id = (user.id).getD ("user_" ++ toBase36 env.nowMs)
      ∧ (Store.addUser env s user).2 ∈ (Store.addUser env s user).1.state.users
      ∧ ((s.state.users.map (fun u => u.id)).Nodup →
          (((Store.addUser env s user).1.state.users.map (fun u => u.id)).Nodup
            ↔ (Store.addUser env s user).2.id ∉ s.state.users.map (fun u => u.id)))) := by
  refine ⟨⟨rfl, ?_, ?_⟩, ⟨rfl, ?_, ?_⟩, ⟨rfl, ?_, ?_⟩, ⟨rfl, ?_, ?_⟩⟩
  · show newProductOf env product ∈ s.state.products ++ [newProductOf env product]
    simp
  · intro hnodup
    show ((s.state.products ++ [newProductOf env product]).map (fun p => p.id)).Nodup ↔ _
    rw [List.map_append, List.map_singleton, nodup_append_singleton]
    exact ⟨fun h => h.2, fun h => ⟨hnodup, h⟩⟩
  · show newSaleOf env sale ∈ newSaleOf env sale :: s.state.sales
    simp
  · intro hnodup
    show ((newSaleOf env sale :: s.state.sales).map (fun x => x.id)).Nodup ↔ _
    rw [List.map_cons, List.nodup_cons]
    exact ⟨fun h => h.1, fun h => ⟨h, hnodup⟩⟩
  · show newExpenseOf env expense ∈ newExpenseOf env expense :: s.state.expenses
    simp
  · intro hnodup
    show ((newExpenseOf env expense :: s.state.expenses).map (fun x => x.id)).Nodup ↔ _
    rw [List.map_cons, List.nodup_cons]
    exact ⟨fun h => h.1, fun h => ⟨h, hnodup⟩⟩
  · show newUserOf env user ∈ s.state.users ++ [newUserOf env user]
    simp
  · intro hnodup
    show ((s.state.users ++ [newUserOf env user]).map (fun u => u.id)).Nodup ↔ _
    rw [List.map_append, List.map_singleton, nodup_append_singleton]
    exact ⟨fun h => h.2, fun h => ⟨hnodup, h⟩⟩

/-- C32 (amended) on the store holding `productA1`: a new product without an `id`
key gets the generated id `prod_loyw3v28`, which is not in use, and the ids stay
distinct. -/
theorem add_keeps_ids_distinct_witness :
    (storeA1.state.products.map (fun p => p.id)).Nodup
    ∧ (Store.addProduct sampleEnv storeA1 productDataB2).2.id = "prod_loyw3v28"
    ∧ ((Store.addProduct sampleEnv storeA1 productDataB2).1.state.products.map
        (fun p => p.id)).Nodup :=
  ⟨by decide, by decide,
    ((add_keeps_ids_distinct sampleEnv storeA1 productDataB2
        { id := none, client := "", items := [], total := 0, cost := 0, date := ""
          userId := none }
        { id := none, description := "", category := "", value := 0, date := "", notes := "" }
        userDataWithId).1.2.2 (by decide)).mpr (by decide)⟩

/-! ### What `updateUser` keeps -/

/-- C33. For the id of an existing user, `updateUser(id, updates)` returns a record
that it stores at the place of the first user with that id; the record has the id
and `createdAt` of the old one; its password is the old one when `updates` carries
no password or an empty one and the supplied one otherwise; every other user record
is as before. -/
theorem updateUser_frame (env : Env) (s : Store) (id : String) (updates : UserUpdates)
    (hid : ∃ u ∈ s.state.users, u.id = id) :
    ∃ (index : Nat) (old updated : User),
      s.state.users.findIdx? (fun u => u.id == id) = some index
      ∧ s.state.users[index]? = some old
      ∧ old.id = id
      ∧ (Store.updateUser env s id updates).2 = some updated
      ∧ (Store.updateUser env s id updates).1.state.users = s.state.users.set index updated
      ∧ (Store.updateUser env s id updates).1.localStorage.users
          = some (s.state.users.set index updated)
      ∧ updated.id = old.id
      ∧ updated.createdAt = old.createdAt
      ∧ ((updates.password = none ∨ updates.password = some "") →
          updated.password = old.password)
      ∧ (∀ v : String, updates.password = some v → v ≠ "" → updated.password = v)
      ∧ (∀ j : Nat, j ≠ index →
          (Store.updateUser env s id updates).1.state.users[j]? = s.state.users[j]?) := by
  obtain ⟨u, hu, huid⟩ := hid
  cases hidx : s.state.users.findIdx? (fun u => u.id == id) with
  | none =>
    rw [List.findIdx?_eq_none_iff] at hidx
    have := hidx u hu
    simp [huid] at this
  | some index =>
    obtain ⟨old, hold, hp⟩ := findIdx?_some_getElem? _ _ _ hidx
    have hupd : Store.updateUser env s id updates
        = ((Store.addLog env
              (Store.saveToStorage
                { s with state :=
                    { s.state with
                      users := s.state.users.set index
                        (mergeUser env old (sanitizeUserUpdates updates)) } })
              "update" "usuarios"
              ("Usuário atualizado: "
                ++ (mergeUser env old (sanitizeUserUpdates updates)).username)
              none none).1,
            some (mergeUser env old (sanitizeUserUpdates updates))) := by
      simp only [Store.updateUser, hidx, hold]
    refine ⟨index, old, mergeUser env old (sanitizeUserUpdates updates), rfl, hold,
      by simpa using hp, ?_, ?_, ?_, rfl, rfl, ?_, ?_, ?_⟩
    · rw [hupd]
    · rw [hupd]
      rfl
    · rw [hupd]
      rfl
    · intro h
      rcases h with h | h <;> simp [mergeUser, sanitizeUserUpdates, truthy, h]
    · intro v hv hne
      simp [mergeUser, sanitizeUserUpdates, truthy, hv, hne]
    · intro j hj
      rw [hupd]
      show (s.state.users.set index _)[j]? = _
      rw [List.getElem?_set_ne (Ne.symm hj)]

/-- C33 on the default installation: an update of `user_2` that carries an id, a
`createdAt` and a password changes the password only, and `user_1` is as before. -/
theorem updateUser_frame_witness :
    (∃ u ∈ defaultUsersStore.state.users, u.id = "user_2")
    ∧ ((Store.updateUser sampleEnv defaultUsersStore "user_2" userIdUpdates).2.map
        (fun u => (u.id, u.createdAt, u.password)))
        = some ("user_2", some "2023-11-14T22:13:20.000Z", "nova")
    ∧ ((Store.updateUser sampleEnv defaultUsersStore "user_2" noUserUpdates).2.map
        (fun u => u.password)) = some "operador"
    ∧ (Store.updateUser sampleEnv defaultUsersStore "user_2" userIdUpdates).1.state.users[0]?
        = defaultUsersStore.state.users[0]?
    ∧ ∃ (index : Nat) (old updated : User),
        defaultUsersStore.state.users.findIdx? (fun u => u.id == "user_2") = some index
        ∧ defaultUsersStore.state.users[index]? = some old
        ∧ old.id = "user_2"
        ∧ (Store.updateUser sampleEnv defaultUsersStore "user_2" userIdUpdates).2
            = some updated
        ∧ (Store.updateUser sampleEnv defaultUsersStore "user_2" userIdUpdates).1.state.users
            = defaultUsersStore.state.users.set index updated
        ∧ (Store.updateUser sampleEnv defaultUsersStore "user_2"
              userIdUpdates).1.localStorage.users
            = some (defaultUsersStore.state.users.set index updated)
        ∧ updated.id = old.id
        ∧ updated.createdAt = old.createdAt
        ∧ ((userIdUpdates.password = none ∨ userIdUpdates.password = some "") →
            updated.password = old.password)
        ∧ (∀ v : String, userIdUpdates.password = some v → v ≠ "" → updated.password = v)
        ∧ (∀ j : Nat, j ≠ index →
            (Store.updateUser sampleEnv defaultUsersStore "user_2"
                userIdUpdates).1.state.users[j]?
              = defaultUsersStore.state.users[j]?) :=
  ⟨by decide, by decide, by decide, by decide,
    updateUser_frame sampleEnv defaultUsersStore "user_2" userIdUpdates (by decide)⟩

/-! ### The cart and the stock -/

theorem map_modifyFirst {α β : Type} (p : α → Bool) (f : α → α) (g : α → β)
    (hg : ∀ x, g (f x) = g x) (l : List α) : (modifyFirst p f l).map g = l.map g := by
  induction l with
  | nil => rfl
  | cons x xs ih =>
    unfold modifyFirst
    split
    · simp [hg]
    · simp [ih]

theorem mem_modifyFirst {α : Type} (p : α → Bool) (f : α → α) (l : List α) (x : α)
    (hx : x ∈ modifyFirst p f l) : x ∈ l ∨ ∃ y, l.find? p = some y ∧ x = f y := by
  induction l with
  | nil => simp [modifyFirst] at hx
  | cons a l ih =>
    unfold modifyFirst at hx
    by_cases hp : p a = true
    · rw [if_pos hp] at hx
      rcases List.mem_cons.mp hx with h | h
      · exact Or.inr ⟨a, by simp [List.find?_cons, hp], h⟩
      · exact Or.inl (List.mem_cons_of_mem _ h)
    · rw [if_neg hp] at hx
      have hp' : p a = false := by simpa using hp
      rcases List.mem_cons.mp hx with h | h
      · exact Or.inl (h ▸ List.mem_cons_self _ _)
      · rcases ih h with h1 | ⟨y, hy, hxy⟩
        · exact Or.inl (List.mem_cons_of_mem _ h1)
        · exact Or.inr ⟨y, by simp [List.find?_cons, hp', hy], hxy⟩

theorem find?_of_first_match {α : Type} (p : α → Bool) (l : List α) (j : Nat) (x : α)
    (hx : l[j]? = some x) (hp : p x = true)
    (hbefore : ∀ (k : Nat) (y : α), k < j → l[k]? = some y → p y = false) :
    l.find? p = some x := by
  induction l generalizing j with
  | nil => simp at hx
  | cons a l ih =>
    cases j with
    | zero =>
      simp only [List.getElem?_cons_zero, Option.some.injEq] at hx
      subst hx
      simp [List.find?_cons, hp]
    | succ j =>
      have ha : p a = false := hbefore 0 a (Nat.succ_pos j) (by simp)
      rw [List.find?_cons, ha]
      simp only [List.getElem?_cons_succ] at hx
      exact ih j hx (fun k y hk hy => hbefore (k + 1) y (by omega) (by simpa using hy))

theorem find?_eq_getElem?_of_findIdx? {α : Type} (p : α → Bool) (l : List α) (j : Nat)
    (h : l.findIdx? p = some j) : l.find? p = l[j]? := by
  rw [List.findIdx?_eq_some_iff_getElem] at h
  obtain ⟨hlt, hp, hbefore⟩ := h
  rw [List.getElem?_eq_getElem hlt]
  apply find?_of_first_match p l j _ (List.getElem?_eq_getElem hlt) hp
  intro k y hk hy
  obtain ⟨hk2, hy2⟩ := List.getElem?_eq_some.mp hy
  have := hbefore k hk
  rw [← hy2]
  simpa using this

theorem lineSum_eq_zero (d : SaleItem → Int) (items : List SaleItem) (a : String)
    (h : a ∉ items.map (fun i => i.productId)) : lineSum d items a = 0 := by
  induction items with
  | nil => rfl
  | cons it rest ih =>
    rw [List.map_cons, List.mem_cons, not_or] at h
    have hne : (it.productId == a) = false := by
      rw [beq_eq_false_iff_ne]
      exact fun e => h.1 e.symm
    rw [lineSum_cons, ih h.2, hne]
    simp

theorem lineSum_of_nodup (d : SaleItem → Int) (items : List SaleItem) (a : String)
    (hnodup : (items.map (fun i => i.productId)).Nodup) :
    lineSum d items a = 0 ∨ ∃ i ∈ items, i.productId = a ∧ lineSum d items a = d i := by
  induction items with
  | nil => exact Or.inl rfl
  | cons it rest ih =>
    rw [List.map_cons, List.nodup_cons] at hnodup
    by_cases hit : it.productId = a
    · right
      refine ⟨it, List.mem_cons_self _ _, hit, ?_⟩
      rw [lineSum_cons, lineSum_eq_zero d rest a (hit ▸ hnodup.1)]
      simp [hit]
    · have hne : (it.productId == a) = false := by simpa using hit
      rcases ih hnodup.2 with h | ⟨i, hi, hia, hsum⟩
      · left
        rw [lineSum_cons, h, hne]
        simp
      · right
        refine ⟨i, List.mem_cons_of_mem _ hi, hia, ?_⟩
        rw [lineSum_cons, hsum, hne]
        simp

theorem addProductToSale_store (app : App) (selected : String) :
    (App.addProductToSale app selected).store = app.store := by
  unfold App.addProductToSale
  split
  · rfl
  · split
    · rfl
    · split
      · split <;> rfl
      · rfl

theorem updateSaleItemQuantity_store (app : App) (index : Nat) (delta : Int) :
    ((App.updateSaleItemQuantity app index delta).getD app).store = app.store := by
  unfold App.updateSaleItemQuantity
  split
  · rfl
  · split
    · rfl
    · simp only
      split <;> rfl

theorem cartStep_store (app : App) (a : CartAction) : (App.cartStep app a).store = app.store := by
  cases a with
  | add selected => exact addProductToSale_store app selected
  | changeQuantity index delta => exact updateSaleItemQuantity_store app index delta

theorem cartSteps_store (app : App) (actions : List CartAction) :
    (App.cartSteps app actions).store = app.store := by
  induction actions generalizing app with
  | nil => rfl
  | cons a rest ih =>
    show (App.cartSteps (App.cartStep app a) rest).store = app.store
    rw [ih, cartStep_store]

theorem addProductToSale_within (app : App) (selected : String)
    (hcart : App.cartWithinStock app)
    (hoffered : ∀ p, Store.getProduct app.store selected = some p → 0 < p.stock) :
    App.cartWithinStock (App.addProductToSale app selected) := by
  obtain ⟨hnodup, hlines⟩ := hcart
  unfold App.addProductToSale
  split
  · exact ⟨hnodup, hlines⟩
  · split
    · exact ⟨hnodup, hlines⟩
    · rename_i product hproduct
      split
      · rename_i existingItem hexisting
        split
        · rename_i hlt
          constructor
          · have hmap := map_modifyFirst (fun i : SaleItem => i.productId == selected)
              (fun i : SaleItem =>
                { i with
                  quantity := i.quantity + 1
                  total := ((i.quantity + 1 : Int) : ℚ) * i.price })
              (fun i : SaleItem => i.productId) (fun _ => rfl) app.saleItems
            show ((modifyFirst (fun i : SaleItem => i.productId == selected)
              (fun i : SaleItem =>
                { i with
                  quantity := i.quantity + 1
                  total := ((i.quantity + 1 : Int) : ℚ) * i.price })
              app.saleItems).map (fun i : SaleItem => i.productId)).Nodup
            rw [hmap]
            exact hnodup
          · intro i hi
            rcases mem_modifyFirst _ _ _ _ hi with h | ⟨y, hy, rfl⟩
            · exact hlines i h
            · rw [hexisting] at hy
              cases hy
              have hid : existingItem.productId = selected := by
                simpa using List.find?_some hexisting
              refine ⟨product, ?_, ?_, ?_⟩
              · show Store.getProduct app.store existingItem.productId = some product
                rw [hid]
                exact hproduct
              · obtain ⟨_, _, h1, _⟩ := hlines existingItem (List.mem_of_find?_eq_some hexisting)
                show 1 ≤ existingItem.quantity + 1
                omega
              · show existingItem.quantity + 1 ≤ product.stock
                omega
        · exact ⟨hnodup, hlines⟩
      · rename_i hnone
        constructor
        · show ((app.saleItems ++ [(_ : SaleItem)]).map
            (fun i : SaleItem => i.productId)).Nodup
          rw [List.map_append, List.map_singleton, nodup_append_singleton]
          refine ⟨hnodup, ?_⟩
          intro hmem
          obtain ⟨i, hi, hid⟩ := List.mem_map.mp hmem
          have := List.find?_eq_none.mp hnone i hi
          simp [hid] at this
        · intro i hi
          rcases List.mem_append.mp hi with h | h
          · exact hlines i h
          · rw [List.mem_singleton] at h
            subst h
            have h0 := hoffered product hproduct
            refine ⟨product, hproduct, le_refl _, ?_⟩
            show (1 : Int) ≤ product.stock
            omega

theorem updateSaleItemQuantity_within (app : App) (index : Nat) (delta : Int)
    (hcart : App.cartWithinStock app) :
    App.cartWithinStock ((App.updateSaleItemQuantity app index delta).getD app) := by
  obtain ⟨hnodup, hlines⟩ := hcart
  unfold App.updateSaleItemQuantity
  split
  · exact ⟨hnodup, hlines⟩
  · rename_i item hitem
    split
    · exact ⟨hnodup, hlines⟩
    · rename_i product hproduct
      simp only
      split
      · exact ⟨hnodup, hlines⟩
      · rename_i hrange
        constructor
        · show ((app.saleItems.set index (_ : SaleItem)).map
            (fun i : SaleItem => i.productId)).Nodup
          rw [List.map_set]
          have hself : (app.saleItems.map (fun i => i.productId)).set index item.productId
              = app.saleItems.map (fun i => i.productId) := by
            apply List.ext_getElem?
            intro n
            by_cases hn : index = n
            · subst hn
              obtain ⟨hlt, _⟩ := List.getElem?_eq_some.mp hitem
              rw [List.getElem?_set_self (by simpa using hlt), List.getElem?_map, hitem]
              rfl
            · rw [List.getElem?_set_ne hn]
          rw [hself]
          exact hnodup
        · intro i hi
          rcases List.mem_or_eq_of_mem_set hi with h | h
          · exact hlines i h
          · subst h
            refine ⟨product, hproduct, ?_, ?_⟩
            · show 1 ≤ item.quantity + delta
              omega
            · show item.quantity + delta ≤ product.stock
              omega

theorem cartSteps_within (app : App) (actions : List CartAction)
    (hcart : App.cartWithinStock app)
    (hoffered : ∀ a ∈ actions, CartAction.offered app.store a) :
    App.cartWithinStock (App.cartSteps app actions) := by
  induction actions generalizing app with
  | nil => exact hcart
  | cons a rest ih =>
    show App.cartWithinStock (App.cartSteps (App.cartStep app a) rest)
    apply ih
    · cases a with
      | add selected =>
        exact addProductToSale_within app selected hcart (hoffered _ (List.mem_cons_self _ _))
      | changeQuantity index delta => exact updateSaleItemQuantity_within app index delta hcart
    · intro b hb
      rw [cartStep_store]
      exact hoffered b (List.mem_cons_of_mem _ hb)

/-- Saving a cart whose lines are within the stock leaves no stock below 0, and the
call does not raise. -/
theorem saveSale_within (env : Env) (app : App) (clientInput : String)
    (hstock : ∀ p ∈ app.store.state.products, 0 ≤ p.stock)
    (hcart : App.cartWithinStock app) :
    App.saveSale env app clientInput ≠ .threw
    ∧ ∀ p ∈ (SaveSaleResult.after app (App.saveSale env app clientInput)).store.state.products,
        0 ≤ p.stock := by
  obtain ⟨hnodup, hlines⟩ := hcart
  by_cases hclient : trim clientInput = ""
  · have hres : App.saveSale env app clientInput
        = .warned "Por favor, informe o nome do cliente." := by
      simp [App.saveSale, hclient]
    rw [hres]
    exact ⟨by simp, hstock⟩
  · by_cases hempty : app.saleItems = []
    · have hc : (trim clientInput == "") = false := by simpa using hclient
      have hres : App.saveSale env app clientInput
          = .warned "Adicione pelo menos um produto." := by
        simp [App.saveSale, hc, hempty]
      rw [hres]
      exact ⟨by simp, hstock⟩
    · have hrefs : ∀ i ∈ app.saleItems,
          (Store.getProduct app.store i.productId).isSome = true := by
        intro i hi
        obtain ⟨p, hp, _⟩ := hlines i hi
        rw [hp]
        rfl
      rw [saveSale_saved env app clientInput hclient hempty hrefs]
      refine ⟨by simp, ?_⟩
      intro p hp
      have hp' : p ∈ adjustAll (fun i => -i.quantity) app.store.state.products
          app.saleItems := hp
      obtain ⟨j, hj⟩ := List.mem_iff_getElem?.mp hp'
      rw [adjustAll_getElem?] at hj
      cases hq : app.store.state.products[j]? with
      | none => simp [hq] at hj
      | some q =>
        rw [hq] at hj
        simp only [Option.map_some', Option.some.injEq] at hj
        have hq0 : 0 ≤ q.stock := hstock q (List.getElem?_mem hq)
        rw [← hj]
        show 0 ≤ q.stock + _
        split
        · rename_i hfirst
          rcases lineSum_of_nodup (fun i => -i.quantity) app.saleItems q.id hnodup with
            h | ⟨i, hi, hid, hsum⟩
          · rw [h]
            omega
          · rw [hsum]
            obtain ⟨p1, hp1, _, hle⟩ := hlines i hi
            have hfind : Store.getProduct app.store i.productId = some q := by
              unfold Store.getProduct
              rw [hid, find?_eq_getElem?_of_findIdx? _ _ _ hfirst, hq]
            rw [hfind] at hp1
            cases hp1
            show 0 ≤ q.stock + -i.quantity
            omega
        · omega

/-- C34 (as stated, refuted). On the stock scenario the product `prod_z0` exists and
has stock 0 (the select of the sale form does not offer it); `addProductToSale` on
its id puts a line of one unit in the empty cart, and `saveSale` leaves its stock
at −1. -/
theorem sale_flow_can_make_stock_negative :
    (∀ p ∈ appStockScenario.store.state.products, 0 ≤ p.stock)
    ∧ appStockScenario.saleItems = []
    ∧ productZero ∈ appStockScenario.store.state.products
    ∧ productZero ∉ Store.availableProducts appStockScenario.store
    ∧ (App.cartSteps appStockScenario [.add "prod_z0"]).saleItems.map
        (fun i => (i.productId, i.quantity)) = [("prod_z0", 1)]
    ∧ (SaveSaleResult.after (App.cartSteps appStockScenario [.add "prod_z0"])
        (App.saveSale sampleEnv (App.cartSteps appStockScenario [.add "prod_z0"])
          "Ana")).store.state.products.map (fun p => (p.id, p.stock))
        = [("prod_z0", -1), ("prod_a1", 5)] := by
  decide

/-- C34 (amended). When every stock is at least 0 and the cart is built from the
empty cart by `addProductToSale` calls on ids for which `getProduct` returns a product
with stock above 0 and by any `updateSaleItemQuantity` calls, `saveSale` does not
raise and leaves every stock at least 0. -/
theorem sale_flow_keeps_stock_nonnegative (env : Env) (app : App) (actions : List CartAction)
    (clientInput : String)
    (hstock : ∀ p ∈ app.store.state.products, 0 ≤ p.stock)
    (hempty : app.saleItems = [])
    (hoffered : ∀ a ∈ actions, CartAction.offered app.store a) :
    App.saveSale env (App.cartSteps app actions) clientInput ≠ .threw
    ∧ ∀ p ∈ (SaveSaleResult.after (App.cartSteps app actions)
          (App.saveSale env (App.cartSteps app actions) clientInput)).store.state.products,
        0 ≤ p.stock := by
  have hcart0 : App.cartWithinStock app := by
    constructor
    · rw [hempty]
      exact List.nodup_nil
    · intro i hi
      rw [hempty] at hi
      simp at hi
  apply saveSale_within env _ clientInput
  · rw [cartSteps_store]
    exact hstock
  · exact cartSteps_within app actions hcart0 hoffered

/-- C34 (amended) on the stock scenario: `prod_a1` (stock 5) is added and raised by
4 to the limit of 5 units, a further unit is refused, and the saved sale leaves the
stocks at 0 and 0. -/
theorem sale_flow_keeps_stock_nonnegative_witness :
    (App.cartSteps appStockScenario
        [.add "prod_a1", .changeQuantity 0 4, .add "prod_a1", .changeQuantity 0 1]).saleItems.map
        (fun i => (i.productId, i.quantity)) = [("prod_a1", 5)]
    ∧ (SaveSaleResult.after
        (App.cartSteps appStockScenario
          [.add "prod_a1", .changeQuantity 0 4, .add "prod_a1", .changeQuantity 0 1])
        (App.saveSale sampleEnv
          (App.cartSteps appStockScenario
            [.add "prod_a1", .changeQuantity 0 4, .add "prod_a1", .changeQuantity 0 1])
          "Ana")).store.state.products.map (fun p => (p.id, p.stock))
        = [("prod_z0", 0), ("prod_a1", 0)]
    ∧ (App.saveSale sampleEnv
          (App.cartSteps appStockScenario
            [.add "prod_a1", .changeQuantity 0 4, .add "prod_a1", .changeQuantity 0 1])
          "Ana" ≠ .threw
      ∧ ∀ p ∈ (SaveSaleResult.after
            (App.cartSteps appStockScenario
              [.add "prod_a1", .changeQuantity 0 4, .add "prod_a1", .changeQuantity 0 1])
            (App.saveSale sampleEnv
              (App.cartSteps appStockScenario
                [.add "prod_a1", .changeQuantity 0 4, .add "prod_a1", .changeQuantity 0 1])
              "Ana")).store.state.products,
          0 ≤ p.stock) :=
  ⟨by decide, by decide,
    sale_flow_keeps_stock_nonnegative sampleEnv appStockScenario
      [.add "prod_a1", .changeQuantity 0 4, .add "prod_a1", .changeQuantity 0 1] "Ana"
      (by decide) rfl
      (by
        intro a ha
        simp only [List.mem_cons, List.mem_singleton, List.not_mem_nil, or_false] at ha
        rcases ha with rfl | rfl | rfl | rfl
        · intro p hp
          have h : p = productA1 := by
            have h2 : Store.getProduct appStockScenario.store "prod_a1" = some productA1 := by
              decide
            rw [h2] at hp
            exact (Option.some.inj hp).symm
          rw [h]
          decide
        · trivial
        · intro p hp
          have h : p = productA1 := by
            have h2 : Store.getProduct appStockScenario.store "prod_a1" = some productA1 := by
              decide
            rw [h2] at hp
            exact (Option.some.inj hp).symm
          rw [h]
          decide
        · trivial)⟩

/-! ### User names -/

theorem nodup_set {α : Type} (l : List α) (i : Nat) (a : α) (hnodup : l.Nodup)
    (hfree : ∀ j : Nat, j ≠ i → l[j]? ≠ some a) : (l.set i a).Nodup := by
  induction l generalizing i with
  | nil => simp
  | cons x xs ih =>
    rw [List.nodup_cons] at hnodup
    cases i with
    | zero =>
      rw [List.set_cons_zero, List.nodup_cons]
      refine ⟨?_, hnodup.2⟩
      intro hmem
      obtain ⟨n, hn⟩ := List.mem_iff_getElem?.mp hmem
      exact hfree (n + 1) (by omega) (by simpa using hn)
    | succ i =>
      rw [List.set_cons_succ, List.nodup_cons]
      constructor
      · intro hmem
        rcases List.mem_or_eq_of_mem_set hmem with h | h
        · exact hnodup.1 h
        · exact hfree 0 (by omega) (by simp [h])
      · apply ih i hnodup.2
        intro j hj
        have := hfree (j + 1) (by omega)
        simpa using this

theorem updateUser_users (env : Env) (s : Store) (id : String) (updates : UserUpdates) :
    (Store.updateUser env s id updates).1.state.users
      = match s.state.users.findIdx? (fun u => u.id == id) with
        | none => s.state.users
        | some index =>
          match s.state.users[index]? with
          | none => s.state.users
          | some old =>
            s.state.users.set index (mergeUser env old (sanitizeUserUpdates updates)) := by
  cases hidx : s.state.users.findIdx? (fun u => u.id == id) with
  | none => simp only [Store.updateUser, hidx]
  | some index =>
    cases hold : s.state.users[index]? with
    | none => simp only [Store.updateUser, hidx, hold]
    | some old =>
      simp only [Store.updateUser, hidx, hold]
      rfl

/-- C35 (as stated, refuted). On the default installation `saveUser` accepts a new
user named `ADMIN` and accepts renaming the user `user_2` to `Admin`; after either
call two users have the name `admin` when letter case is ignored. -/
theorem saveUser_accepts_a_name_in_use :
    (Store.foldedUsernames appDefaultUsers.store).Nodup
    ∧ validateEmail (trim formNewAdmin.email) = true
    ∧ formNewAdmin.password ≠ ""
    ∧ Store.foldedUsernames
        (SaveUserResult.after appDefaultUsers
          (App.saveUser sampleEnv appDefaultUsers formNewAdmin)).store
        = ["admin", "operador", "gerente", "admin"]
    ∧ ¬ (Store.foldedUsernames
        (SaveUserResult.after appDefaultUsers
          (App.saveUser sampleEnv appDefaultUsers formNewAdmin)).store).Nodup
    ∧ validateEmail (trim formRenameOperator.email) = true
    ∧ Store.foldedUsernames
        (SaveUserResult.after appDefaultUsers
          (App.saveUser sampleEnv appDefaultUsers formRenameOperator)).store
        = ["admin", "admin", "gerente"]
    ∧ ¬ (Store.foldedUsernames
        (SaveUserResult.after appDefaultUsers
          (App.saveUser sampleEnv appDefaultUsers formRenameOperator)).store).Nodup := by
  decide

/-- C35 (amended). When the user names are pairwise distinct ignoring case and the
submitted name (trimmed) is, ignoring case, the name of no user other than the one
being edited, the user names after `saveUser` are pairwise distinct ignoring case,
in create mode, in edit mode and when the form is refused. -/
theorem saveUser_keeps_usernames_distinct (env : Env) (app : App) (form : UserForm)
    (hdistinct : (Store.foldedUsernames app.store).Nodup)
    (hfree : ∀ u ∈ app.store.state.users,
      toLowerCase u.username = toLowerCase (trim form.username) →
        form.userId ≠ ""
        ∧ app.store.state.users.find? (fun v => v.id == form.userId) = some u) :
    (Store.foldedUsernames
      (SaveUserResult.after app (App.saveUser env app form)).store).Nodup := by
  unfold App.saveUser
  simp only
  split
  · exact hdistinct
  · split
    · rename_i hedit
      have hid : form.userId ≠ "" := by simpa using hedit
      show (((Store.updateUser env app.store form.userId _).1.state.users).map
        (fun u : User => toLowerCase u.username)).Nodup
      rw [updateUser_users]
      cases hidx : app.store.state.users.findIdx? (fun u => u.id == form.userId) with
      | none => exact hdistinct
      | some index =>
        simp only
        cases hold : app.store.state.users[index]? with
        | none => exact hdistinct
        | some old =>
          simp only
          rw [List.map_set]
          apply nodup_set _ _ _ hdistinct
          intro j hj hget
          unfold Store.foldedUsernames at hget
          rw [List.getElem?_map] at hget
          cases hu : app.store.state.users[j]? with
          | none => simp [hu] at hget
          | some u =>
            rw [hu] at hget
            simp only [Option.map_some', Option.some.injEq] at hget
            have hname : toLowerCase u.username = toLowerCase (trim form.username) := by
              rw [hget]
              simp [mergeUser, sanitizeUserUpdates]
            obtain ⟨_, hfind⟩ := hfree u (List.getElem?_mem hu) hname
            rw [find?_eq_getElem?_of_findIdx? _ _ _ hidx] at hfind
            have hdiff := (List.nodup_iff_getElem?_ne_getElem?.mp hdistinct)
            have hlen : j < app.store.state.users.length :=
              (List.getElem?_eq_some.mp hu).1
            have hlen2 : index < app.store.state.users.length :=
              (List.getElem?_eq_some.mp hfind).1
            have hsame : (Store.foldedUsernames app.store)[j]?
                = (Store.foldedUsernames app.store)[index]? := by
              simp only [Store.foldedUsernames, List.getElem?_map, hu, hfind]
            rcases Nat.lt_or_gt_of_ne hj with hlt | hgt
            · exact hdiff j index hlt (by simpa [Store.foldedUsernames] using hlen2) hsame
            · exact hdiff index j hgt (by simpa [Store.foldedUsernames] using hlen) hsame.symm
    · rename_i hcreate
      have hid : form.userId = "" := by simpa using hcreate
      split
      · exact hdistinct
      · show ((app.store.state.users ++ [newUserOf env _]).map
          (fun u : User => toLowerCase u.username)).Nodup
        rw [List.map_append, List.map_singleton, nodup_append_singleton]
        refine ⟨hdistinct, ?_⟩
        intro hmem
        obtain ⟨u, hu, hname⟩ := List.mem_map.mp hmem
        exact (hfree u hu hname).1 hid

/-- C35 (amended) on the default installation: a new user `Bia`, a name not in use,
is accepted and the four names are distinct. -/
theorem saveUser_keeps_usernames_distinct_witness :
    Store.foldedUsernames
        (SaveUserResult.after appDefaultUsers
          (App.saveUser sampleEnv appDefaultUsers formNewBia)).store
      = ["admin", "operador", "gerente", "bia"]
    ∧ (Store.foldedUsernames
        (SaveUserResult.after appDefaultUsers
          (App.saveUser sampleEnv appDefaultUsers formNewBia)).store).Nodup :=
  ⟨by decide,
    saveUser_keeps_usernames_distinct sampleEnv appDefaultUsers formNewBia (by decide)
      (by decide)⟩

/-! ### Deleting users from the shell -/

theorem mem_eraseIdx_of_ne {α : Type} (l : List α) (i : Nat) (x y : α)
    (hx : x ∈ l) (hy : l[i]? = some y) (hne : x ≠ y) : x ∈ l.eraseIdx i := by
  induction l generalizing i with
  | nil => simp at hx
  | cons a l ih =>
    cases i with
    | zero =>
      simp only [List.getElem?_cons_zero, Option.some.injEq] at hy
      rw [List.eraseIdx_cons_zero]
      rcases List.mem_cons.mp hx with h | h
      · exact absurd (h.trans hy) hne
      · exact h
    | succ i =>
      rw [List.eraseIdx_cons_succ]
      rcases List.mem_cons.mp hx with h | h
      · exact h ▸ List.mem_cons_self _ _
      · exact List.mem_cons_of_mem _ (ih i h (by simpa using hy))

theorem storeDeleteUser_session (env : Env) (s : Store) (id : String) :
    (Store.deleteUser env s id).1.state.currentUser = s.state.currentUser := by
  unfold Store.deleteUser
  split
  · rfl
  · split
    · rfl
    · rfl

theorem storeDeleteUser_keeps (env : Env) (s : Store) (id : String) (u : User)
    (hu : u ∈ s.state.users) (hne : u.id ≠ id) :
    u ∈ (Store.deleteUser env s id).1.state.users := by
  cases hidx : s.state.users.findIdx? (fun v => v.id == id) with
  | none =>
    simp only [Store.deleteUser, hidx]
    exact hu
  | some index =>
    obtain ⟨v, hv, hp⟩ := findIdx?_some_getElem? _ _ _ hidx
    have hvid : v.id = id := by simpa using hp
    have hres : (Store.deleteUser env s id).1.state.users = s.state.users.eraseIdx index := by
      simp only [Store.deleteUser, hidx, hv]
      rfl
    rw [hres]
    apply mem_eraseIdx_of_ne _ _ _ _ hu hv
    intro huv
    exact hne (huv ▸ hvid)

theorem appDeleteUser_keeps (env : Env) (app : App) (id : String) (confirmed : Bool)
    (cur : Session) (hcur : app.store.state.currentUser = some cur) :
    (App.deleteUser env app id confirmed).store.state.currentUser = some cur
    ∧ ∀ u ∈ app.store.state.users, u.id = cur.id →
        u ∈ (App.deleteUser env app id confirmed).store.state.users := by
  unfold App.deleteUser
  split
  · exact ⟨hcur, fun u hu _ => hu⟩
  · rename_i user hfind
    have huser : user.id = id := by simpa using List.find?_some hfind
    split
    · exact ⟨hcur, fun u hu _ => hu⟩
    · rename_i hself
      split
      · constructor
        · show (Store.deleteUser env app.store id).1.state.currentUser = some cur
          rw [storeDeleteUser_session, hcur]
        · intro u hu huid
          apply storeDeleteUser_keeps env app.store id u hu
          intro hid
          apply hself
          simp [hcur, huser, ← hid, huid]
      · exact ⟨hcur, fun u hu _ => hu⟩

/-- C36. With a user logged in whose record is in `state.users`, `App.deleteUser(id)`
leaves every record with the id of the session in `state.users` and leaves the
session as it is, whatever the id and the answer to the dialog; so after every
sequence of `App.deleteUser` calls the record is still there and `state.users` is
not empty. -/
theorem deleteUser_keeps_logged_in_user (env : Env) (app : App) (cur : Session)
    (hcur : app.store.state.currentUser = some cur)
    (hrecord : ∃ u ∈ app.store.state.users, u.id = cur.id) :
    (∀ (id : String) (confirmed : Bool),
      ∀ u ∈ app.store.state.users, u.id = cur.id →
        u ∈ (App.deleteUser env app id confirmed).store.state.users)
    ∧ (∀ calls : List DeleteUserCall,
        (App.deleteUsers env app calls).store.state.currentUser = some cur
        ∧ (∀ u ∈ app.store.state.users, u.id = cur.id →
            u ∈ (App.deleteUsers env app calls).store.state.users)
        ∧ (App.deleteUsers env app calls).store.state.users ≠ []) := by
  have hseq : ∀ (calls : List DeleteUserCall) (a : App),
      a.store.state.currentUser = some cur →
      (App.deleteUsers env a calls).store.state.currentUser = some cur
      ∧ ∀ u ∈ a.store.state.users, u.id = cur.id →
          u ∈ (App.deleteUsers env a calls).store.state.users := by
    intro calls
    induction calls with
    | nil => exact fun a ha => ⟨ha, fun u hu _ => hu⟩
    | cons c rest ih =>
      intro a ha
      obtain ⟨h1, h2⟩ := appDeleteUser_keeps env a c.id c.confirmed cur ha
      obtain ⟨h3, h4⟩ := ih (App.deleteUser env a c.id c.confirmed) h1
      exact ⟨h3, fun u hu huid => h4 u (h2 u hu huid) huid⟩
  refine ⟨fun id confirmed => (appDeleteUser_keeps env app id confirmed cur hcur).2, ?_⟩
  intro calls
  obtain ⟨h1, h2⟩ := hseq calls app hcur
  refine ⟨h1, h2, ?_⟩
  obtain ⟨u, hu, huid⟩ := hrecord
  exact List.ne_nil_of_mem (h2 u hu huid)

/-- C36 on the default installation with the administrator logged in: deleting the
own user is refused, deleting the two others goes through, and the administrator
is the one user left. -/
theorem deleteUser_keeps_logged_in_user_witness :
    (App.deleteUsers sampleEnv appLoggedIn
        [{ id := "user_1", confirmed := true }, { id := "user_2", confirmed := true },
         { id := "user_3", confirmed := true }]).store.state.users.map (fun u => u.id)
      = ["user_1"]
    ∧ (App.deleteUsers sampleEnv appLoggedIn
        [{ id := "user_1", confirmed := true }, { id := "user_2", confirmed := true },
         { id := "user_3", confirmed := true }]).store.state.users ≠ [] :=
  ⟨by decide,
    ((deleteUser_keeps_logged_in_user sampleEnv appLoggedIn
        { id := "user_1"
          username := "admin"
          fullName := "Administrador do Sistema"
          email := "admin@sistema.com"
          profile := "admin"
          permissions := Store.getUserPermissions "admin" }
        (by decide) (by decide)).2
      [{ id := "user_1", confirmed := true }, { id := "user_2", confirmed := true },
       { id := "user_3", confirmed := true }]).2.2⟩

/-! ### The delete capability in the shell -/

/-- The check `App.deleteProduct` makes: when the matrix of the logged-in profile
denies `products.delete`, or nobody is logged in, nothing changes. -/
theorem deleteProduct_denied (env : Env) (app : App) (id : String) (confirmed : Bool)
    (hdenied : ∀ u, app.store.state.currentUser = some u →
      (Store.getUserPermissions u.profile).products.delete = false) :
    App.deleteProduct env app id confirmed = app := by
  unfold App.deleteProduct
  cases hu : app.store.state.currentUser with
  | none => simp
  | some u => simp [hdenied u hu]

/-- C37 (the defect). With the operator logged in, whose matrix denies the delete
capability on products, sales and expenses, `App.deleteProduct` removes nothing, but
`App.deleteSale` removes the sale `sale_s1` and raises the stock of `prod_a1` from
5 to 7, and `App.deleteExpense` removes the expense `exp_e1`: these two commands
never ask the permission matrix. -/
theorem deleteSale_ignores_the_permission_matrix :
    (appOperator.store.state.currentUser).map (fun u => u.profile) = some "operator"
    ∧ (Store.getUserPermissions "operator").products.delete = false
    ∧ (Store.getUserPermissions "operator").sales.delete = false
    ∧ (Store.getUserPermissions "operator").expenses.delete = false
    ∧ appOperator.store.state.sales.map (fun x => x.id) = ["sale_s1"]
    ∧ appOperator.store.state.expenses.map (fun x => x.id) = ["exp_e1"]
    ∧ appOperator.store.state.products.map (fun p => (p.id, p.stock)) = [("prod_a1", 5)]
    ∧ (App.deleteProduct sampleEnv appOperator "prod_a1" true).store.state.products.map
        (fun p => (p.id, p.stock)) = [("prod_a1", 5)]
    ∧ (App.deleteSale sampleEnv appOperator "sale_s1" true).store.state.sales.map
        (fun x => x.id) = []
    ∧ (App.deleteSale sampleEnv appOperator "sale_s1" true).store.state.products.map
        (fun p => (p.id, p.stock)) = [("prod_a1", 7)]
    ∧ (App.deleteExpense sampleEnv appOperator "exp_e1" true).store.state.expenses.map
        (fun x => x.id) = [] := by
  decide

/-! ### Expenses by category -/

theorem objSet_self {β : Type} (o : List (String × β)) (k : String) (v : β)
    (h : objGet o k = some v) : objSet o k v = o := by
  induction o with
  | nil => simp [objGet] at h
  | cons e o ih =>
    obtain ⟨k1, v1⟩ := e
    unfold objSet
    by_cases hk : (k1 == k) = true
    · simp only [objGet, List.find?_cons, hk, Option.map_some', Option.some.injEq] at h
      simp [hk, h]
    · have hk' : (k1 == k) = false := by simpa using hk
      simp only [objGet, List.find?_cons, hk'] at h
      simp only [hk', Bool.false_eq_true, ↓reduceIte, List.cons.injEq, true_and]
      exact ih h

theorem objSet_objSet {β : Type} (o : List (String × β)) (k : String) (v w : β) :
    objSet (objSet o k v) k w = objSet o k w := by
  induction o with
  | nil => simp [objSet]
  | cons e o ih =>
    obtain ⟨k1, v1⟩ := e
    by_cases hk : (k1 == k) = true
    · simp [objSet, hk]
    · have hk' : (k1 == k) = false := by simpa using hk
      simp [objSet, hk', ih]

theorem objSet_sum (o : List (String × ℚ)) (k : String) (v : ℚ) :
    ((objSet o k v).map (fun e => e.2)).sum
      = (o.map (fun e => e.2)).sum - (objGet o k).getD 0 + v := by
  induction o with
  | nil => simp [objSet, objGet]
  | cons e o ih =>
    obtain ⟨k1, v1⟩ := e
    by_cases hk : (k1 == k) = true
    · simp only [objSet, objGet, List.find?_cons, hk, ↓reduceIte, List.map_cons, List.sum_cons,
        Option.map_some', Option.getD_some]
      ring
    · have hk' : (k1 == k) = false := by simpa using hk
      have hget : objGet ((k1, v1) :: o) k = objGet o k := by
        simp [objGet, List.find?_cons, hk']
      rw [hget]
      simp only [objSet, hk', Bool.false_eq_true, ↓reduceIte, List.map_cons, List.sum_cons, ih]
      ring

/-- One round of the loop of `getExpensesByCategory` is one assignment: the entry of
the category becomes its old value (0 when missing) plus the value of the expense. -/
theorem groupStep_eq (grouped : List (String × ℚ)) (e : Expense) :
    (match objGet
        (match objGet grouped e.category with
          | some v => if v = 0 then objSet grouped e.category 0 else grouped
          | none => objSet grouped e.category 0) e.category with
      | some v =>
        objSet
          (match objGet grouped e.category with
            | some v => if v = 0 then objSet grouped e.category 0 else grouped
            | none => objSet grouped e.category 0) e.category (v + e.value)
      | none =>
        (match objGet grouped e.category with
          | some v => if v = 0 then objSet grouped e.category 0 else grouped
          | none => objSet grouped e.category 0))
      = objSet grouped e.category ((objGet grouped e.category).getD 0 + e.value) := by
  cases h : objGet grouped e.category with
  | none =>
    simp only [objGet_objSet, ↓reduceIte, objSet_objSet, Option.getD_none]
  | some v =>
    by_cases hv : v = 0
    · subst hv
      simp only [↓reduceIte, objGet_objSet, objSet_objSet, Option.getD_some]
    · simp only [hv, ↓reduceIte, h, Option.getD_some]

theorem getExpensesByCategory_eq_foldl (s : Store) (xs : List Expense) :
    Store.getExpensesByCategory s (some xs)
      = xs.foldl
          (fun grouped e =>
            objSet grouped e.category ((objGet grouped e.category).getD 0 + e.value)) [] := by
  unfold Store.getExpensesByCategory
  simp only [Option.getD_some]
  congr 1
  funext grouped e
  exact groupStep_eq grouped e

theorem categorySum_cons (e : Expense) (xs : List Expense) (k : String) :
    categorySum (e :: xs) k = (if e.category == k then e.value else 0) + categorySum xs k := by
  unfold categorySum
  by_cases h : e.category == k <;> simp [List.filter_cons, h]

theorem foldl_group_get (xs : List Expense) (grouped : List (String × ℚ)) (k : String) :
    objGet
        (xs.foldl
          (fun grouped e =>
            objSet grouped e.category ((objGet grouped e.category).getD 0 + e.value))
          grouped) k
      = if k ∈ xs.map (fun e => e.category) then
          some ((objGet grouped k).getD 0 + categorySum xs k)
        else objGet grouped k := by
  induction xs generalizing grouped with
  | nil => simp
  | cons e xs ih =>
    rw [List.foldl_cons, ih, categorySum_cons]
    by_cases hk : k = e.category
    · subst hk
      simp only [objGet_objSet, ↓reduceIte, Option.getD_some, beq_self_eq_true, List.map_cons,
        List.mem_cons, true_or]
      by_cases hmem : e.category ∈ xs.map (fun e => e.category)
      · rw [if_pos hmem]
        congr 1
        ring
      · rw [if_neg hmem]
        have h0 : categorySum xs e.category = 0 := by
          unfold categorySum
          have : xs.filter (fun x => x.category == e.category) = [] := by
            rw [List.filter_eq_nil_iff]
            intro x hx hxe
            exact hmem (List.mem_map.mpr ⟨x, hx, by simpa using hxe⟩)
          rw [this]
          rfl
        rw [h0]
        congr 1
        ring
    · have hk' : (e.category == k) = false := by
        rw [beq_eq_false_iff_ne]
        exact fun h => hk h.symm
      simp only [objGet_objSet, hk, ↓reduceIte, hk', Bool.false_eq_true, zero_add,
        List.map_cons, List.mem_cons, false_or]

theorem foldl_group_sum (xs : List Expense) (grouped : List (String × ℚ)) :
    ((xs.foldl
        (fun grouped e =>
          objSet grouped e.category ((objGet grouped e.category).getD 0 + e.value))
        grouped).map (fun e => e.2)).sum
      = (grouped.map (fun e => e.2)).sum + (xs.map (fun e => e.value)).sum := by
  induction xs generalizing grouped with
  | nil => simp
  | cons e xs ih =>
    rw [List.foldl_cons, ih, objSet_sum]
    simp only [List.map_cons, List.sum_cons]
    ring

theorem foldl_group_nodup (xs : List Expense) (grouped : List (String × ℚ))
    (hnodup : (grouped.map (fun e => e.1)).Nodup) :
    ((xs.foldl
        (fun grouped e =>
          objSet grouped e.category ((objGet grouped e.category).getD 0 + e.value))
        grouped).map (fun e => e.1)).Nodup := by
  induction xs generalizing grouped with
  | nil => exact hnodup
  | cons e xs ih =>
    rw [List.foldl_cons]
    exact ih _ (objSet_nodup _ _ _ hnodup)

/-- C38. In the report of a date range the values of `expensesByCategory` sum to
`totalExpenses`; a category is a key of `expensesByCategory` exactly when some
in-range expense has it, each key occurs once, and its value is the sum of the
values of the in-range expenses of that category. -/
theorem expensesByCategory_sums (env : Env) (s : Store) (startDate endDate : Option String) :
    (((Store.getFinancialReport env s startDate endDate).expensesByCategory).map
        (fun e => e.2)).sum
      = (Store.getFinancialReport env s startDate endDate).totalExpenses
    ∧ (((Store.getFinancialReport env s startDate endDate).expensesByCategory).map
        (fun e => e.1)).Nodup
    ∧ (∀ k : String,
        k ∈ ((Store.getFinancialReport env s startDate endDate).expensesByCategory).map
              (fun e => e.1)
          ↔ ∃ x ∈ s.state.expenses,
              inDateRange startDate endDate x.date = true ∧ x.category = k)
    ∧ (∀ e ∈ (Store.getFinancialReport env s startDate endDate).expensesByCategory,
        e.2 = categorySum
          (s.state.expenses.filter (fun x => inDateRange startDate endDate x.date)) e.1) := by
  have hcat : (Store.getFinancialReport env s startDate endDate).expensesByCategory
      = (s.state.expenses.filter (fun x => inDateRange startDate endDate x.date)).foldl
          (fun grouped e =>
            objSet grouped e.category ((objGet grouped e.category).getD 0 + e.value)) [] := by
    show Store.getExpensesByCategory s (some (Store.filterExpensesByDate s startDate endDate))
      = _
    rw [getExpensesByCategory_eq_foldl, filterExpensesByDate_eq]
  have htotal : (Store.getFinancialReport env s startDate endDate).totalExpenses
      = ((s.state.expenses.filter (fun x => inDateRange startDate endDate x.date)).map
          (fun e => e.value)).sum := by
    show Store.getTotalExpenses s (some (Store.filterExpensesByDate s startDate endDate)) = _
    rw [filterExpensesByDate_eq]
    simp only [Store.getTotalExpenses, Option.getD_some, foldl_add_map, zero_add]
  have hnodup := foldl_group_nodup
    (s.state.expenses.filter (fun x => inDateRange startDate endDate x.date)) []
    List.nodup_nil
  have hkeys : ∀ k : String,
      k ∈ ((s.state.expenses.filter (fun x => inDateRange startDate endDate x.date)).foldl
          (fun grouped e =>
            objSet grouped e.category ((objGet grouped e.category).getD 0 + e.value))
          []).map (fun e => e.1)
        ↔ k ∈ (s.state.expenses.filter (fun x => inDateRange startDate endDate x.date)).map
            (fun e => e.category) := by
    intro k
    have hget := foldl_group_get
      (s.state.expenses.filter (fun x => inDateRange startDate endDate x.date)) [] k
    constructor
    · intro hmem
      by_contra hnot
      rw [if_neg hnot] at hget
      have hnone := (objGet_eq_none_iff _ k).mp hget
      exact hnone hmem
    · intro hmem
      by_contra hnot
      rw [if_pos hmem] at hget
      have hnone := (objGet_eq_none_iff _ k).mpr hnot
      rw [hnone] at hget
      simp at hget
  rw [hcat, htotal]
  refine ⟨?_, hnodup, ?_, ?_⟩
  · rw [foldl_group_sum]
    simp
  · intro k
    rw [hkeys k]
    simp only [List.mem_map, List.mem_filter]
    constructor
    · rintro ⟨x, ⟨hx, hr⟩, hc⟩
      exact ⟨x, hx, hr, hc⟩
    · rintro ⟨x, hx, hr, hc⟩
      exact ⟨x, ⟨hx, hr⟩, hc⟩
  · intro e he
    have hget := objGet_of_mem _ e hnodup he
    rw [foldl_group_get] at hget
    have hmem := (hkeys e.1).mp (List.mem_map_of_mem (fun e => e.1) he)
    rw [if_pos hmem] at hget
    simp only [objGet, List.find?_nil, Option.map_none', Option.getD_none, zero_add,
      Option.some.injEq] at hget
    exact hget.symm

/-- C38 on the store with three expenses: `Escritório` collects 5 + 7 and
`Transporte` 30, and the two values sum to the total of 42. -/
theorem expensesByCategory_sums_witness :
    (Store.getFinancialReport sampleEnv threeExpensesStore none none).expensesByCategory
      = [("Escritório", 12), ("Transporte", 30)]
    ∧ (Store.getFinancialReport sampleEnv threeExpensesStore none none).totalExpenses = 42
    ∧ (Store.getFinancialReport sampleEnv threeExpensesStore none
          (some "2023-11-11")).expensesByCategory
      = [("Escritório", 5)]
    ∧ (((Store.getFinancialReport sampleEnv threeExpensesStore none none).expensesByCategory).map
        (fun e => e.2)).sum
      = (Store.getFinancialReport sampleEnv threeExpensesStore none none).totalExpenses :=
  ⟨by decide!, by decide!, by decide!,
    (expensesByCategory_sums sampleEnv threeExpensesStore none none).1⟩

/-! ### Users brought in from a backup -/

theorem importData_merge_users (env : Env) (s : Store) (data : ImportPayload)
    (us : List User) (husers : data.users = some us) :
    (Store.importData env s data true).state.users
      = s.state.users
        ++ us.filter (fun u => !((s.state.users.map (fun u => u.id)).contains u.id)) := by
  simp only [Store.importData, husers]
  rfl

/-- C39 (as stated, refuted). The source has an inactive `bia` and, after it, an
active `Bia`; the target has no user.  After the export and the merging import the
stored password of `Bia` is the placeholder, but `login("Bia", "***")` finds the
inactive account first and fails. -/
theorem imported_user_can_fail_to_log_in :
    userBiaActive ∈ twoBiasStore.state.users
    ∧ userBiaActive.active = true
    ∧ emptyStore.state.users = []
    ∧ ((Store.importData sampleEnv emptyStore
          (Store.exportAllData sampleEnv twoBiasStore).toPayload true).state.users.map
        (fun u => (u.id, u.username, u.password, u.active)))
        = [("user_9", "bia", "***", false), ("user_10", "Bia", "***", true)]
    ∧ (Store.login sampleEnv
          (Store.importData sampleEnv emptyStore
            (Store.exportAllData sampleEnv twoBiasStore).toPayload true)
          "Bia" "***").2
        = .failure inactiveMessage := by
  decide

/-- C39 (amended). Let `u` be an active user of the source, no user of the target
having its id or (ignoring case) its name, and no other user of the source with its
name ignoring case being inactive.  After the export of the source is imported with merge into
the target, `u` is stored with the placeholder as password,
`login(u.username, '***')` succeeds, and a login under that name with any other
password fails as invalid. -/
theorem imported_user_logs_in_with_placeholder (env1 env2 env3 : Env) (source target : Store)
    (u : User)
    (hu : u ∈ source.state.users)
    (hactive : u.active = true)
    (hid : ∀ t ∈ target.state.users, t.id ≠ u.id)
    (hname : ∀ t ∈ target.state.users, toLowerCase t.username ≠ toLowerCase u.username)
    (hsource : ∀ v ∈ source.state.users, v ≠ u →
      toLowerCase v.username = toLowerCase u.username → v.active = true) :
    { u with password := passwordPlaceholder }
        ∈ (Store.importData env2 target
            (Store.exportAllData env1 source).toPayload true).state.users
    ∧ (Store.login env3
          (Store.importData env2 target (Store.exportAllData env1 source).toPayload true)
          u.username passwordPlaceholder).2.isSuccess = true
    ∧ ∀ password : String, password ≠ passwordPlaceholder →
        (Store.login env3
          (Store.importData env2 target (Store.exportAllData env1 source).toPayload true)
          u.username password).2 = .failure invalidMessage := by
  have husers := importData_merge_users env2 target
    (Store.exportAllData env1 source).toPayload
    (source.state.users.map (fun u : User => { u with password := passwordPlaceholder })) rfl
  have hmem : { u with password := passwordPlaceholder }
      ∈ (source.state.users.map (fun u => { u with password := passwordPlaceholder })).filter
          (fun u => !((target.state.users.map (fun u => u.id)).contains u.id)) := by
    rw [List.mem_filter]
    refine ⟨List.mem_map.mpr ⟨u, hu, rfl⟩, ?_⟩
    simp only [Bool.not_eq_true', List.contains_eq_any_beq, List.any_eq_false, List.mem_map,
      beq_iff_eq, forall_exists_index, and_imp, forall_apply_eq_imp_iff₂]
    intro t ht heq
    exact hid t ht heq.symm
  have htarget : ∀ password : String,
      target.state.users.find? (credentialsMatch u.username password) = none := by
    intro password
    rw [List.find?_eq_none]
    intro t ht hmatch
    rw [credentialsMatch_iff] at hmatch
    exact hname t ht hmatch.1
  refine ⟨?_, ?_, ?_⟩
  · rw [husers]
    exact List.mem_append_right _ hmem
  · cases hfind : (Store.importData env2 target
        (Store.exportAllData env1 source).toPayload true).state.users.find?
        (credentialsMatch u.username passwordPlaceholder) with
    | none =>
      rw [List.find?_eq_none] at hfind
      have hbad := hfind { u with password := passwordPlaceholder }
        (by rw [husers]; exact List.mem_append_right _ hmem)
      exact absurd ((credentialsMatch_iff _ _ _).mpr ⟨rfl, rfl⟩) hbad
    | some w =>
      have hw := List.mem_of_find?_eq_some hfind
      have hmatch := (credentialsMatch_iff _ _ _).mp (List.find?_some hfind)
      rw [husers] at hw
      have hwactive : w.active = true := by
        rcases List.mem_append.mp hw with h | h
        · exact absurd hmatch.1 (hname w h)
        · obtain ⟨v, hv, rfl⟩ := List.mem_map.mp (List.mem_filter.mp h).1
          by_cases hvu : v = u
          · rw [hvu]
            exact hactive
          · exact hsource v hv hvu hmatch.1
      exact (login_of_active env3 _ u.username passwordPlaceholder w hfind hwactive).1
  · intro password hpassword
    have hnone : (Store.importData env2 target
        (Store.exportAllData env1 source).toPayload true).state.users.find?
        (credentialsMatch u.username password) = none := by
      rw [List.find?_eq_none]
      intro w hw hmatch
      rw [credentialsMatch_iff] at hmatch
      rw [husers] at hw
      rcases List.mem_append.mp hw with h | h
      · exact hname w h hmatch.1
      · obtain ⟨v, hv, rfl⟩ := List.mem_map.mp (List.mem_filter.mp h).1
        exact hpassword hmatch.2.symm
    rw [login_of_none env3 _ u.username password hnone]

/-- C39 (amended) with the active `Bia` as only source user and the default
installation as target: her stored password is the placeholder, the login with the
placeholder succeeds and the login with her original password fails. -/
theorem imported_user_logs_in_with_placeholder_witness :
    ((Store.importData sampleEnv defaultUsersStore
          (Store.exportAllData sampleEnv oneBiaStore).toPayload true).state.users.map
        (fun u => (u.username, u.password)))
        = [("admin", "admin"), ("operador", "operador"), ("gerente", "gerente"), ("Bia", "***")]
    ∧ (Store.login sampleEnv
          (Store.importData sampleEnv defaultUsersStore
            (Store.exportAllData sampleEnv oneBiaStore).toPayload true)
          "Bia" "s3gura").2 = .failure invalidMessage
    ∧ (Store.login sampleEnv
          (Store.importData sampleEnv defaultUsersStore
            (Store.exportAllData sampleEnv oneBiaStore).toPayload true)
          userBiaActive.username passwordPlaceholder).2.isSuccess = true :=
  ⟨by decide, by decide,
    (imported_user_logs_in_with_placeholder sampleEnv sampleEnv sampleEnv oneBiaStore
      defaultUsersStore userBiaActive (by decide) (by decide) (by decide) (by decide)
      (by decide)).2.1⟩

/-! ### The sales report of the shell -/

/-- C40. In `generateSalesReport(start, end)` the count, the total, the cost and the
average ticket (total / count, 0 without a sale) are those of the sales inside the
date range, while the top-product list is `getTopSellingProducts(10)` over all
sales: it is the same for every date range. -/
theorem generateSalesReport_figures (app : App) (startDate endDate : Option String) :
    (App.generateSalesReport app startDate endDate).salesCount
        = (app.store.state.sales.filter
            (fun x => inDateRange startDate endDate x.date)).length
    ∧ (App.generateSalesReport app startDate endDate).totalSales
        = ((app.store.state.sales.filter
            (fun x => inDateRange startDate endDate x.date)).map (fun x => x.total)).sum
    ∧ (App.generateSalesReport app startDate endDate).totalCost
        = ((app.store.state.sales.filter
            (fun x => inDateRange startDate endDate x.date)).map (fun x => x.cost)).sum
    ∧ (App.generateSalesReport app startDate endDate).ticketMedium
        = (if (App.generateSalesReport app startDate endDate).salesCount = 0 then 0
           else (App.generateSalesReport app startDate endDate).totalSales
             / ((App.generateSalesReport app startDate endDate).salesCount : ℚ))
    ∧ (App.generateSalesReport app startDate endDate).topProducts
        = Store.getTopSellingProducts app.store 10
    ∧ ∀ startDate2 endDate2 : Option String,
        (App.generateSalesReport app startDate2 endDate2).topProducts
          = (App.generateSalesReport app startDate endDate).topProducts := by
  refine ⟨?_, ?_, ?_, ?_, rfl, fun _ _ => rfl⟩
  · show (Store.filterSalesByDate app.store startDate endDate).length = _
    rw [filterSalesByDate_eq]
  · show Store.getTotalSales app.store (some (Store.filterSalesByDate app.store startDate
      endDate)) = _
    rw [filterSalesByDate_eq]
    simp only [Store.getTotalSales, Option.getD_some, foldl_add_map, zero_add]
  · show Store.getTotalCost app.store (some (Store.filterSalesByDate app.store startDate
      endDate)) = _
    rw [filterSalesByDate_eq]
    simp only [Store.getTotalCost, Option.getD_some, foldl_add_map, zero_add]
  · show (if (Store.filterSalesByDate app.store startDate endDate).length > 0 then _ else 0)
      = if (Store.filterSalesByDate app.store startDate endDate).length = 0 then 0 else _
    by_cases h : (Store.filterSalesByDate app.store startDate endDate).length = 0
    · rw [if_pos h, if_neg (by omega)]
    · rw [if_neg h, if_pos (by omega)]
      rfl

/-- C40 on the store with three sales: for the range of 16 November alone the report
counts one sale of 28, and its top-product list still starts with the 5 units of
`prod_c3` sold over two days, as for the whole period. -/
theorem generateSalesReport_figures_witness :
    (App.generateSalesReport appThreeSales (some "2023-11-16") (some "2023-11-16")).salesCount
      = 1
    ∧ (App.generateSalesReport appThreeSales (some "2023-11-16") (some "2023-11-16")).totalSales
      = 28
    ∧ (App.generateSalesReport appThreeSales (some "2023-11-16")
        (some "2023-11-16")).ticketMedium = 28
    ∧ (App.generateSalesReport appThreeSales none none).salesCount = 3
    ∧ (App.generateSalesReport appThreeSales none none).ticketMedium = 85 / 3
    ∧ (App.generateSalesReport appThreeSales (some "2024-01-01") none).ticketMedium = 0
    ∧ (App.generateSalesReport appThreeSales (some "2023-11-16")
        (some "2023-11-16")).topProducts.map (fun p => (p.id, p.quantity))
      = [("prod_c3", 5), ("prod_a1", 2), ("prod_b2", 2)]
    ∧ (App.generateSalesReport appThreeSales (some "2023-11-16")
        (some "2023-11-16")).topProducts
      = (App.generateSalesReport appThreeSales none none).topProducts :=
  ⟨by decide!, by decide!, by decide!, by decide!, by decide!, by decide!, by decide!,
    (generateSalesReport_figures appThreeSales none none).2.2.2.2.2 (some "2023-11-16")
      (some "2023-11-16")⟩

/-! ### Letters and white space outside ASCII -/

/-- The lowercase conversion folds accented and Greek letters, writes the final
sigma, and expands the dotted capital I. -/
theorem toLowerCase_examples :
    toLowerCase "JOSÉ" = "josé"
    ∧ toLowerCase "ESCRITÓRIO" = "escritório"
    ∧ toLowerCase "Operador Padrão" = "operador padrão"
    ∧ toLowerCase "ΟΔΟΣ" = "οδος"
    ∧ toLowerCase "ΣΟΦΙΑ" = "σοφια"
    ∧ toLowerCase "İ" = String.mk [Char.ofNat 105, Char.ofNat 775]
    ∧ toLowerCase "Admin-01" = "admin-01" := by
  decide!

/-- The trimming removes the no-break space and the line separators like the
ordinary blanks. -/
theorem trim_examples :
    trim (noBreakSpace ++ "Bob" ++ noBreakSpace) = "Bob"
    ∧ trim noBreakSpace = ""
    ∧ trim (String.mk [Char.ofNat 9, Char.ofNat 8232, 'B', 'o', 'b', Char.ofNat 65279]) = "Bob"
    ∧ trim " Ana  Bia " = "Ana  Bia" := by
  decide

/-- A client name made of a no-break space is empty after trimming: `saveSale` warns
and saves nothing. -/
theorem saveSale_blank_client :
    App.saveSale sampleEnv appA1 noBreakSpace
      = .warned "Por favor, informe o nome do cliente." := by
  decide

/-- The login ignores the case of accented letters: `JOSÉ` logs in as `josé`. -/
theorem login_folds_accented_letters :
    (Store.login sampleEnv joseStore "JOSÉ" "pw").2.isSuccess = true
    ∧ (Store.login sampleEnv joseStore "JOSE" "pw").2 = .failure invalidMessage := by
  decide

/-- The searches ignore the case of accented letters. -/
theorem search_folds_accented_letters :
    (Store.searchExpenses sampleStore (some "ESCRITÓRIO")).map (fun e => e.id) = ["exp_e1"]
    ∧ (Store.filterLogs operatorStore
          { noLogFilters with search := some "R PADRÃO" }).map (fun l => l.userName)
        = ["Operador Padrão"] := by
  decide

/-- A user name that differs from `admin` by a leading no-break space is `admin`
after trimming: the new user is stored under that name. -/
theorem saveUser_trims_no_break_space :
    Store.foldedUsernames
        (SaveUserResult.after appDefaultUsers
          (App.saveUser sampleEnv appDefaultUsers formNewAdminBehindSpace)).store
      = ["admin", "operador", "gerente", "admin"] := by
  decide

/-- Two accounts whose names differ by the case of an accented letter share a name
for the login: after the import the login of the active `josé` finds the inactive
`JOSÉ` first. -/
theorem imported_accented_name_meets_inactive_account :
    (Store.login sampleEnv
        (Store.importData sampleEnv emptyStore
          (Store.exportAllData sampleEnv twoJosesStore).toPayload true)
        "josé" "***").2
      = .failure inactiveMessage := by
  decide

end SGPro
